import Mathlib

/-!
# UART trace-log queue (`source/config/trace/trace_log_config.c`)

A shallow embedding of the DMA output queue of the trace logger: the ring of
message slots, the drop counter, the enqueue / dequeue / start-transmission
helpers, the public output function and the transmit-complete callback.

Machine integers are natural numbers reduced modulo their width where the C
code can wrap (`uint8_t` count, `uint16_t` length, `uint32_t` counters).
Bytes are natural numbers; a C string argument is the list of bytes found at
the pointer, read up to the first NUL (the end of the list counts as a NUL).
The two hardware observations made by `uart_start_transmission`
(`huart2.gState == HAL_UART_STATE_READY` and the status returned by
`HAL_UART_Transmit_DMA`) are inputs of the model.
-/

namespace TraceLog

/-! ## Constants (`trace_log_config.h`) -/

/-- `#define TRACE_LOG_MAX_MESSAGE_SIZE 256` -/
def TRACE_LOG_MAX_MESSAGE_SIZE : Nat := 256

/-- `#define TRACE_LOG_UART_QUEUE_SIZE 32` -/
def TRACE_LOG_UART_QUEUE_SIZE : Nat := 32

/-- `#define TRACE_LOG_UART_MESSAGE_SIZE TRACE_LOG_MAX_MESSAGE_SIZE` -/
def TRACE_LOG_UART_MESSAGE_SIZE : Nat := TRACE_LOG_MAX_MESSAGE_SIZE

/-! ## Types -/

/-- Modelled from the spec: the result enumeration `tTraceLogResult` is declared in
`trace_log_types.h`, which is not part of the sources; only the four enumerators
used by `trace_log_config.c` are listed, assumed pairwise distinct. -/
inductive tTraceLogResult where
  | TL_RESULT_OK
  | TL_RESULT_ERROR
  | TL_RESULT_INVALID_PARAM
  | TL_RESULT_BUFFER_FULL
  deriving DecidableEq, Repr

open tTraceLogResult

/-- `tTraceLogUartMessage`: `char message[256]`, `uint16_t length`, `bool in_use`. -/
structure tTraceLogUartMessage where
  message : List Nat
  length : Nat
  in_use : Bool
  deriving DecidableEq, Repr

/-- `tTraceLogUartQueue`: `messages[32]`, `uint8_t head, tail, count`, `bool dma_busy`. -/
structure tTraceLogUartQueue where
  messages : List tTraceLogUartMessage
  head : Nat
  tail : Nat
  count : Nat
  dma_busy : Bool
  deriving DecidableEq, Repr

/-- The file-scope variables of `trace_log_config.c`:
`uart_queue`, `trace_dropped_count` and `callback_count`. -/
structure Globals where
  uart_queue : tTraceLogUartQueue
  trace_dropped_count : Nat
  callback_count : Nat
  deriving DecidableEq, Repr

/-- One call of `HAL_UART_Transmit_DMA(&huart2, msg->message, msg->length)`:
the slot the buffer pointer designates, the bytes of that buffer at the time of
the call, and the requested size. -/
structure TxRequest where
  slot : Nat
  buffer : List Nat
  size : Nat
  deriving DecidableEq, Repr

/-! ## C library helpers -/

/-- The bytes of a C string: everything before the first NUL. -/
def cstr (s : List Nat) : List Nat := s.takeWhile (fun c => c != 0)

/-- `strlen`. -/
def strlen (s : List Nat) : Nat := (cstr s).length

/-- `strncpy(dst, src, n)`: copies at most `n` bytes of the string `src`, pads with
NULs up to `n` bytes, and leaves the rest of `dst` alone. -/
def strncpy (dst src : List Nat) (n : Nat) : List Nat :=
  let s := (cstr src).take n
  s ++ List.replicate (n - s.length) 0 ++ dst.drop n

/-- Decimal digits of `n` as ASCII bytes (the `%lu` conversion). -/
def decimal (n : Nat) : List Nat := (Nat.toDigits 10 n).map Char.toNat

/-- `snprintf(drop_msg, sizeof(drop_msg), "Dropped messages: %lu\r\n", n)` with
`char drop_msg[64]`: at most 63 bytes are written before the terminator. -/
def drop_msg (n : Nat) : List Nat :=
  (([68, 114, 111, 112, 112, 101, 100, 32, 109, 101, 115, 115, 97, 103, 101, 115, 58, 32]
      ++ decimal n ++ [13, 10]).take 63)

/-- An all-zero slot, as left by `memset`. -/
def zero_message : tTraceLogUartMessage :=
  { message := List.replicate TRACE_LOG_UART_MESSAGE_SIZE 0, length := 0, in_use := false }

/-- Read of `uart_queue.messages[i]`. -/
def slot_at (q : tTraceLogUartQueue) (i : Nat) : tTraceLogUartMessage :=
  q.messages.getD i zero_message

/-! ## Functions of `trace_log_config.c` -/

/-- `uart_queue_is_full`: `count >= TRACE_LOG_UART_QUEUE_SIZE`. -/
def uart_queue_is_full (g : Globals) : Bool :=
  decide (g.uart_queue.count ≥ TRACE_LOG_UART_QUEUE_SIZE)

/-- `uart_queue_is_empty`: `count == 0`. -/
def uart_queue_is_empty (g : Globals) : Bool :=
  decide (g.uart_queue.count = 0)

/-- `trace_log_init`: zeroes the queue; the two counters are not touched. -/
def trace_log_init (g : Globals) : Globals :=
  { g with uart_queue :=
      { messages := List.replicate TRACE_LOG_UART_QUEUE_SIZE zero_message,
        head := 0, tail := 0, count := 0, dma_busy := false } }

/-- The slot written by `uart_queue_enqueue` for `message`, over the old slot `old`:
`strncpy` of 255 bytes, terminator at index 255, `length = strlen`, `in_use = true`. -/
def fill_slot (old : tTraceLogUartMessage) (message : List Nat) : tTraceLogUartMessage :=
  let buf := (strncpy old.message message (TRACE_LOG_UART_MESSAGE_SIZE - 1)).set
    (TRACE_LOG_UART_MESSAGE_SIZE - 1) 0
  { message := buf, length := strlen buf % 65536, in_use := true }

/-- `uart_queue_enqueue`. The recursive call stores the drop notice after the drop
counter has been cleared; its result is ignored. -/
def uart_queue_enqueue (g : Globals) (message : List Nat) : tTraceLogResult × Globals :=
  if uart_queue_is_full g then
    (TL_RESULT_BUFFER_FULL, g)
  else
    let g1 :=
      if _h : g.trace_dropped_count > 0 then
        (uart_queue_enqueue { g with trace_dropped_count := 0 }
          (drop_msg g.trace_dropped_count)).2
      else g
    let q := g1.uart_queue
    let msg := fill_slot (slot_at q q.tail) message
    (TL_RESULT_OK,
      { g1 with uart_queue :=
          { q with messages := q.messages.set q.tail msg,
                   tail := (q.tail + 1) % TRACE_LOG_UART_QUEUE_SIZE,
                   count := (q.count + 1) % 256 } })
termination_by g.trace_dropped_count
decreasing_by simp_wf; omega

/-- `uart_queue_dequeue`. -/
def uart_queue_dequeue (g : Globals) : tTraceLogResult × Globals :=
  if uart_queue_is_empty g then
    (TL_RESULT_ERROR, g)
  else
    let q := g.uart_queue
    (TL_RESULT_OK,
      { g with uart_queue :=
          { q with messages := q.messages.set q.head { slot_at q q.head with in_use := false },
                   head := (q.head + 1) % TRACE_LOG_UART_QUEUE_SIZE,
                   count := (q.count + 255) % 256 } })

/-- `uart_start_transmission`. `ready` is `huart2.gState == HAL_UART_STATE_READY`,
`hal_ok` is `HAL_UART_Transmit_DMA(..) == HAL_OK`. The third component is the
transmit request handed to the HAL, if any. -/
def uart_start_transmission (g : Globals) (ready hal_ok : Bool) :
    tTraceLogResult × Globals × Option TxRequest :=
  if uart_queue_is_empty g then
    (TL_RESULT_ERROR, g, none)
  else if g.uart_queue.dma_busy then
    (TL_RESULT_ERROR, g, none)
  else if !ready then
    (TL_RESULT_ERROR, g, none)
  else
    let msg := slot_at g.uart_queue g.uart_queue.head
    if msg.length = 0 ∨ msg.length > TRACE_LOG_UART_MESSAGE_SIZE then
      (TL_RESULT_ERROR, (uart_queue_dequeue g).2, none)
    else
      let req : TxRequest :=
        { slot := g.uart_queue.head, buffer := msg.message, size := msg.length }
      if !hal_ok then
        (TL_RESULT_OK, { g with uart_queue := { g.uart_queue with dma_busy := false } }, some req)
      else
        (TL_RESULT_ERROR, { g with uart_queue := { g.uart_queue with dma_busy := true } }, some req)

/-- `trace_log_uart_output`; `none` is the NULL pointer. -/
def trace_log_uart_output (g : Globals) (message : Option (List Nat)) (ready hal_ok : Bool) :
    tTraceLogResult × Globals × Option TxRequest :=
  match message with
  | none => (TL_RESULT_INVALID_PARAM, g, none)
  | some m =>
    if uart_queue_is_full g then
      (TL_RESULT_BUFFER_FULL,
        { g with trace_dropped_count := (g.trace_dropped_count + 1) % 4294967296 }, none)
    else
      let r := uart_queue_enqueue g m
      if r.1 ≠ TL_RESULT_OK then
        (r.1, r.2, none)
      else if !r.2.uart_queue.dma_busy then
        uart_start_transmission r.2 ready hal_ok
      else
        (r.1, r.2, none)

/-- `trace_log_tx_complete_callback`. -/
def trace_log_tx_complete_callback (g : Globals) (ready hal_ok : Bool) :
    Globals × Option TxRequest :=
  let g1 : Globals :=
    { g with callback_count := (g.callback_count + 1) % 4294967296,
             uart_queue := { g.uart_queue with dma_busy := false } }
  let r := uart_queue_dequeue g1
  if r.1 = TL_RESULT_OK then
    if !uart_queue_is_empty r.2 then
      let t := uart_start_transmission r.2 ready hal_ok
      (t.2.1, t.2.2)
    else (r.2, none)
  else (r.2, none)

/-! ## Auxiliary definitions used in the statements -/

/-- The straight-line part of `uart_queue_enqueue` (lines 210-222): fill the slot at
`tail`, advance `tail`, increment `count`. -/
def push (g : Globals) (message : List Nat) : Globals :=
  let q := g.uart_queue
  { g with uart_queue :=
      { q with messages := q.messages.set q.tail (fill_slot (slot_at q q.tail) message),
               tail := (q.tail + 1) % TRACE_LOG_UART_QUEUE_SIZE,
               count := (q.count + 1) % 256 } }

/-- The update done by `uart_queue_dequeue` on a non-empty queue (lines 237-242). -/
def pop (g : Globals) : Globals :=
  let q := g.uart_queue
  { g with uart_queue :=
      { q with messages := q.messages.set q.head { slot_at q q.head with in_use := false },
               head := (q.head + 1) % TRACE_LOG_UART_QUEUE_SIZE,
               count := (q.count + 255) % 256 } }

/-- A slot holding the string `m` truncated to 255 bytes: the bytes, NUL padding up to
256, the truncated length, and the in-use mark. -/
def stored_slot (m : List Nat) : tTraceLogUartMessage :=
  { message := (cstr m).take 255 ++ List.replicate (256 - min (strlen m) 255) 0,
    length := min (strlen m) 255,
    in_use := true }

/-- The array shapes fixed by the C types: 32 slots of 256 bytes each. -/
def ShapeOk (g : Globals) : Prop :=
  g.uart_queue.messages.length = 32 ∧ ∀ s ∈ g.uart_queue.messages, s.message.length = 256

instance (g : Globals) : Decidable (ShapeOk g) := by
  unfold ShapeOk; infer_instance

/-- The queued entries in transmission order: `count` slots starting at `head`. -/
def pending (g : Globals) : List tTraceLogUartMessage :=
  (List.range g.uart_queue.count).map
    (fun k => slot_at g.uart_queue ((g.uart_queue.head + k) % TRACE_LOG_UART_QUEUE_SIZE))

/-- The head slot passes the length validation of `uart_start_transmission`. -/
def HeadValid (g : Globals) : Prop :=
  (slot_at g.uart_queue g.uart_queue.head).length ≠ 0 ∧
  (slot_at g.uart_queue g.uart_queue.head).length ≤ 256

instance (g : Globals) : Decidable (HeadValid g) := by
  unfold HeadValid; infer_instance

/-- The first two statements of `trace_log_tx_complete_callback`. -/
def clear_busy (g : Globals) : Globals :=
  { g with callback_count := (g.callback_count + 1) % 4294967296,
           uart_queue := { g.uart_queue with dma_busy := false } }

/-- The counter bound and the busy flag's meaning, kept by every call. -/
def CountInv (g : Globals) : Prop :=
  g.uart_queue.count ≤ 33 ∧ (g.uart_queue.dma_busy = true → 1 ≤ g.uart_queue.count)

/-- A call into the module from outside, with the hardware observations made during it. -/
inductive Call where
  | output (message : Option (List Nat)) (ready hal_ok : Bool)
  | tx_complete (ready hal_ok : Bool)
  deriving DecidableEq, Repr

/-- Effect of one call on the globals. -/
def Call.apply (g : Globals) : Call → Globals
  | .output message ready hal_ok => (trace_log_uart_output g message ready hal_ok).2.1
  | .tx_complete ready hal_ok => (trace_log_tx_complete_callback g ready hal_ok).1

/-- Effect of a sequence of calls. -/
def run (g : Globals) (cs : List Call) : Globals := cs.foldl Call.apply g

/-- The state at program start: all statics zero, then `trace_log_init`. -/
def boot : Globals :=
  trace_log_init
    { uart_queue := { messages := List.replicate TRACE_LOG_UART_QUEUE_SIZE zero_message,
                      head := 0, tail := 0, count := 0, dma_busy := false },
      trace_dropped_count := 0, callback_count := 0 }

/-- A queue whose count field says full, everything else as after `trace_log_init`. -/
def full_queue_sample : Globals :=
  { boot with uart_queue := { boot.uart_queue with count := 32 } }

/-- A queue with 31 entries and 7 recorded drops: the notice and the message do not both fit. -/
def nearly_full_sample : Globals :=
  { boot with uart_queue := { boot.uart_queue with count := 31, tail := 31 },
              trace_dropped_count := 7 }

/-- Index of the slot in which `uart_queue_enqueue` stores its argument: the slot at
`tail`, or the one after it when a drop notice is stored first. -/
def written_index (g : Globals) : Nat :=
  if g.trace_dropped_count = 0 then g.uart_queue.tail
  else (g.uart_queue.tail + 1) % TRACE_LOG_UART_QUEUE_SIZE

/-- Thirty-two one-byte messages `A`, `B`, ... offered while the channel is ready and the
hardware accepts every submission: the first call starts the transmission of slot 0. -/
def fill_calls : List Call :=
  (List.range 32).map (fun i => Call.output (some [65 + i]) true true)

/-- A full queue (32 entries) whose drop counter holds the largest `uint32_t` value. -/
def full_queue_max_drops : Globals :=
  { run boot fill_calls with
    trace_dropped_count := 4294967295 }

/-- After `fill_calls`: a 33rd message (rejected, one drop recorded) and the completion of
the first transmission, which frees slot 0 and starts the transmission of slot 1. -/
def drop_then_complete : List Call :=
  fill_calls ++ [Call.output (some [101]) true true, Call.tx_complete true true]

/-- The state after `drop_then_complete` and a second completion: 30 entries, one drop
recorded. -/
def two_free_slots : Globals :=
  run boot (drop_then_complete ++ [Call.tx_complete true true])

/-- The calls that offer the messages of `es` in order, each with its hardware observations. -/
def outputs (es : List (List Nat × Bool × Bool)) : List Call :=
  es.map (fun e => Call.output (some e.1) e.2.1 e.2.2)

/-- A run of completion notifications, each with its hardware observations. -/
def completions (cbs : List (Bool × Bool)) : List Call :=
  cbs.map (fun c => Call.tx_complete c.1 c.2)

/-- The queue holds the messages `ms` in slots `0 .. ms.length - 1`, the first `i` of them
already retired, no drop recorded, and nothing else was ever written. -/
def Ring (ms : List (List Nat)) (i : Nat) (g : Globals) : Prop :=
  g.uart_queue.head = i % 32 ∧ g.uart_queue.tail = ms.length % 32 ∧
  g.uart_queue.count = ms.length - i ∧ g.trace_dropped_count = 0 ∧ ShapeOk g ∧
  ∀ j, slot_at g.uart_queue j =
    if j < i then { stored_slot (ms.getD j []) with in_use := false }
    else if j < ms.length then stored_slot (ms.getD j [])
    else zero_message

/-- The ring indices agree with the count: both indices are in range and `tail` is `count`
steps after `head`. -/
def IndexInv (g : Globals) : Prop :=
  g.uart_queue.head < TRACE_LOG_UART_QUEUE_SIZE ∧
  g.uart_queue.tail < TRACE_LOG_UART_QUEUE_SIZE ∧
  g.uart_queue.tail = (g.uart_queue.head + g.uart_queue.count) % TRACE_LOG_UART_QUEUE_SIZE

/-- The transmit request handed to the HAL during a call, if any. -/
def Call.submitted (g : Globals) : Call → Option TxRequest
  | .output message ready hal_ok => (trace_log_uart_output g message ready hal_ok).2.2
  | .tx_complete ready hal_ok => (trace_log_tx_complete_callback g ready hal_ok).2

/-- Whether the HAL accepts a submission made during the call. -/
def Call.accepted : Call → Bool
  | .output _ _ hal_ok => hal_ok
  | .tx_complete _ hal_ok => hal_ok

/-- The transmit requests of a sequence of calls, call by call. -/
def requests (g : Globals) : List Call → List (Option TxRequest)
  | [] => []
  | c :: cs => c.submitted g :: requests (c.apply g) cs

/-- A one-entry queue that is not transmitting: `"a"` stored on the fresh queue. -/
def one_pending : Globals := (uart_queue_enqueue boot [97]).2

/-- `uart_queue_enqueue` run with room for at most `fuel` nested activations of itself
(the outer call included): `none` when the recursion would need one more. -/
def uart_queue_enqueue_fuel : Nat → Globals → List Nat → Option (tTraceLogResult × Globals)
  | 0, _, _ => none
  | fuel + 1, g, message =>
    if uart_queue_is_full g then
      some (TL_RESULT_BUFFER_FULL, g)
    else
      let r1 : Option Globals :=
        if g.trace_dropped_count > 0 then
          (uart_queue_enqueue_fuel fuel { g with trace_dropped_count := 0 }
            (drop_msg g.trace_dropped_count)).map (fun r => r.2)
        else some g
      match r1 with
      | none => none
      | some g1 =>
        let q := g1.uart_queue
        let msg := fill_slot (slot_at q q.tail) message
        some (TL_RESULT_OK,
          { g1 with uart_queue :=
              { q with messages := q.messages.set q.tail msg,
                       tail := (q.tail + 1) % TRACE_LOG_UART_QUEUE_SIZE,
                       count := (q.count + 1) % 256 } })

/-- Three messages, the second one empty, offered while the first is being transmitted. -/
def empty_in_the_middle : Globals :=
  run boot [Call.output (some [97]) true true, Call.output (some []) true true,
    Call.output (some [98]) true true]

/-- Every pending slot (`count` slots starting at `head`) has a stored length between 1
and 255. -/
def PendingValid (g : Globals) : Prop :=
  ∀ k, k < g.uart_queue.count →
    1 ≤ (slot_at g.uart_queue ((g.uart_queue.head + k) % TRACE_LOG_UART_QUEUE_SIZE)).length ∧
    (slot_at g.uart_queue ((g.uart_queue.head + k) % TRACE_LOG_UART_QUEUE_SIZE)).length ≤ 255

/-- The message of an output call is neither NULL nor the empty string (a completion
carries no message). -/
def Call.message_ok : Call → Bool
  | .output (some m) _ _ => cstr m != []
  | .output none _ _ => false
  | .tx_complete _ _ => true

/-- Path condition of the corrupt-slot branch of `uart_start_transmission` (lines
275-280): the three guards before it pass and the head slot's length is 0 or above 256. -/
def corrupt_branch (g : Globals) (ready : Bool) : Bool :=
  !uart_queue_is_empty g && !g.uart_queue.dma_busy && ready &&
    decide ((slot_at g.uart_queue g.uart_queue.head).length = 0 ∨
      (slot_at g.uart_queue g.uart_queue.head).length > TRACE_LOG_UART_MESSAGE_SIZE)

/-- The invariants carried through a run whose messages are all non-empty. -/
def SoundQueue (g : Globals) : Prop :=
  ShapeOk g ∧ IndexInv g ∧ CountInv g ∧ PendingValid g

/-- Program points of `trace_log_uart_output` (with `uart_queue_enqueue` inlined) at which
the call can be preempted: before each access to the shared queue. `load_count` and
`store_count` are the two halves of `uart_queue.count++` (line 220). -/
inductive Pc where
  | check_full | count_drop | enq_check | notice_check
  | copy | terminate | set_length | set_in_use | advance_tail | load_count | store_count
  | check_busy | done
  deriving DecidableEq, Repr

/-- Private state of the producer while `trace_log_uart_output` runs: the program point,
the message of the current activation of `uart_queue_enqueue`, the messages of its
suspended callers, the slot index held in `msg`, the value of `count` loaded for the
increment, and the result so far. -/
structure Producer where
  pc : Pc
  cur : List Nat
  stack : List (List Nat)
  msg : Nat
  reg : Nat
  result : tTraceLogResult
  deriving DecidableEq, Repr

/-- Write of `uart_queue.messages[i]`. -/
def set_slot (g : Globals) (i : Nat) (s : tTraceLogUartMessage) : Globals :=
  { g with uart_queue := { g.uart_queue with messages := g.uart_queue.messages.set i s } }

/-- Return from an activation of `uart_queue_enqueue` with result `r`: a nested activation
resumes its caller at line 210 (the result is ignored); the outermost one returns to
`trace_log_uart_output`, which goes on to line 147 only when `r` is `TL_RESULT_OK`. -/
def enq_return (p : Producer) (r : tTraceLogResult) : Producer :=
  match p.stack with
  | [] => if r = TL_RESULT_OK then { p with pc := Pc.check_busy, result := r }
          else { p with pc := Pc.done, result := r }
  | caller :: rest => { p with pc := Pc.copy, cur := caller, stack := rest }

/-- One step of `trace_log_uart_output` between two preemption points. -/
def output_step (ready hal_ok : Bool) (x : Producer × Globals) : Producer × Globals :=
  match x.1.pc with
  | Pc.check_full =>
    if uart_queue_is_full x.2 then ({ x.1 with pc := Pc.count_drop }, x.2)
    else ({ x.1 with pc := Pc.enq_check }, x.2)
  | Pc.count_drop =>
    ({ x.1 with pc := Pc.done, result := TL_RESULT_BUFFER_FULL },
      { x.2 with trace_dropped_count := (x.2.trace_dropped_count + 1) % 4294967296 })
  | Pc.enq_check =>
    if uart_queue_is_full x.2 then (enq_return x.1 TL_RESULT_BUFFER_FULL, x.2)
    else ({ x.1 with pc := Pc.notice_check }, x.2)
  | Pc.notice_check =>
    if x.2.trace_dropped_count > 0 then
      ({ x.1 with pc := Pc.enq_check, cur := drop_msg x.2.trace_dropped_count,
                  stack := x.1.cur :: x.1.stack },
        { x.2 with trace_dropped_count := 0 })
    else ({ x.1 with pc := Pc.copy }, x.2)
  | Pc.copy =>
    ({ x.1 with pc := Pc.terminate, msg := x.2.uart_queue.tail },
      set_slot x.2 x.2.uart_queue.tail
        { slot_at x.2.uart_queue x.2.uart_queue.tail with
          message := strncpy (slot_at x.2.uart_queue x.2.uart_queue.tail).message x.1.cur
            (TRACE_LOG_UART_MESSAGE_SIZE - 1) })
  | Pc.terminate =>
    ({ x.1 with pc := Pc.set_length },
      set_slot x.2 x.1.msg
        { slot_at x.2.uart_queue x.1.msg with
          message := (slot_at x.2.uart_queue x.1.msg).message.set
            (TRACE_LOG_UART_MESSAGE_SIZE - 1) 0 })
  | Pc.set_length =>
    ({ x.1 with pc := Pc.set_in_use },
      set_slot x.2 x.1.msg
        { slot_at x.2.uart_queue x.1.msg with
          length := strlen (slot_at x.2.uart_queue x.1.msg).message % 65536 })
  | Pc.set_in_use =>
    ({ x.1 with pc := Pc.advance_tail },
      set_slot x.2 x.1.msg { slot_at x.2.uart_queue x.1.msg with in_use := true })
  | Pc.advance_tail =>
    ({ x.1 with pc := Pc.load_count },
      { x.2 with uart_queue := { x.2.uart_queue with
          tail := (x.2.uart_queue.tail + 1) % TRACE_LOG_UART_QUEUE_SIZE } })
  | Pc.load_count => ({ x.1 with pc := Pc.store_count, reg := x.2.uart_queue.count }, x.2)
  | Pc.store_count =>
    (enq_return x.1 TL_RESULT_OK,
      { x.2 with uart_queue := { x.2.uart_queue with count := (x.1.reg + 1) % 256 } })
  | Pc.check_busy =>
    if !x.2.uart_queue.dma_busy then
      ({ x.1 with pc := Pc.done, result := (uart_start_transmission x.2 ready hal_ok).1 },
        (uart_start_transmission x.2 ready hal_ok).2.1)
    else ({ x.1 with pc := Pc.done }, x.2)
  | Pc.done => x

/-- `n` steps of `trace_log_uart_output`. -/
def output_steps (ready hal_ok : Bool) : Nat → Producer × Globals → Producer × Globals
  | 0, x => x
  | n + 1, x => output_steps ready hal_ok n (output_step ready hal_ok x)

/-- The producer on entry to `trace_log_uart_output(message)`, `message` not NULL. -/
def producer_entry (message : List Nat) : Producer :=
  { pc := Pc.check_full, cur := message, stack := [], msg := 0, reg := 0,
    result := TL_RESULT_OK }

/-- The globals after `trace_log_uart_output(message)` was preempted by the completion
callback after its first `n` steps and then ran to its end. `ro, ho` are the hardware
observations of the output call, `rc, hc` those of the callback. -/
def preempted_output (n : Nat) (g : Globals) (message : List Nat) (ro ho rc hc : Bool) :
    Globals :=
  (output_steps ro ho 24
    ((output_steps ro ho n (producer_entry message, g)).1,
     (trace_log_tx_complete_callback (output_steps ro ho n (producer_entry message, g)).2
        rc hc).1)).2

/-- Sequential order: the output call, then the callback. -/
def output_then_callback (g : Globals) (message : List Nat) (ro ho rc hc : Bool) : Globals :=
  (trace_log_tx_complete_callback (trace_log_uart_output g (some message) ro ho).2.1 rc hc).1

/-- Sequential order: the callback, then the output call. -/
def callback_then_output (g : Globals) (message : List Nat) (ro ho rc hc : Bool) : Globals :=
  (trace_log_uart_output (trace_log_tx_complete_callback g rc hc).1 (some message) ro ho).2.1

/-- The state in which `"a"` is being transmitted: one entry, `dma_busy` set. -/
def one_in_flight : Globals := run boot [Call.output (some [97]) true true]

/-- The slot under construction after `j` of the four slot writes of lines 213-216. -/
def stage_slot (j : Nat) (old : tTraceLogUartMessage) (x : List Nat) : tTraceLogUartMessage :=
  match j with
  | 0 => old
  | 1 => { old with message := strncpy old.message x (TRACE_LOG_UART_MESSAGE_SIZE - 1) }
  | 2 => { old with
           message := (strncpy old.message x (TRACE_LOG_UART_MESSAGE_SIZE - 1)).set
                        (TRACE_LOG_UART_MESSAGE_SIZE - 1) 0 }
  | 3 => { fill_slot old x with in_use := old.in_use }
  | _ => fill_slot old x

/-- Write of `uart_queue.tail`. -/
def set_tail (g : Globals) (t : Nat) : Globals :=
  { g with uart_queue := { g.uart_queue with tail := t } }

/-- The globals after `j <= 6` steps of the store sequence of `uart_queue_enqueue`
(lines 210-220) for the message `x`, begun in state `s`: the slot at `tail` is under
construction, `tail` is advanced from step 5 on, `count` is not yet written. -/
def stage (j : Nat) (s : Globals) (x : List Nat) : Globals :=
  if j = 0 then s
  else if j < 5 then
    set_slot s s.uart_queue.tail (stage_slot j (slot_at s.uart_queue s.uart_queue.tail) x)
  else
    set_tail
      (set_slot s s.uart_queue.tail (stage_slot j (slot_at s.uart_queue s.uart_queue.tail) x))
      ((s.uart_queue.tail + 1) % TRACE_LOG_UART_QUEUE_SIZE)

/-- The producer at step `j` of the store sequence begun from `p` in state `s`. -/
def stage_producer (j : Nat) (p : Producer) (s : Globals) : Producer :=
  { p with
    pc := match j with
      | 0 => Pc.copy | 1 => Pc.terminate | 2 => Pc.set_length | 3 => Pc.set_in_use
      | 4 => Pc.advance_tail | 5 => Pc.load_count | _ => Pc.store_count,
    msg := if j = 0 then p.msg else s.uart_queue.tail,
    reg := if 6 ≤ j then s.uart_queue.count else p.reg }

/-- Write of `uart_queue.count`. -/
def set_count (g : Globals) (c : Nat) : Globals :=
  { g with uart_queue := { g.uart_queue with count := c } }

/-- Write of `uart_queue.dma_busy`. -/
def set_busy (g : Globals) (b : Bool) : Globals :=
  { g with uart_queue := { g.uart_queue with dma_busy := b } }

/-- The slot after the head slot passes the length validation of
`uart_start_transmission`. -/
def NextValid (g : Globals) : Prop :=
  (slot_at g.uart_queue ((g.uart_queue.head + 1) % TRACE_LOG_UART_QUEUE_SIZE)).length ≠ 0 ∧
  (slot_at g.uart_queue ((g.uart_queue.head + 1) % TRACE_LOG_UART_QUEUE_SIZE)).length ≤ 256

instance (g : Globals) : Decidable (NextValid g) := by
  unfold NextValid; infer_instance

/-- Lines 147-150 of `trace_log_uart_output`: start the transmission unless one is in
flight. -/
def finish (g : Globals) (ready hal_ok : Bool) : Globals :=
  if g.uart_queue.dma_busy then g else (uart_start_transmission g ready hal_ok).2.1

/-- The globals after `uart_queue_enqueue`. -/
def enq (g : Globals) (m : List Nat) : Globals := (uart_queue_enqueue g m).2

/-- Number of steps of an unpreempted `trace_log_uart_output` call from state `g`. -/
def path_length (g : Globals) : Nat :=
  if 32 ≤ g.uart_queue.count then 2 else if g.trace_dropped_count = 0 then 11 else 20

/-- Room for everything the call stores: one slot, or two when a drop notice is due. -/
def Room (g : Globals) : Prop :=
  g.uart_queue.count + (if g.trace_dropped_count = 0 then 1 else 2) ≤ 32

instance (g : Globals) : Decidable (Room g) := by
  unfold Room; infer_instance

/-! ## Basic facts about the helpers -/

theorem enqueue_full (g : Globals) (m : List Nat) (h : 32 ≤ g.uart_queue.count) :
    uart_queue_enqueue g m = (TL_RESULT_BUFFER_FULL, g) := by
  rw [uart_queue_enqueue]
  simp [uart_queue_is_full, TRACE_LOG_UART_QUEUE_SIZE, h]

theorem enqueue_zero (g : Globals) (m : List Nat) (h : g.uart_queue.count < 32)
    (hd : g.trace_dropped_count = 0) :
    uart_queue_enqueue g m = (TL_RESULT_OK, push g m) := by
  rw [uart_queue_enqueue]
  simp [uart_queue_is_full, TRACE_LOG_UART_QUEUE_SIZE, h, hd, push]

theorem enqueue_pos (g : Globals) (m : List Nat) (h : g.uart_queue.count < 32)
    (hd : 0 < g.trace_dropped_count) :
    uart_queue_enqueue g m =
      (TL_RESULT_OK, push (push { g with trace_dropped_count := 0 }
        (drop_msg g.trace_dropped_count)) m) := by
  rw [uart_queue_enqueue]
  have h0 : uart_queue_enqueue { g with trace_dropped_count := 0 }
      (drop_msg g.trace_dropped_count)
      = (TL_RESULT_OK, push { g with trace_dropped_count := 0 }
          (drop_msg g.trace_dropped_count)) := enqueue_zero _ _ h rfl
  simp [uart_queue_is_full, TRACE_LOG_UART_QUEUE_SIZE, h, hd, h0, push]

theorem cstr_append_zero (s t : List Nat) (hs : ∀ c ∈ s, c ≠ 0) :
    cstr (s ++ 0 :: t) = s := by
  induction s with
  | nil => simp [cstr]
  | cons a s ih =>
    have ha : a ≠ 0 := hs a (by simp)
    have := ih (fun c hc => hs c (by simp [hc]))
    have hb : (a != 0) = true := by simpa using ha
    simp only [cstr] at this ⊢
    simp [List.takeWhile, hb, this]

theorem cstr_ne_zero (s : List Nat) : ∀ c ∈ cstr s, c ≠ 0 := by
  intro c hc
  have := List.mem_takeWhile_imp hc
  simpa using this

theorem fill_slot_eq (old : tTraceLogUartMessage) (m : List Nat)
    (hlen : old.message.length = 256) :
    fill_slot old m =
      { message := (cstr m).take 255 ++ List.replicate (256 - min (strlen m) 255) 0,
        length := min (strlen m) 255,
        in_use := true } := by
  have hs : ((cstr m).take 255).length = min (strlen m) 255 := by
    simp [strlen, Nat.min_comm]
  have hnz : ∀ c ∈ (cstr m).take 255, c ≠ 0 :=
    fun c hc => cstr_ne_zero m c (List.mem_of_mem_take hc)
  have hle : min (strlen m) 255 ≤ 255 := Nat.min_le_right _ _
  obtain ⟨x, hx⟩ : ∃ x, old.message.drop 255 = [x] := by
    have : (old.message.drop 255).length = 1 := by simp [hlen]
    match h : old.message.drop 255, this with
    | [x], _ => exact ⟨x, rfl⟩
  have hbuf : (strncpy old.message m (TRACE_LOG_UART_MESSAGE_SIZE - 1)).set
      (TRACE_LOG_UART_MESSAGE_SIZE - 1) 0
      = (cstr m).take 255 ++ (0 :: List.replicate (255 - min (strlen m) 255) 0) := by
    simp only [strncpy, TRACE_LOG_UART_MESSAGE_SIZE, TRACE_LOG_MAX_MESSAGE_SIZE, hx, hs]
    have hA : ((cstr m).take 255 ++ List.replicate (255 - min (strlen m) 255) 0).length
        = 256 - 1 := by
      rw [List.length_append, hs, List.length_replicate]; omega
    have h1 : (256 - 1 : Nat) = 255 := rfl
    simp only [h1] at hA ⊢
    rw [List.set_append_right _ _ (by omega), hA]
    simp only [Nat.sub_self, List.set_cons_zero, List.append_assoc]
    congr 1
    rw [← List.replicate_succ, List.replicate_succ']
  unfold fill_slot
  rw [hbuf]
  have hlen2 : strlen ((cstr m).take 255 ++ (0 :: List.replicate (255 - min (strlen m) 255) 0))
      = min (strlen m) 255 := by
    unfold strlen
    rw [cstr_append_zero _ _ hnz, hs]
    rfl
  simp only [hlen2]
  have : 256 - min (strlen m) 255 = (255 - min (strlen m) 255) + 1 := by omega
  rw [this, List.replicate_succ, Nat.mod_eq_of_lt (by omega)]

theorem fill_slot_stored (old : tTraceLogUartMessage) (m : List Nat)
    (hlen : old.message.length = 256) : fill_slot old m = stored_slot m :=
  fill_slot_eq old m hlen

theorem dequeue_empty (g : Globals) (h : g.uart_queue.count = 0) :
    uart_queue_dequeue g = (TL_RESULT_ERROR, g) := by
  simp [uart_queue_dequeue, uart_queue_is_empty, h]

theorem dequeue_nonempty (g : Globals) (h : g.uart_queue.count ≠ 0) :
    uart_queue_dequeue g = (TL_RESULT_OK, pop g) := by
  simp [uart_queue_dequeue, uart_queue_is_empty, h, pop]

theorem start_idle (g : Globals) (ready hal_ok : Bool)
    (h : g.uart_queue.count = 0 ∨ g.uart_queue.dma_busy = true ∨ ready = false) :
    uart_start_transmission g ready hal_ok = (TL_RESULT_ERROR, g, none) := by
  unfold uart_start_transmission
  rcases h with h | h | h
  · simp [uart_queue_is_empty, h]
  · simp [h]
  · simp [h]

theorem start_corrupt (g : Globals) (hal_ok : Bool)
    (hc : g.uart_queue.count ≠ 0) (hb : g.uart_queue.dma_busy = false)
    (hv : ¬ HeadValid g) :
    uart_start_transmission g true hal_ok = (TL_RESULT_ERROR, pop g, none) := by
  unfold uart_start_transmission
  have : (slot_at g.uart_queue g.uart_queue.head).length = 0 ∨
      (slot_at g.uart_queue g.uart_queue.head).length > TRACE_LOG_UART_MESSAGE_SIZE := by
    unfold HeadValid at hv
    simp only [TRACE_LOG_UART_MESSAGE_SIZE, TRACE_LOG_MAX_MESSAGE_SIZE]
    omega
  simp [uart_queue_is_empty, hc, hb, this, dequeue_nonempty]

theorem start_submit (g : Globals) (hal_ok : Bool)
    (hc : g.uart_queue.count ≠ 0) (hb : g.uart_queue.dma_busy = false)
    (hv : HeadValid g) :
    uart_start_transmission g true hal_ok =
      (if hal_ok then TL_RESULT_ERROR else TL_RESULT_OK,
       { g with uart_queue := { g.uart_queue with dma_busy := hal_ok } },
       some { slot := g.uart_queue.head,
              buffer := (slot_at g.uart_queue g.uart_queue.head).message,
              size := (slot_at g.uart_queue g.uart_queue.head).length }) := by
  unfold uart_start_transmission
  have : ¬ ((slot_at g.uart_queue g.uart_queue.head).length = 0 ∨
      (slot_at g.uart_queue g.uart_queue.head).length > TRACE_LOG_UART_MESSAGE_SIZE) := by
    unfold HeadValid at hv
    simp only [TRACE_LOG_UART_MESSAGE_SIZE, TRACE_LOG_MAX_MESSAGE_SIZE]
    omega
  cases hal_ok <;> simp [uart_queue_is_empty, hc, hb, this]

/-- With a valid head slot, a start attempt changes nothing but `dma_busy`. -/
theorem start_valid_frame (g : Globals) (ready hal_ok : Bool)
    (hv : g.uart_queue.count ≠ 0 → HeadValid g) :
    ∃ b, (uart_start_transmission g ready hal_ok).2.1 =
      { g with uart_queue := { g.uart_queue with dma_busy := b } } := by
  by_cases hc : g.uart_queue.count = 0
  · exact ⟨g.uart_queue.dma_busy, by rw [start_idle g _ _ (Or.inl hc)]⟩
  · cases hb : g.uart_queue.dma_busy
    · cases ready
      · exact ⟨false, by rw [start_idle g _ _ (Or.inr (Or.inr rfl)), ← hb]⟩
      · exact ⟨hal_ok, by rw [start_submit g _ hc hb (hv hc)]⟩
    · exact ⟨true, by rw [start_idle g _ _ (Or.inr (Or.inl hb)), ← hb]⟩


theorem output_null (g : Globals) (ready hal_ok : Bool) :
    trace_log_uart_output g none ready hal_ok = (TL_RESULT_INVALID_PARAM, g, none) := rfl

theorem output_full (g : Globals) (m : List Nat) (ready hal_ok : Bool)
    (h : 32 ≤ g.uart_queue.count) :
    trace_log_uart_output g (some m) ready hal_ok =
      (TL_RESULT_BUFFER_FULL,
        { g with trace_dropped_count := (g.trace_dropped_count + 1) % 4294967296 }, none) := by
  simp [trace_log_uart_output, uart_queue_is_full, TRACE_LOG_UART_QUEUE_SIZE, h]

theorem enqueue_result (g : Globals) (m : List Nat) (h : g.uart_queue.count < 32) :
    (uart_queue_enqueue g m).1 = TL_RESULT_OK := by
  rcases Nat.eq_zero_or_pos g.trace_dropped_count with hd | hd
  · rw [enqueue_zero g m h hd]
  · rw [enqueue_pos g m h hd]

theorem output_room (g : Globals) (m : List Nat) (ready hal_ok : Bool)
    (h : g.uart_queue.count < 32) :
    trace_log_uart_output g (some m) ready hal_ok =
      if (uart_queue_enqueue g m).2.uart_queue.dma_busy then
        (TL_RESULT_OK, (uart_queue_enqueue g m).2, none)
      else uart_start_transmission (uart_queue_enqueue g m).2 ready hal_ok := by
  have hr := enqueue_result g m h
  have hf : uart_queue_is_full g = false := by
    simp [uart_queue_is_full, TRACE_LOG_UART_QUEUE_SIZE, h]
  simp only [trace_log_uart_output, hf, hr]
  cases (uart_queue_enqueue g m).2.uart_queue.dma_busy <;> simp

/-- Fields of the state left by a successful `uart_queue_enqueue`. -/
theorem enqueue_fields (g : Globals) (m : List Nat) (h : g.uart_queue.count < 32) :
    (uart_queue_enqueue g m).2.uart_queue.count =
        g.uart_queue.count + (if g.trace_dropped_count = 0 then 1 else 2) ∧
    (uart_queue_enqueue g m).2.uart_queue.dma_busy = g.uart_queue.dma_busy ∧
    (uart_queue_enqueue g m).2.uart_queue.head = g.uart_queue.head ∧
    (uart_queue_enqueue g m).2.trace_dropped_count = 0 ∧
    (uart_queue_enqueue g m).2.callback_count = g.callback_count := by
  rcases Nat.eq_zero_or_pos g.trace_dropped_count with hd | hd
  · rw [enqueue_zero g m h hd]
    simp only [push, hd, if_true]
    refine ⟨?_, trivial, trivial, trivial, trivial⟩
    omega
  · rw [enqueue_pos g m h hd]
    have : g.trace_dropped_count ≠ 0 := by omega
    simp only [push, this, if_false]
    refine ⟨?_, trivial, trivial, trivial, trivial⟩
    omega

theorem pop_fields (g : Globals) (h : g.uart_queue.count ≠ 0) (h2 : g.uart_queue.count < 256) :
    (pop g).uart_queue.count = g.uart_queue.count - 1 ∧
    (pop g).uart_queue.dma_busy = g.uart_queue.dma_busy ∧
    (pop g).uart_queue.tail = g.uart_queue.tail ∧
    (pop g).trace_dropped_count = g.trace_dropped_count := by
  simp only [pop]
  refine ⟨?_, trivial, trivial, trivial⟩
  omega

theorem start_countInv (g : Globals) (ready hal_ok : Bool) (h : CountInv g) :
    CountInv (uart_start_transmission g ready hal_ok).2.1 := by
  by_cases hc : g.uart_queue.count = 0
  · rw [start_idle g _ _ (Or.inl hc)]; exact h
  · cases hb : g.uart_queue.dma_busy
    · cases ready
      · rw [start_idle g _ _ (Or.inr (Or.inr rfl))]; exact h
      · by_cases hv : HeadValid g
        · rw [start_submit g _ hc hb hv]
          exact ⟨h.1, fun _ => Nat.pos_of_ne_zero hc⟩
        · rw [start_corrupt g _ hc hb hv]
          have hp := pop_fields g hc (by have := h.1; omega)
          refine ⟨?_, ?_⟩
          · show (pop g).uart_queue.count ≤ 33
            rw [hp.1]; have := h.1; omega
          · show (pop g).uart_queue.dma_busy = true → _
            rw [hp.2.1, hb]; intro hx; cases hx
    · rw [start_idle g _ _ (Or.inr (Or.inl hb))]; exact h

theorem output_countInv (g : Globals) (message : Option (List Nat)) (ready hal_ok : Bool)
    (h : CountInv g) : CountInv (trace_log_uart_output g message ready hal_ok).2.1 := by
  cases message with
  | none => exact h
  | some m =>
    by_cases hf : 32 ≤ g.uart_queue.count
    · rw [output_full g m _ _ hf]; exact h
    · have hlt : g.uart_queue.count < 32 := by omega
      have he := enqueue_fields g m hlt
      have hE : CountInv (uart_queue_enqueue g m).2 := by
        refine ⟨?_, ?_⟩
        · rw [he.1]; split <;> omega
        · intro _; rw [he.1]; split <;> omega
      rw [output_room g m _ _ hlt]
      split
      · exact hE
      · exact start_countInv _ _ _ hE

theorem callback_eq (g : Globals) (ready hal_ok : Bool) :
    trace_log_tx_complete_callback g ready hal_ok =
      if g.uart_queue.count = 0 then (clear_busy g, none)
      else if (pop (clear_busy g)).uart_queue.count = 0 then (pop (clear_busy g), none)
      else ((uart_start_transmission (pop (clear_busy g)) ready hal_ok).2.1,
            (uart_start_transmission (pop (clear_busy g)) ready hal_ok).2.2) := by
  have key : trace_log_tx_complete_callback g ready hal_ok =
      if (uart_queue_dequeue (clear_busy g)).1 = TL_RESULT_OK then
        if !uart_queue_is_empty (uart_queue_dequeue (clear_busy g)).2 then
          ((uart_start_transmission (uart_queue_dequeue (clear_busy g)).2 ready hal_ok).2.1,
           (uart_start_transmission (uart_queue_dequeue (clear_busy g)).2 ready hal_ok).2.2)
        else ((uart_queue_dequeue (clear_busy g)).2, none)
      else ((uart_queue_dequeue (clear_busy g)).2, none) := rfl
  rw [key]
  by_cases hc : g.uart_queue.count = 0
  · have : (clear_busy g).uart_queue.count = 0 := hc
    rw [dequeue_empty _ this, if_pos hc]
    simp
  · have : (clear_busy g).uart_queue.count ≠ 0 := hc
    rw [dequeue_nonempty _ this, if_neg hc]
    by_cases hp : (pop (clear_busy g)).uart_queue.count = 0
    · simp [uart_queue_is_empty, hp]
    · simp [uart_queue_is_empty, hp]

theorem callback_countInv (g : Globals) (ready hal_ok : Bool)
    (h : CountInv g) : CountInv (trace_log_tx_complete_callback g ready hal_ok).1 := by
  rw [callback_eq]
  have h1 : CountInv (clear_busy g) := ⟨h.1, fun hb => by simp [clear_busy] at hb⟩
  by_cases hc : g.uart_queue.count = 0
  · rw [if_pos hc]; exact h1
  · rw [if_neg hc]
    have hp := pop_fields (clear_busy g) hc (by have := h.1; show g.uart_queue.count < 256; omega)
    have h2 : CountInv (pop (clear_busy g)) := by
      refine ⟨?_, ?_⟩
      · rw [hp.1]; have := h.1; show g.uart_queue.count - 1 ≤ 33; omega
      · rw [hp.2.1]; intro hb; simp [clear_busy] at hb
    split
    · exact h2
    · exact start_countInv _ _ _ h2

theorem start_dropped (g : Globals) (ready hal_ok : Bool) :
    (uart_start_transmission g ready hal_ok).2.1.trace_dropped_count = g.trace_dropped_count := by
  by_cases hc : g.uart_queue.count = 0
  · rw [start_idle g _ _ (Or.inl hc)]
  · cases hb : g.uart_queue.dma_busy
    · cases ready
      · rw [start_idle g _ _ (Or.inr (Or.inr rfl))]
      · by_cases hv : HeadValid g
        · rw [start_submit g _ hc hb hv]
        · rw [start_corrupt g _ hc hb hv]; rfl
    · rw [start_idle g _ _ (Or.inr (Or.inl hb))]

theorem start_result (g : Globals) (ready hal_ok : Bool) :
    (uart_start_transmission g ready hal_ok).1 = TL_RESULT_OK ∨
    (uart_start_transmission g ready hal_ok).1 = TL_RESULT_ERROR := by
  by_cases hc : g.uart_queue.count = 0
  · rw [start_idle g _ _ (Or.inl hc)]; exact Or.inr rfl
  · cases hb : g.uart_queue.dma_busy
    · cases ready
      · rw [start_idle g _ _ (Or.inr (Or.inr rfl))]; exact Or.inr rfl
      · by_cases hv : HeadValid g
        · rw [start_submit g _ hc hb hv]; cases hal_ok <;> simp
        · rw [start_corrupt g _ hc hb hv]; exact Or.inr rfl
    · rw [start_idle g _ _ (Or.inr (Or.inl hb))]; exact Or.inr rfl

theorem callback_dropped (g : Globals) (ready hal_ok : Bool) :
    (trace_log_tx_complete_callback g ready hal_ok).1.trace_dropped_count
      = g.trace_dropped_count := by
  rw [callback_eq]
  split
  · rfl
  · split
    · rfl
    · rw [start_dropped]; rfl

theorem run_countInv (g : Globals) (cs : List Call) (h : CountInv g) : CountInv (run g cs) := by
  induction cs generalizing g with
  | nil => exact h
  | cons c cs ih =>
    apply ih
    cases c with
    | output message ready hal_ok => exact output_countInv g message ready hal_ok h
    | tx_complete ready hal_ok => exact callback_countInv g ready hal_ok h

theorem init_countInv (g : Globals) : CountInv (trace_log_init g) :=
  ⟨by simp [trace_log_init], by simp [trace_log_init]⟩

theorem getD_set (l : List tTraceLogUartMessage) (i j : Nat) (v d : tTraceLogUartMessage) :
    (l.set i v).getD j d = if i = j ∧ i < l.length then v else l.getD j d := by
  simp only [List.getD_eq_getElem?_getD, List.getElem?_set]
  by_cases h : i = j
  · subst h
    by_cases h2 : i < l.length
    · simp [h2]
    · simp [h2, List.getElem?_eq_none (Nat.le_of_not_lt h2)]
  · simp [h]

theorem slot_at_shape (g : Globals) (h : ShapeOk g) (i : Nat) :
    (slot_at g.uart_queue i).message.length = 256 := by
  unfold slot_at
  rw [List.getD_eq_getElem?_getD]
  cases hi : g.uart_queue.messages[i]? with
  | none =>
    simp only [Option.getD_none, zero_message, TRACE_LOG_UART_MESSAGE_SIZE,
      TRACE_LOG_MAX_MESSAGE_SIZE, List.length_replicate]
  | some s =>
    simp only [Option.getD_some]
    exact h.2 s (List.getElem?_mem hi)

theorem stored_slot_shape (m : List Nat) : (stored_slot m).message.length = 256 := by
  simp only [stored_slot, List.length_append, List.length_take, List.length_replicate, strlen]
  omega

theorem push_eq (g : Globals) (m : List Nat) (h : ShapeOk g) :
    push g m =
      { g with uart_queue :=
          { g.uart_queue with
              messages := g.uart_queue.messages.set g.uart_queue.tail (stored_slot m),
              tail := (g.uart_queue.tail + 1) % 32,
              count := (g.uart_queue.count + 1) % 256 } } := by
  simp only [push, fill_slot_stored _ m (slot_at_shape g h _), TRACE_LOG_UART_QUEUE_SIZE]

theorem push_shape (g : Globals) (m : List Nat) (h : ShapeOk g) : ShapeOk (push g m) := by
  rw [push_eq g m h]
  refine ⟨by simp [h.1], ?_⟩
  intro s hs
  rcases List.mem_or_eq_of_mem_set hs with hs | hs
  · exact h.2 s hs
  · rw [hs]; exact stored_slot_shape m

theorem pop_shape (g : Globals) (h : ShapeOk g) : ShapeOk (pop g) := by
  refine ⟨by simp [pop, h.1], ?_⟩
  intro s hs
  rcases List.mem_or_eq_of_mem_set hs with hs | hs
  · exact h.2 s hs
  · rw [hs]; exact slot_at_shape g h _

theorem push_slot (g : Globals) (m : List Nat) (h : ShapeOk g) (j : Nat) :
    slot_at (push g m).uart_queue j =
      if g.uart_queue.tail = j ∧ g.uart_queue.tail < 32 then stored_slot m
      else slot_at g.uart_queue j := by
  rw [push_eq g m h]
  simp only [slot_at, getD_set, h.1]

theorem pop_slot (g : Globals) (j : Nat) :
    slot_at (pop g).uart_queue j =
      if g.uart_queue.head = j ∧ g.uart_queue.head < g.uart_queue.messages.length then
        { slot_at g.uart_queue g.uart_queue.head with in_use := false }
      else slot_at g.uart_queue j := by
  simp only [pop, slot_at, getD_set]

theorem enqueue_slot (g : Globals) (m : List Nat) (hroom : g.uart_queue.count < 32)
    (hshape : ShapeOk g) (htail : g.uart_queue.tail < 32) :
    slot_at (uart_queue_enqueue g m).2.uart_queue (written_index g) = stored_slot m := by
  unfold written_index
  rcases Nat.eq_zero_or_pos g.trace_dropped_count with hd | hd
  · rw [enqueue_zero g m hroom hd, if_pos hd]
    show slot_at (push g m).uart_queue _ = _
    rw [push_slot g m hshape, if_pos ⟨rfl, htail⟩]
  · rw [enqueue_pos g m hroom hd, if_neg (by omega)]
    have hs1 : ShapeOk (push { g with trace_dropped_count := 0 }
        (drop_msg g.trace_dropped_count)) := push_shape _ _ hshape
    show slot_at (push _ m).uart_queue _ = _
    rw [push_slot _ m hs1]
    have ht : (push { g with trace_dropped_count := 0 }
        (drop_msg g.trace_dropped_count)).uart_queue.tail = (g.uart_queue.tail + 1) % 32 := rfl
    rw [ht, if_pos ⟨rfl, Nat.mod_lt _ (by decide)⟩]

theorem take_cstr (m : List Nat) (k : Nat) (hk : k ≤ strlen m) :
    (cstr m).take k = m.take k := by
  have h : m = cstr m ++ m.dropWhile (fun c => c != 0) :=
    (List.takeWhile_append_dropWhile _ m).symm
  conv_rhs => rw [h]
  rw [List.take_append_of_le_length hk]

theorem stored_slot_valid (m : List Nat) (hne : cstr m ≠ []) :
    (stored_slot m).length ≠ 0 ∧ (stored_slot m).length ≤ 256 := by
  have : 0 < strlen m := List.length_pos.mpr hne
  simp only [stored_slot]
  omega

theorem start_slot_of_valid (g : Globals) (ready hal_ok : Bool) (i : Nat)
    (hv : g.uart_queue.head = i → HeadValid g) :
    slot_at (uart_start_transmission g ready hal_ok).2.1.uart_queue i = slot_at g.uart_queue i := by
  by_cases hc : g.uart_queue.count = 0
  · rw [start_idle g _ _ (Or.inl hc)]
  · cases hb : g.uart_queue.dma_busy
    · cases ready
      · rw [start_idle g _ _ (Or.inr (Or.inr rfl))]
      · by_cases hval : HeadValid g
        · rw [start_submit g _ hc hb hval]; rfl
        · rw [start_corrupt g _ hc hb hval]
          show slot_at (pop g).uart_queue i = _
          rw [pop_slot, if_neg]
          intro h; exact hval (hv h.1)
    · rw [start_idle g _ _ (Or.inr (Or.inl hb))]

theorem ring_init (g0 : Globals) (hd : g0.trace_dropped_count = 0) :
    Ring [] 0 (trace_log_init g0) := by
  refine ⟨rfl, rfl, rfl, hd, ?_, ?_⟩
  · refine ⟨by simp [trace_log_init, TRACE_LOG_UART_QUEUE_SIZE], ?_⟩
    intro s hs
    simp only [trace_log_init] at hs
    rw [List.eq_of_mem_replicate hs]
    simp only [zero_message, TRACE_LOG_UART_MESSAGE_SIZE, TRACE_LOG_MAX_MESSAGE_SIZE,
      List.length_replicate]
  · intro j
    simp only [Nat.not_lt_zero, if_false, List.length_nil, slot_at, trace_log_init,
      List.getD_eq_getElem?_getD]
    cases h : (List.replicate TRACE_LOG_UART_QUEUE_SIZE zero_message)[j]? with
    | none => rfl
    | some s => exact List.eq_of_mem_replicate (List.getElem?_mem h)

theorem ring_busy (ms : List (List Nat)) (i : Nat) (g : Globals) (b : Bool)
    (h : Ring ms i g) :
    Ring ms i { g with uart_queue := { g.uart_queue with dma_busy := b } } := h

theorem ring_head_valid (ms : List (List Nat)) (i : Nat) (g : Globals) (h : Ring ms i g)
    (hne : ∀ m ∈ ms, cstr m ≠ []) (hi : i < ms.length) (hk : ms.length ≤ 32) :
    HeadValid g := by
  obtain ⟨hh, -, -, -, -, hs⟩ := h
  unfold HeadValid
  rw [hh, Nat.mod_eq_of_lt (by omega), hs i, if_neg (Nat.lt_irrefl i), if_pos hi]
  apply stored_slot_valid
  apply hne
  rw [List.getD_eq_getElem?_getD, List.getElem?_eq_getElem hi]
  exact List.getElem_mem _

theorem ring_start (ms : List (List Nat)) (i : Nat) (g : Globals) (ready hal_ok : Bool)
    (h : Ring ms i g) (hv : g.uart_queue.count ≠ 0 → HeadValid g) :
    Ring ms i (uart_start_transmission g ready hal_ok).2.1 := by
  obtain ⟨b, hb⟩ := start_valid_frame g ready hal_ok hv
  rw [hb]; exact ring_busy ms i g b h

theorem ring_output (ms : List (List Nat)) (g : Globals) (m : List Nat) (ready hal_ok : Bool)
    (h : Ring ms 0 g) (hne : ∀ x ∈ ms, cstr x ≠ []) (hm : cstr m ≠ [])
    (hk : ms.length < 32) :
    Ring (ms ++ [m]) 0 (trace_log_uart_output g (some m) ready hal_ok).2.1 := by
  have hcount : g.uart_queue.count < 32 := by rw [h.2.2.1]; omega
  have hE : Ring (ms ++ [m]) 0 (uart_queue_enqueue g m).2 := by
    obtain ⟨hh, ht, hc, hd, hshape, hs⟩ := h
    rw [enqueue_zero g m hcount hd]
    refine ⟨hh, ?_, ?_, hd, push_shape g m hshape, ?_⟩
    · show (g.uart_queue.tail + 1) % 32 = _
      rw [ht, List.length_append, List.length_singleton]; omega
    · show (g.uart_queue.count + 1) % 256 = _
      rw [hc, List.length_append, List.length_singleton]; omega
    · intro j
      show slot_at (push g m).uart_queue j = _
      rw [push_slot g m hshape, ht, hs j, Nat.mod_eq_of_lt hk]
      simp only [Nat.not_lt_zero, if_false, List.length_append, List.length_singleton]
      by_cases hj : ms.length = j
      · subst hj
        simp [hk, List.getD_eq_getElem?_getD]
      · rw [if_neg (fun hh => hj hh.1)]
        by_cases hlt : j < ms.length
        · rw [if_pos hlt, if_pos (show j < ms.length + 1 by omega)]
          simp [List.getD_eq_getElem?_getD, List.getElem?_append_left hlt]
        · rw [if_neg hlt, if_neg (show ¬ j < ms.length + 1 by omega)]
  have hne2 : ∀ x ∈ ms ++ [m], cstr x ≠ [] := by
    intro x hx
    rcases List.mem_append.mp hx with hx | hx
    · exact hne x hx
    · rw [List.mem_singleton.mp hx]; exact hm
  rw [output_room g m _ _ hcount]
  split
  · exact hE
  · exact ring_start _ _ _ _ _ hE
      (fun _ => ring_head_valid _ 0 _ hE hne2 (by simp) (by simp; omega))

theorem ring_callback (ms : List (List Nat)) (i : Nat) (g : Globals) (ready hal_ok : Bool)
    (h : Ring ms i g) (hne : ∀ x ∈ ms, cstr x ≠ []) (hi : i < ms.length)
    (hk : ms.length ≤ 32) :
    Ring ms (i + 1) (trace_log_tx_complete_callback g ready hal_ok).1 := by
  have hcount : g.uart_queue.count ≠ 0 := by rw [h.2.2.1]; omega
  have hP : Ring ms (i + 1) (pop (clear_busy g)) := by
    obtain ⟨hh, ht, hc, hd, hshape, hs⟩ := h
    have hshape2 : ShapeOk (clear_busy g) := hshape
    refine ⟨?_, ht, ?_, hd, pop_shape _ hshape2, ?_⟩
    · show (g.uart_queue.head + 1) % 32 = _
      rw [hh]; omega
    · show (g.uart_queue.count + 255) % 256 = _
      rw [hc]; omega
    · intro j
      rw [pop_slot]
      show (if g.uart_queue.head = j ∧ g.uart_queue.head < g.uart_queue.messages.length then
          { slot_at g.uart_queue g.uart_queue.head with in_use := false }
        else slot_at g.uart_queue j) = _
      rw [hh, Nat.mod_eq_of_lt (by omega), hshape.1, hs i, hs j,
        if_neg (Nat.lt_irrefl i), if_pos hi]
      by_cases hj : i = j
      · subst hj
        rw [if_pos ⟨rfl, by omega⟩, if_pos (Nat.lt_succ_self i)]
      · rw [if_neg (fun hh => hj hh.1)]
        by_cases hlt : j < i
        · rw [if_pos hlt, if_pos (show j < i + 1 by omega)]
        · rw [if_neg hlt, if_neg (show ¬ j < i + 1 by omega)]
  rw [callback_eq, if_neg hcount]
  split
  · exact hP
  · rename_i hc2
    refine ring_start _ _ _ _ _ hP (fun _ => ring_head_valid _ (i + 1) _ hP hne ?_ hk)
    have := hP.2.2.1
    omega


theorem run_append (g : Globals) (cs ds : List Call) :
    run g (cs ++ ds) = run (run g cs) ds := by
  simp [run, List.foldl_append]

theorem ring_outputs (g0 : Globals) (es : List (List Nat × Bool × Bool))
    (hd : g0.trace_dropped_count = 0) (hk : es.length ≤ 32)
    (hne : ∀ e ∈ es, cstr e.1 ≠ []) :
    Ring (es.map (fun e => e.1)) 0 (run (trace_log_init g0) (outputs es)) := by
  induction es using List.reverseRecOn with
  | nil => exact ring_init g0 hd
  | append_singleton es e ih =>
    have hlen : es.length < 32 := by
      rw [List.length_append, List.length_singleton] at hk; omega
    have hne1 : ∀ x ∈ es, cstr x.1 ≠ [] := fun x hx => hne x (List.mem_append_left _ hx)
    have hne2 : ∀ x ∈ es.map (fun e => e.1), cstr x ≠ [] := by
      intro x hx
      obtain ⟨y, hy, rfl⟩ := List.mem_map.mp hx
      exact hne1 y hy
    have := ring_output _ _ e.1 e.2.1 e.2.2 (ih (by omega) hne1) hne2
      (hne e (by simp)) (by simpa using hlen)
    simpa [outputs, run_append, run, Call.apply] using this

theorem ring_completions (ms : List (List Nat)) (g : Globals) (cbs : List (Bool × Bool))
    (h : Ring ms 0 g) (hne : ∀ x ∈ ms, cstr x ≠ []) (hk : ms.length ≤ 32)
    (hi : cbs.length ≤ ms.length) :
    Ring ms cbs.length (run g (completions cbs)) := by
  induction cbs using List.reverseRecOn with
  | nil => exact h
  | append_singleton cbs c ih =>
    rw [List.length_append, List.length_singleton] at hi ⊢
    have := ring_callback ms cbs.length _ c.1 c.2 (ih (by omega)) hne (by omega) hk
    simpa [completions, run_append, run, Call.apply] using this

theorem output_room_dropped (g : Globals) (m : List Nat) (ready hal_ok : Bool)
    (h : g.uart_queue.count < 32) :
    (trace_log_uart_output g (some m) ready hal_ok).2.1.trace_dropped_count = 0 := by
  rw [output_room g m _ _ h]
  split
  · exact (enqueue_fields g m h).2.2.2.1
  · rw [start_dropped]; exact (enqueue_fields g m h).2.2.2.1

theorem pending_push (g : Globals) (m : List Nat) (hshape : ShapeOk g)
    (htail : g.uart_queue.tail = (g.uart_queue.head + g.uart_queue.count) % 32)
    (hroom : g.uart_queue.count < 32) :
    pending (push g m) = pending g ++ [stored_slot m] := by
  have hc : (push g m).uart_queue.count = g.uart_queue.count + 1 := by
    show (g.uart_queue.count + 1) % 256 = _
    omega
  have hh : (push g m).uart_queue.head = g.uart_queue.head := rfl
  unfold pending
  rw [hc, hh, List.range_succ, List.map_append]
  congr 1
  · apply List.map_congr_left
    intro k hk
    have hk2 : k < g.uart_queue.count := List.mem_range.mp hk
    rw [push_slot g m hshape, if_neg]
    intro h
    have := h.1
    simp only [TRACE_LOG_UART_QUEUE_SIZE] at this
    omega
  · simp only [List.map_cons, List.map_nil, TRACE_LOG_UART_QUEUE_SIZE]
    rw [push_slot g m hshape, if_pos ⟨htail, by omega⟩]

theorem pending_busy (g : Globals) (b : Bool) :
    pending { g with uart_queue := { g.uart_queue with dma_busy := b } } = pending g := rfl

theorem cstr_drop_msg (n : Nat) : cstr (drop_msg n) ≠ [] := by
  simp [drop_msg, cstr, List.takeWhile]

/-! ## C1: first-in first-out retirement -/

/-- C1: take a freshly initialised queue with drop counter 0 and offer it `k <= 32`
non-empty messages, under any channel-ready flags and submit results. Then all `k`
messages are stored, message number `j` in slot `j` (truncated to 255 bytes, in use), and
after any `i < k` completion notifications the head is slot `i`, which still holds message
number `i`; the next completion retires exactly that slot (it becomes unused, every
other slot is untouched), advances the head and decrements the count. So the `i`-th
completion retires the slot holding the `i`-th message. -/
theorem fifo_retirement (g0 : Globals) (es : List (List Nat × Bool × Bool))
    (cbs : List (Bool × Bool)) (ready hal_ok : Bool)
    (hd : g0.trace_dropped_count = 0) (hk : es.length ≤ TRACE_LOG_UART_QUEUE_SIZE)
    (hne : ∀ e ∈ es, cstr e.1 ≠ []) (hi : cbs.length < es.length) :
    (run (trace_log_init g0) (outputs es)).uart_queue.count = es.length ∧
    (run (trace_log_init g0) (outputs es)).trace_dropped_count = 0 ∧
    (∀ j, j < es.length →
      slot_at (run (trace_log_init g0) (outputs es)).uart_queue j
        = stored_slot ((es.map (fun e => e.1)).getD j [])) ∧
    (run (trace_log_init g0) (outputs es ++ completions cbs)).uart_queue.head = cbs.length ∧
    (run (trace_log_init g0) (outputs es ++ completions cbs)).uart_queue.count
      = es.length - cbs.length ∧
    slot_at (run (trace_log_init g0) (outputs es ++ completions cbs)).uart_queue cbs.length
      = stored_slot ((es.map (fun e => e.1)).getD cbs.length []) ∧
    slot_at (trace_log_tx_complete_callback
        (run (trace_log_init g0) (outputs es ++ completions cbs)) ready hal_ok).1.uart_queue
        cbs.length
      = { stored_slot ((es.map (fun e => e.1)).getD cbs.length []) with in_use := false } ∧
    (∀ j, j ≠ cbs.length →
      slot_at (trace_log_tx_complete_callback
          (run (trace_log_init g0) (outputs es ++ completions cbs)) ready hal_ok).1.uart_queue j
        = slot_at (run (trace_log_init g0) (outputs es ++ completions cbs)).uart_queue j) ∧
    (trace_log_tx_complete_callback
        (run (trace_log_init g0) (outputs es ++ completions cbs)) ready hal_ok).1.uart_queue.head
      = (cbs.length + 1) % TRACE_LOG_UART_QUEUE_SIZE ∧
    (trace_log_tx_complete_callback
        (run (trace_log_init g0) (outputs es ++ completions cbs)) ready hal_ok).1.uart_queue.count
      = es.length - cbs.length - 1 := by
  simp only [TRACE_LOG_UART_QUEUE_SIZE] at hk ⊢
  have hne2 : ∀ x ∈ es.map (fun e => e.1), cstr x ≠ [] := by
    intro x hx
    obtain ⟨y, hy, rfl⟩ := List.mem_map.mp hx
    exact hne y hy
  have hlen : (es.map (fun e => e.1)).length = es.length := List.length_map _ _
  have h1 := ring_outputs g0 es hd hk hne
  have h2 := ring_completions _ _ cbs h1 hne2 (by omega) (by omega)
  have h3 := ring_callback _ _ _ ready hal_ok h2 hne2 (by omega) (by omega)
  rw [run_append]
  generalize run (trace_log_init g0) (outputs es) = gk at h1 h2 h3 ⊢
  generalize run gk (completions cbs) = g at h2 h3 ⊢
  generalize (trace_log_tx_complete_callback g ready hal_ok).1 = g' at h3 ⊢
  obtain ⟨-, -, hc1, hd1, -, hs1⟩ := h1
  obtain ⟨hh2, -, hc2, -, -, hs2⟩ := h2
  obtain ⟨hh3, -, hc3, -, -, hs3⟩ := h3
  rw [hlen] at hc1 hc2 hc3 hs1 hs2 hs3
  refine ⟨hc1, hd1, ?_, ?_, hc2, ?_, ?_, ?_, hh3, ?_⟩
  · intro j hj
    rw [hs1 j, if_neg (Nat.not_lt_zero j), if_pos hj]
  · rw [hh2]; omega
  · rw [hs2, if_neg (Nat.lt_irrefl _), if_pos hi]
  · rw [hs3, if_pos (Nat.lt_succ_self _)]
  · intro j hj
    rw [hs3 j, hs2 j]
    by_cases hlt : j < cbs.length
    · rw [if_pos hlt, if_pos (show j < cbs.length + 1 by omega)]
    · rw [if_neg hlt, if_neg (show ¬ j < cbs.length + 1 by omega)]
  · rw [hc3]; omega

/-- Instance of C1 with three messages, assorted hardware observations and one earlier
completion: the second completion retires slot 1, which holds the second message. -/
theorem fifo_retirement_witness :
    boot.trace_dropped_count = 0 ∧
    [([97], true, true), ([98, 99], false, true), ([100], true, false)].length
      ≤ TRACE_LOG_UART_QUEUE_SIZE ∧
    (∀ e ∈ [([97], true, true), ([98, 99], false, true), ([100], true, false)],
      cstr e.1 ≠ []) ∧
    slot_at (run (trace_log_init boot)
        (outputs [([97], true, true), ([98, 99], false, true), ([100], true, false)]
          ++ completions [(true, false)])).uart_queue 1 = stored_slot [98, 99] ∧
    slot_at (trace_log_tx_complete_callback (run (trace_log_init boot)
        (outputs [([97], true, true), ([98, 99], false, true), ([100], true, false)]
          ++ completions [(true, false)])) false true).1.uart_queue 1
      = { stored_slot [98, 99] with in_use := false } :=
  ⟨by decide, by decide, by decide,
    (fifo_retirement boot [([97], true, true), ([98, 99], false, true), ([100], true, false)]
      [(true, false)] false true (by decide) (by decide) (by decide) (by decide)).2.2.2.2.2.1,
    (fifo_retirement boot [([97], true, true), ([98, 99], false, true), ([100], true, false)]
      [(true, false)] false true (by decide) (by decide) (by decide) (by decide)).2.2.2.2.2.2.1⟩

/-! ## C2: rejection on a full queue -/

/-- C2 as stated fails: on a full queue whose drop counter is `2^32 - 1`, the rejected call
returns `TL_RESULT_BUFFER_FULL` and the `uint32_t` counter wraps to 0 instead of growing by
one. -/
theorem full_rejection_counter_wraps :
    TRACE_LOG_UART_QUEUE_SIZE ≤ full_queue_max_drops.uart_queue.count ∧
    (trace_log_uart_output full_queue_max_drops (some [101]) true true).1
      = TL_RESULT_BUFFER_FULL ∧
    (trace_log_uart_output full_queue_max_drops (some [101]) true true).2.1.trace_dropped_count
      = 0 ∧
    (trace_log_uart_output full_queue_max_drops (some [101]) true true).2.1.trace_dropped_count
      ≠ full_queue_max_drops.trace_dropped_count + 1 := by
  decide!

/-- C2 amended: on a full queue, `trace_log_uart_output` with a non-null message returns
`TL_RESULT_BUFFER_FULL`, submits no transmit request, leaves the whole queue (head, tail,
count, dma_busy, every slot) unchanged and increases the drop counter by one modulo `2^32`,
that is by exactly one whenever the counter is below `2^32 - 1`. -/
theorem full_queue_rejection (g : Globals) (m : List Nat) (ready hal_ok : Bool)
    (hfull : TRACE_LOG_UART_QUEUE_SIZE ≤ g.uart_queue.count) :
    (trace_log_uart_output g (some m) ready hal_ok).1 = TL_RESULT_BUFFER_FULL ∧
    (trace_log_uart_output g (some m) ready hal_ok).2.2 = none ∧
    (trace_log_uart_output g (some m) ready hal_ok).2.1.uart_queue = g.uart_queue ∧
    (trace_log_uart_output g (some m) ready hal_ok).2.1.trace_dropped_count
      = (g.trace_dropped_count + 1) % 4294967296 ∧
    (g.trace_dropped_count < 4294967295 →
      (trace_log_uart_output g (some m) ready hal_ok).2.1.trace_dropped_count
        = g.trace_dropped_count + 1) := by
  rw [output_full g m ready hal_ok hfull]
  refine ⟨rfl, rfl, rfl, rfl, fun h => ?_⟩
  show (g.trace_dropped_count + 1) % 4294967296 = _
  omega

/-- Instance of C2 amended on a queue whose count is 32. -/
theorem full_queue_rejection_witness :
    TRACE_LOG_UART_QUEUE_SIZE ≤ full_queue_sample.uart_queue.count ∧
    ((trace_log_uart_output full_queue_sample (some [101]) true true).1
        = TL_RESULT_BUFFER_FULL ∧
    (trace_log_uart_output full_queue_sample (some [101]) true true).2.2 = none ∧
    (trace_log_uart_output full_queue_sample (some [101]) true true).2.1.uart_queue
        = full_queue_sample.uart_queue ∧
    (trace_log_uart_output full_queue_sample (some [101]) true true).2.1.trace_dropped_count
      = (full_queue_sample.trace_dropped_count + 1) % 4294967296 ∧
    (full_queue_sample.trace_dropped_count < 4294967295 →
      (trace_log_uart_output full_queue_sample (some [101]) true true).2.1.trace_dropped_count
        = full_queue_sample.trace_dropped_count + 1)) :=
  ⟨by decide, full_queue_rejection full_queue_sample [101] true true (by decide)⟩

/-! ## C3, C4, C5: the drop notice on a queue with one free slot

All three evaluate the same trace: 32 messages fill the queue, a 33rd is rejected (one drop
recorded), one completion frees slot 0 and starts the transmission of slot 1, and then one
more message is offered. `uart_queue_enqueue` stores the drop notice in slot 0, which fills
the queue, and then stores the message without a second full check. -/

/-- C3 fails on the code: after the trace above `count` is 33, above the queue size 32. -/
theorem count_exceeds_queue_size :
    (run boot drop_then_complete).uart_queue.count = 31 ∧
    (run boot drop_then_complete).trace_dropped_count = 1 ∧
    (run boot (drop_then_complete ++ [Call.output (some [102]) true true])).uart_queue.count
      = 33 ∧
    ¬ (run boot (drop_then_complete ++ [Call.output (some [102]) true true])).uart_queue.count
      ≤ TRACE_LOG_UART_QUEUE_SIZE := by
  decide!

/-- C4 fails on the code: before the last call slot 1 is the head of the queue, in use,
holding the pending message `B` whose transmission is in flight; the call overwrites it
with the new message `f` and still returns `TL_RESULT_OK`. -/
theorem pending_head_overwritten :
    (run boot drop_then_complete).uart_queue.count = 31 ∧
    (run boot drop_then_complete).uart_queue.head = 1 ∧
    (run boot drop_then_complete).uart_queue.dma_busy = true ∧
    slot_at (run boot drop_then_complete).uart_queue 1 = stored_slot [66] ∧
    slot_at (trace_log_uart_output (run boot drop_then_complete) (some [102]) true true).2.1.uart_queue 1
      = stored_slot [102] ∧
    (trace_log_uart_output (run boot drop_then_complete) (some [102]) true true).1
      = TL_RESULT_OK := by
  decide!

/-- C5 as stated fails: with 31 entries queued (count < N, one free slot) and one drop
recorded, the notice and the message need two slots, and the queued order after the call
is not (old entries, notice, message): the oldest entry `B` has been replaced by the new
message, which is now queued twice (first and last of 33 entries). -/
theorem drop_notice_order_broken :
    (run boot drop_then_complete).uart_queue.count < TRACE_LOG_UART_QUEUE_SIZE ∧
    (run boot drop_then_complete).trace_dropped_count = 1 ∧
    pending (run boot drop_then_complete)
      = (List.range 31).map (fun i => stored_slot [66 + i]) ∧
    pending (trace_log_uart_output (run boot drop_then_complete) (some [102]) true true).2.1
      = stored_slot [102] :: (List.range 30).map (fun i => stored_slot [67 + i])
          ++ [stored_slot (drop_msg 1), stored_slot [102]] ∧
    pending (trace_log_uart_output (run boot drop_then_complete) (some [102]) true true).2.1
      ≠ pending (run boot drop_then_complete) ++ [stored_slot (drop_msg 1), stored_slot [102]] := by
  decide!

/-- C5 amended: in every state with consistent ring indices, at least two free slots
(`count + 2 ≤ N`), a drop counter `d > 0` and a valid head slot (if the queue is not
empty), `trace_log_uart_output` with a non-empty message keeps the queued entries unchanged
and in order and appends the drop notice reporting `d` immediately followed by the message:
the queued order becomes (old entries, notice(d), message). -/
theorem drop_notice_order_with_room (g : Globals) (m : List Nat) (ready hal_ok : Bool)
    (hshape : ShapeOk g) (hhead : g.uart_queue.head < 32)
    (htail : g.uart_queue.tail = (g.uart_queue.head + g.uart_queue.count) % 32)
    (hroom : g.uart_queue.count + 2 ≤ 32) (hd : 0 < g.trace_dropped_count)
    (hne : cstr m ≠ []) (hv : g.uart_queue.count ≠ 0 → HeadValid g) :
    pending (trace_log_uart_output g (some m) ready hal_ok).2.1
      = pending g ++ [stored_slot (drop_msg g.trace_dropped_count), stored_slot m] := by
  have hlt : g.uart_queue.count < 32 := by omega
  have hs0 : ShapeOk { g with trace_dropped_count := 0 } := hshape
  have hs1 := push_shape { g with trace_dropped_count := 0 } (drop_msg g.trace_dropped_count) hs0
  have hE : (uart_queue_enqueue g m).2 =
      push (push { g with trace_dropped_count := 0 } (drop_msg g.trace_dropped_count)) m := by
    rw [enqueue_pos g m hlt hd]
  have hc1 : (push { g with trace_dropped_count := 0 }
      (drop_msg g.trace_dropped_count)).uart_queue.count = g.uart_queue.count + 1 := by
    show (g.uart_queue.count + 1) % 256 = _
    omega
  have hp : pending (uart_queue_enqueue g m).2
      = pending g ++ [stored_slot (drop_msg g.trace_dropped_count), stored_slot m] := by
    rw [hE, pending_push _ m hs1 ?_ (by rw [hc1]; omega),
      pending_push _ _ hs0 htail hlt, List.append_assoc]
    · rfl
    · rw [hc1]
      show (g.uart_queue.tail + 1) % 32 = (g.uart_queue.head + (g.uart_queue.count + 1)) % 32
      omega
  have hvE : (uart_queue_enqueue g m).2.uart_queue.count ≠ 0 →
      HeadValid (uart_queue_enqueue g m).2 := by
    intro _
    rw [hE]
    unfold HeadValid
    show (slot_at (push _ m).uart_queue g.uart_queue.head).length ≠ 0 ∧
      (slot_at (push _ m).uart_queue g.uart_queue.head).length ≤ 256
    generalize hS : slot_at (push _ m).uart_queue g.uart_queue.head = S
    rw [push_slot _ m hs1, push_slot _ _ hs0] at hS
    split at hS
    · rw [← hS]; exact stored_slot_valid m hne
    · split at hS
      · rw [← hS]; exact stored_slot_valid _ (cstr_drop_msg _)
      · rename_i h1 h2
        have hcne : g.uart_queue.count ≠ 0 := by
          intro h0
          apply h2
          show g.uart_queue.tail = g.uart_queue.head ∧ g.uart_queue.tail < 32
          rw [htail, h0]
          omega
        rw [← hS]
        exact hv hcne
  rw [output_room g m _ _ hlt]
  split
  · exact hp
  · obtain ⟨b, hb⟩ := start_valid_frame (uart_queue_enqueue g m).2 ready hal_ok hvE
    rw [hb, pending_busy, hp]

/-- Instance of C5 amended: the trace of the scenario at capacity 32 with a second
completion before the last call, so that two slots are free: 30 entries are queued, one
drop is recorded, and the call appends notice(1) and then the message. -/
theorem drop_notice_order_with_room_instance :
    two_free_slots.uart_queue.count = 30 ∧ two_free_slots.trace_dropped_count = 1 ∧
    pending (trace_log_uart_output two_free_slots (some [102]) true true).2.1
      = pending two_free_slots
          ++ [stored_slot (drop_msg two_free_slots.trace_dropped_count), stored_slot [102]] :=
  ⟨by decide!, by decide!,
    drop_notice_order_with_room two_free_slots [102] true true (by decide!) (by decide!)
      (by decide!) (by decide!) (by decide!) (by decide) (by decide!)⟩

/-! ## C6: the drop counter -/

/-- C6: whenever the queue is not full, `trace_log_uart_output` with a non-null message
leaves the drop counter at 0 (whatever it was, and also when the notice and the message
did not both fit); and the counter is changed by nothing else than this reset and the
full-queue rejection: a call with the NULL pointer, the completion callback,
`trace_log_init`, `uart_start_transmission` and `uart_queue_dequeue` keep its value, and
`uart_queue_enqueue` only ever clears it. -/
theorem drop_counter_reset (g : Globals) (m : List Nat) (ready hal_ok : Bool) :
    (g.uart_queue.count < TRACE_LOG_UART_QUEUE_SIZE →
      (trace_log_uart_output g (some m) ready hal_ok).2.1.trace_dropped_count = 0) ∧
    (trace_log_uart_output g none ready hal_ok).2.1.trace_dropped_count
      = g.trace_dropped_count ∧
    (trace_log_tx_complete_callback g ready hal_ok).1.trace_dropped_count
      = g.trace_dropped_count ∧
    (trace_log_init g).trace_dropped_count = g.trace_dropped_count ∧
    (uart_start_transmission g ready hal_ok).2.1.trace_dropped_count
      = g.trace_dropped_count ∧
    (uart_queue_dequeue g).2.trace_dropped_count = g.trace_dropped_count ∧
    ((uart_queue_enqueue g m).2.trace_dropped_count = g.trace_dropped_count ∨
      (uart_queue_enqueue g m).2.trace_dropped_count = 0) := by
  refine ⟨fun h => output_room_dropped g m ready hal_ok h, rfl,
    callback_dropped g ready hal_ok, rfl, start_dropped g ready hal_ok, ?_, ?_⟩
  · by_cases hc : g.uart_queue.count = 0
    · rw [dequeue_empty g hc]
    · rw [dequeue_nonempty g hc]; rfl
  · by_cases hf : 32 ≤ g.uart_queue.count
    · rw [enqueue_full g m hf]; exact Or.inl rfl
    · exact Or.inr (enqueue_fields g m (by omega)).2.2.2.1

/-- Instance of C6 on a queue with 31 entries and 7 recorded drops. -/
theorem drop_counter_reset_witness :
    nearly_full_sample.uart_queue.count < TRACE_LOG_UART_QUEUE_SIZE ∧
    nearly_full_sample.trace_dropped_count = 7 ∧
    (trace_log_uart_output nearly_full_sample (some [102]) true true).2.1.trace_dropped_count
      = 0 :=
  ⟨by decide, by decide,
    (drop_counter_reset nearly_full_sample [102] true true).1 (by decide)⟩

/-! ## C7: null and empty messages -/

/-- C7 as stated fails for the empty string: on the freshly initialised queue the call is
not rejected, it returns `TL_RESULT_ERROR` (the status of the start attempt) and has
stored a zero-length entry (`count` goes from 0 to 1). -/
theorem empty_message_not_rejected :
    (trace_log_uart_output boot (some []) false false).1 ≠ TL_RESULT_INVALID_PARAM ∧
    (trace_log_uart_output boot (some []) false false).1 = TL_RESULT_ERROR ∧
    boot.uart_queue.count = 0 ∧
    (trace_log_uart_output boot (some []) false false).2.1.uart_queue.count = 1 ∧
    (slot_at (trace_log_uart_output boot (some []) false false).2.1.uart_queue 0).length = 0 ∧
    (slot_at (trace_log_uart_output boot (some []) false false).2.1.uart_queue 0).in_use
      = true := by
  decide!

/-- C7 amended: `trace_log_uart_output` called with the NULL pointer returns
`TL_RESULT_INVALID_PARAM`, submits nothing and leaves the queue, the drop counter and the
callback counter unchanged; a non-null message, the empty string included, is never
answered with `TL_RESULT_INVALID_PARAM`. -/
theorem null_message_rejected (g : Globals) (m : List Nat) (ready hal_ok : Bool) :
    trace_log_uart_output g none ready hal_ok = (TL_RESULT_INVALID_PARAM, g, none) ∧
    (trace_log_uart_output g (some m) ready hal_ok).1 ≠ TL_RESULT_INVALID_PARAM := by
  refine ⟨rfl, ?_⟩
  by_cases hf : 32 ≤ g.uart_queue.count
  · rw [output_full g m _ _ hf]; simp
  · rw [output_room g m _ _ (by omega)]
    split
    · simp
    · rcases start_result (uart_queue_enqueue g m).2 ready hal_ok with h | h <;> rw [h] <;> simp

/-! ## C8: status returned by `trace_log_uart_output` -/

/-- C8 as stated fails: on the freshly initialised queue, a non-empty message offered while
the channel is not ready is stored (count goes to 1) but the call returns
`TL_RESULT_ERROR`, the status of the failed start attempt. -/
theorem output_error_when_channel_not_ready :
    boot.uart_queue.count < TRACE_LOG_UART_QUEUE_SIZE ∧
    cstr [97] ≠ [] ∧
    (trace_log_uart_output boot (some [97]) false true).1 = TL_RESULT_ERROR ∧
    (trace_log_uart_output boot (some [97]) false true).1 ≠ TL_RESULT_OK ∧
    (trace_log_uart_output boot (some [97]) false true).2.1.uart_queue.count = 1 ∧
    slot_at (trace_log_uart_output boot (some [97]) false true).2.1.uart_queue 0
      = stored_slot [97] := by
  decide!

/-- C8 amended: with room in the queue (count < N) and a non-null, non-empty message,
`trace_log_uart_output` always stores the message (truncated to 255 bytes, marked in use)
and never answers `TL_RESULT_INVALID_PARAM` or `TL_RESULT_BUFFER_FULL`; the status
it returns is that of the start attempt: `TL_RESULT_OK` without any submission when a
transmission is already in flight, `TL_RESULT_ERROR` without any submission when no
transmission is in flight and the channel is not ready. -/
theorem output_stores_and_reports (g : Globals) (m : List Nat) (ready hal_ok : Bool)
    (hroom : g.uart_queue.count < TRACE_LOG_UART_QUEUE_SIZE) (hshape : ShapeOk g)
    (htail : g.uart_queue.tail < TRACE_LOG_UART_QUEUE_SIZE) (hne : cstr m ≠ []) :
    slot_at (trace_log_uart_output g (some m) ready hal_ok).2.1.uart_queue (written_index g)
      = stored_slot m ∧
    (trace_log_uart_output g (some m) ready hal_ok).1 ≠ TL_RESULT_INVALID_PARAM ∧
    (trace_log_uart_output g (some m) ready hal_ok).1 ≠ TL_RESULT_BUFFER_FULL ∧
    (g.uart_queue.dma_busy = true →
      (trace_log_uart_output g (some m) ready hal_ok).1 = TL_RESULT_OK ∧
      (trace_log_uart_output g (some m) ready hal_ok).2.2 = none) ∧
    (g.uart_queue.dma_busy = false → ready = false →
      (trace_log_uart_output g (some m) ready hal_ok).1 = TL_RESULT_ERROR ∧
      (trace_log_uart_output g (some m) ready hal_ok).2.2 = none) := by
  simp only [TRACE_LOG_UART_QUEUE_SIZE] at hroom htail
  have hslot := enqueue_slot g m hroom hshape htail
  have hbusy := (enqueue_fields g m hroom).2.1
  rw [output_room g m _ _ hroom]
  refine ⟨?_, ?_, ?_, ?_, ?_⟩
  · split
    · exact hslot
    · rw [start_slot_of_valid _ _ _ _ ?_, hslot]
      intro hh
      unfold HeadValid
      rw [hh, hslot]
      exact stored_slot_valid m hne
  · split
    · simp
    · rcases start_result (uart_queue_enqueue g m).2 ready hal_ok with h | h <;> rw [h] <;> simp
  · split
    · simp
    · rcases start_result (uart_queue_enqueue g m).2 ready hal_ok with h | h <;> rw [h] <;> simp
  · intro hb
    rw [if_pos (by rw [hbusy, hb])]
    exact ⟨rfl, rfl⟩
  · intro hb hr
    rw [if_neg (by rw [hbusy, hb]; simp), start_idle _ _ _ (Or.inr (Or.inr hr))]
    exact ⟨rfl, rfl⟩

/-- Instance of C8 amended on the freshly initialised queue. -/
theorem output_stores_and_reports_witness :
    boot.uart_queue.count < TRACE_LOG_UART_QUEUE_SIZE ∧ ShapeOk boot ∧
    boot.uart_queue.tail < TRACE_LOG_UART_QUEUE_SIZE ∧ cstr [97] ≠ [] ∧
    slot_at (trace_log_uart_output boot (some [97]) true true).2.1.uart_queue
      (written_index boot) = stored_slot [97] :=
  ⟨by decide, by decide!, by decide, by decide,
    (output_stores_and_reports boot [97] true true (by decide) (by decide!) (by decide)
      (by decide)).1⟩

/-! ## C9: truncation -/

/-- C9: when `uart_queue_enqueue` stores a message of length `L` (queue not full), the slot
it writes holds the first `min L 255` bytes of the message followed by NUL bytes up to the
256-byte capacity, its length field is `min L 255` and it is marked in use; a message
longer than 255 bytes is stored as its first 255 bytes with length 255. -/
theorem enqueue_truncates (g : Globals) (m : List Nat)
    (hroom : g.uart_queue.count < TRACE_LOG_UART_QUEUE_SIZE) (hshape : ShapeOk g)
    (htail : g.uart_queue.tail < TRACE_LOG_UART_QUEUE_SIZE) :
    (uart_queue_enqueue g m).1 = TL_RESULT_OK ∧
    (slot_at (uart_queue_enqueue g m).2.uart_queue (written_index g)).message
      = m.take (min (strlen m) (TRACE_LOG_UART_MESSAGE_SIZE - 1))
        ++ List.replicate
            (TRACE_LOG_UART_MESSAGE_SIZE - min (strlen m) (TRACE_LOG_UART_MESSAGE_SIZE - 1)) 0 ∧
    (slot_at (uart_queue_enqueue g m).2.uart_queue (written_index g)).message[
        min (strlen m) (TRACE_LOG_UART_MESSAGE_SIZE - 1)]? = some 0 ∧
    (slot_at (uart_queue_enqueue g m).2.uart_queue (written_index g)).length
      = min (strlen m) (TRACE_LOG_UART_MESSAGE_SIZE - 1) ∧
    (slot_at (uart_queue_enqueue g m).2.uart_queue (written_index g)).in_use = true ∧
    (TRACE_LOG_UART_MESSAGE_SIZE - 1 < strlen m →
      (slot_at (uart_queue_enqueue g m).2.uart_queue (written_index g)).message
        = m.take 255 ++ [0] ∧
      (slot_at (uart_queue_enqueue g m).2.uart_queue (written_index g)).length = 255) := by
  simp only [TRACE_LOG_UART_QUEUE_SIZE, TRACE_LOG_UART_MESSAGE_SIZE,
    TRACE_LOG_MAX_MESSAGE_SIZE] at hroom htail ⊢
  have h1 : (256 - 1 : Nat) = 255 := rfl
  simp only [h1]
  rw [enqueue_slot g m hroom hshape htail]
  have hk : (cstr m).take 255 = m.take (min (strlen m) 255) := by
    rw [← take_cstr m _ (Nat.min_le_left _ _)]
    unfold strlen
    rw [List.take_eq_take]
    simp [Nat.min_comm]
  refine ⟨enqueue_result g m hroom, ?_, ?_, rfl, rfl, ?_⟩
  · simp only [stored_slot, hk]
  · simp only [stored_slot, hk]
    have hl : (m.take (min (strlen m) 255)).length = min (strlen m) 255 := by
      rw [← hk]; simp [strlen, Nat.min_comm]
    rw [List.getElem?_append_right (by omega), hl, Nat.sub_self]
    have : 256 - min (strlen m) 255 = (255 - min (strlen m) 255) + 1 := by omega
    rw [this, List.replicate_succ]
    simp
  · intro hL
    have hmin : min (strlen m) 255 = 255 := by omega
    simp only [stored_slot, hk, hmin]
    exact ⟨rfl, trivial⟩

/-- Instance of C9 on a 300-byte message: 255 bytes and a terminator are stored. -/
theorem enqueue_truncates_witness :
    boot.uart_queue.count < TRACE_LOG_UART_QUEUE_SIZE ∧ ShapeOk boot ∧
    boot.uart_queue.tail < TRACE_LOG_UART_QUEUE_SIZE ∧
    strlen (List.replicate 300 65) = 300 ∧
    (slot_at (uart_queue_enqueue boot (List.replicate 300 65)).2.uart_queue
        (written_index boot)).message = List.replicate 255 65 ++ [0] ∧
    (slot_at (uart_queue_enqueue boot (List.replicate 300 65)).2.uart_queue
        (written_index boot)).length = 255 :=
  ⟨by decide, by decide!, by decide, by decide!,
    ((enqueue_truncates boot (List.replicate 300 65) (by decide) (by decide!) (by decide)).2.2.2.2.2
      (by decide!)).1.trans (by decide!),
    ((enqueue_truncates boot (List.replicate 300 65) (by decide) (by decide!) (by decide)).2.2.2.2.2
      (by decide!)).2⟩

/-! ## C10: spurious completion -/

/-- C10: in every state reached from `trace_log_init` by output and completion calls, if the
queue is empty then `trace_log_tx_complete_callback` leaves the queue (head, tail, count,
dma_busy, every slot) and the drop counter unchanged and submits no transmit request. -/
theorem spurious_completion (g0 : Globals) (cs : List Call) (ready hal_ok : Bool)
    (hempty : (run (trace_log_init g0) cs).uart_queue.count = 0) :
    (trace_log_tx_complete_callback (run (trace_log_init g0) cs) ready hal_ok).1.uart_queue
      = (run (trace_log_init g0) cs).uart_queue ∧
    (trace_log_tx_complete_callback (run (trace_log_init g0) cs) ready hal_ok).1.trace_dropped_count
      = (run (trace_log_init g0) cs).trace_dropped_count ∧
    (trace_log_tx_complete_callback (run (trace_log_init g0) cs) ready hal_ok).2 = none := by
  have hinv := run_countInv _ cs (init_countInv g0)
  generalize run (trace_log_init g0) cs = g at hempty hinv ⊢
  have hb : g.uart_queue.dma_busy = false := by
    cases h : g.uart_queue.dma_busy
    · rfl
    · have := hinv.2 h; omega
  rw [callback_eq, if_pos hempty]
  refine ⟨?_, rfl, rfl⟩
  show { g.uart_queue with dma_busy := false } = g.uart_queue
  rw [← hb]

/-- Instance of C10 after one message has been sent and completed. -/
theorem spurious_completion_witness :
    (run (trace_log_init boot)
        [Call.output (some [97]) true true, Call.tx_complete true true]).uart_queue.count = 0 ∧
    ((trace_log_tx_complete_callback (run (trace_log_init boot)
        [Call.output (some [97]) true true, Call.tx_complete true true]) true true).1.uart_queue
      = (run (trace_log_init boot)
        [Call.output (some [97]) true true, Call.tx_complete true true]).uart_queue ∧
    (trace_log_tx_complete_callback (run (trace_log_init boot)
        [Call.output (some [97]) true true, Call.tx_complete true true]) true true).1.trace_dropped_count
      = (run (trace_log_init boot)
        [Call.output (some [97]) true true, Call.tx_complete true true]).trace_dropped_count ∧
    (trace_log_tx_complete_callback (run (trace_log_init boot)
        [Call.output (some [97]) true true, Call.tx_complete true true]) true true).2 = none) :=
  ⟨by decide!, spurious_completion boot
    [Call.output (some [97]) true true, Call.tx_complete true true] true true (by decide!)⟩

/-! ## Further facts about the helpers -/

theorem push_indexInv (g : Globals) (m : List Nat) (h : IndexInv g)
    (hc : g.uart_queue.count < 255) : IndexInv (push g m) := by
  obtain ⟨hh, ht, he⟩ := h
  simp only [TRACE_LOG_UART_QUEUE_SIZE] at hh ht he
  refine ⟨?_, ?_, ?_⟩
  · exact hh
  · show (g.uart_queue.tail + 1) % 32 < 32
    omega
  · show (g.uart_queue.tail + 1) % 32 = (g.uart_queue.head + (g.uart_queue.count + 1) % 256) % 32
    omega

theorem pop_indexInv (g : Globals) (h : IndexInv g) : IndexInv (pop g) := by
  obtain ⟨hh, ht, he⟩ := h
  simp only [TRACE_LOG_UART_QUEUE_SIZE] at hh ht he
  refine ⟨?_, ?_, ?_⟩
  · show (g.uart_queue.head + 1) % 32 < 32
    omega
  · exact ht
  · show g.uart_queue.tail = ((g.uart_queue.head + 1) % 32 + (g.uart_queue.count + 255) % 256) % 32
    omega

theorem enqueue_indexInv (g : Globals) (m : List Nat) (h : IndexInv g) :
    IndexInv (uart_queue_enqueue g m).2 := by
  by_cases hf : 32 ≤ g.uart_queue.count
  · rw [enqueue_full g m hf]; exact h
  · have hlt : g.uart_queue.count < 32 := by omega
    rcases Nat.eq_zero_or_pos g.trace_dropped_count with hd | hd
    · rw [enqueue_zero g m hlt hd]
      exact push_indexInv g m h (by omega)
    · rw [enqueue_pos g m hlt hd]
      have h0 : IndexInv { g with trace_dropped_count := 0 } := h
      have h1 := push_indexInv _ (drop_msg g.trace_dropped_count) h0
        (show g.uart_queue.count < 255 by omega)
      refine push_indexInv _ m h1 ?_
      show (g.uart_queue.count + 1) % 256 < 255
      omega

theorem start_indexInv (g : Globals) (ready hal_ok : Bool) (h : IndexInv g) :
    IndexInv (uart_start_transmission g ready hal_ok).2.1 := by
  by_cases hz : g.uart_queue.count = 0
  · rw [start_idle g _ _ (Or.inl hz)]; exact h
  · cases hb : g.uart_queue.dma_busy
    · cases ready
      · rw [start_idle g _ _ (Or.inr (Or.inr rfl))]; exact h
      · by_cases hv : HeadValid g
        · rw [start_submit g _ hz hb hv]; exact h
        · rw [start_corrupt g _ hz hb hv]
          exact pop_indexInv g h
    · rw [start_idle g _ _ (Or.inr (Or.inl hb))]; exact h

theorem output_indexInv (g : Globals) (message : Option (List Nat)) (ready hal_ok : Bool)
    (h : IndexInv g) : IndexInv (trace_log_uart_output g message ready hal_ok).2.1 := by
  cases message with
  | none => exact h
  | some m =>
    by_cases hf : 32 ≤ g.uart_queue.count
    · rw [output_full g m _ _ hf]; exact h
    · rw [output_room g m _ _ (by omega)]
      split
      · exact enqueue_indexInv g m h
      · exact start_indexInv _ _ _ (enqueue_indexInv g m h)

theorem callback_indexInv (g : Globals) (ready hal_ok : Bool) (h : IndexInv g) :
    IndexInv (trace_log_tx_complete_callback g ready hal_ok).1 := by
  rw [callback_eq]
  have h1 : IndexInv (clear_busy g) := h
  have h2 := pop_indexInv (clear_busy g) h1
  split
  · exact h1
  · split
    · exact h2
    · exact start_indexInv _ _ _ h2

theorem run_indexInv (g : Globals) (cs : List Call) (h : IndexInv g) : IndexInv (run g cs) := by
  induction cs generalizing g with
  | nil => exact h
  | cons c cs ih =>
    cases c with
    | output message ready hal_ok => exact ih _ (output_indexInv g message ready hal_ok h)
    | tx_complete ready hal_ok => exact ih _ (callback_indexInv g ready hal_ok h)

theorem init_indexInv (g : Globals) : IndexInv (trace_log_init g) := by
  refine ⟨?_, ?_, ?_⟩ <;> simp [trace_log_init, TRACE_LOG_UART_QUEUE_SIZE]

/-- What a submitted request says about the call of `uart_start_transmission`. -/
theorem start_request (g : Globals) (ready hal_ok : Bool) (req : TxRequest)
    (h : (uart_start_transmission g ready hal_ok).2.2 = some req) :
    g.uart_queue.count ≠ 0 ∧ g.uart_queue.dma_busy = false ∧ ready = true ∧ HeadValid g ∧
    (uart_start_transmission g ready hal_ok).2.1.uart_queue.dma_busy = hal_ok ∧
    req = { slot := g.uart_queue.head,
            buffer := (slot_at g.uart_queue g.uart_queue.head).message,
            size := (slot_at g.uart_queue g.uart_queue.head).length } := by
  by_cases hc : g.uart_queue.count = 0
  · rw [start_idle g _ _ (Or.inl hc)] at h; cases h
  · cases hb : g.uart_queue.dma_busy
    · cases ready
      · rw [start_idle g _ _ (Or.inr (Or.inr rfl))] at h; cases h
      · by_cases hv : HeadValid g
        · rw [start_submit g _ hc hb hv] at h ⊢
          refine ⟨hc, rfl, rfl, hv, rfl, ?_⟩
          simp only [Option.some.injEq] at h
          exact h.symm
        · rw [start_corrupt g _ hc hb hv] at h; cases h
    · rw [start_idle g _ _ (Or.inr (Or.inl hb))] at h; cases h

theorem output_busy (g : Globals) (message : Option (List Nat)) (ready hal_ok : Bool)
    (hb : g.uart_queue.dma_busy = true) :
    (trace_log_uart_output g message ready hal_ok).2.2 = none ∧
    (trace_log_uart_output g message ready hal_ok).2.1.uart_queue.dma_busy = true := by
  cases message with
  | none => exact ⟨rfl, hb⟩
  | some m =>
    by_cases hf : 32 ≤ g.uart_queue.count
    · rw [output_full g m _ _ hf]; exact ⟨rfl, hb⟩
    · have hlt : g.uart_queue.count < 32 := by omega
      have hE := (enqueue_fields g m hlt).2.1
      rw [output_room g m _ _ hlt, if_pos (by rw [hE, hb])]
      exact ⟨rfl, by rw [hE, hb]⟩

theorem submitted_accepted_busy (g : Globals) (c : Call)
    (hs : (c.submitted g).isSome = true) (ha : c.accepted = true) :
    (c.apply g).uart_queue.dma_busy = true := by
  obtain ⟨req, hreq⟩ := Option.isSome_iff_exists.mp hs
  cases c with
  | output message ready hal_ok =>
    simp only [Call.submitted, Call.apply, Call.accepted] at hreq ha ⊢
    cases message with
    | none => cases hreq
    | some m =>
      by_cases hf : 32 ≤ g.uart_queue.count
      · rw [output_full g m _ _ hf] at hreq; cases hreq
      · rw [output_room g m _ _ (by omega)] at hreq ⊢
        split at hreq
        · cases hreq
        · rename_i hnb
          rw [if_neg hnb, (start_request _ _ _ req hreq).2.2.2.2.1, ha]
  | tx_complete ready hal_ok =>
    simp only [Call.submitted, Call.apply, Call.accepted] at hreq ha ⊢
    rw [callback_eq] at hreq ⊢
    split at hreq
    · cases hreq
    · rename_i h1
      rw [if_neg h1]
      split at hreq
      · cases hreq
      · rename_i h2
        rw [if_neg h2]
        show (uart_start_transmission _ ready hal_ok).2.1.uart_queue.dma_busy = true
        rw [(start_request _ _ _ req hreq).2.2.2.2.1, ha]

theorem outputs_while_busy (g : Globals) (os : List (Option (List Nat) × Bool × Bool))
    (hb : g.uart_queue.dma_busy = true) :
    (∀ x ∈ requests g (os.map (fun o => Call.output o.1 o.2.1 o.2.2)), x = none) ∧
    (run g (os.map (fun o => Call.output o.1 o.2.1 o.2.2))).uart_queue.dma_busy = true := by
  induction os generalizing g with
  | nil => exact ⟨by simp [requests], hb⟩
  | cons o os ih =>
    have h1 := output_busy g o.1 o.2.1 o.2.2 hb
    have h2 := ih (trace_log_uart_output g o.1 o.2.1 o.2.2).2.1 h1.2
    refine ⟨?_, h2.2⟩
    intro x hx
    simp only [List.map_cons, requests, List.mem_cons] at hx
    rcases hx with hx | hx
    · rw [hx]; exact h1.1
    · exact h2.1 x hx

theorem enqueue_fuel_flat (n : Nat) (g : Globals) (m : List Nat)
    (h : 32 ≤ g.uart_queue.count ∨ g.trace_dropped_count = 0) :
    uart_queue_enqueue_fuel (n + 1) g m = some (uart_queue_enqueue g m) := by
  by_cases hf : 32 ≤ g.uart_queue.count
  · rw [enqueue_full g m hf]
    simp [uart_queue_enqueue_fuel, uart_queue_is_full, TRACE_LOG_UART_QUEUE_SIZE, hf]
  · have hd : g.trace_dropped_count = 0 := h.resolve_left hf
    rw [enqueue_zero g m (by omega) hd]
    simp [uart_queue_enqueue_fuel, uart_queue_is_full, TRACE_LOG_UART_QUEUE_SIZE, hf, hd, push]

theorem enqueue_fuel_two (n : Nat) (g : Globals) (m : List Nat) :
    uart_queue_enqueue_fuel (n + 2) g m = some (uart_queue_enqueue g m) := by
  by_cases h : 32 ≤ g.uart_queue.count ∨ g.trace_dropped_count = 0
  · exact enqueue_fuel_flat (n + 1) g m h
  · have hlt : g.uart_queue.count < 32 := by omega
    have hd : 0 < g.trace_dropped_count := by omega
    have hnest := enqueue_fuel_flat n { g with trace_dropped_count := 0 }
      (drop_msg g.trace_dropped_count) (Or.inr rfl)
    rw [enqueue_zero { g with trace_dropped_count := 0 } _ hlt rfl] at hnest
    rw [enqueue_pos g m hlt hd]
    have hf : ¬ 32 ≤ g.uart_queue.count := by omega
    simp [uart_queue_enqueue_fuel, uart_queue_is_full, TRACE_LOG_UART_QUEUE_SIZE, hf, hd,
      hnest, push]

theorem enqueue_fuel_one_nested (g : Globals) (m : List Nat)
    (hlt : g.uart_queue.count < 32) (hd : 0 < g.trace_dropped_count) :
    uart_queue_enqueue_fuel 1 g m = none := by
  have hf : ¬ 32 ≤ g.uart_queue.count := by omega
  simp [uart_queue_enqueue_fuel, uart_queue_is_full, TRACE_LOG_UART_QUEUE_SIZE, hf, hd]

/-! ## C11: ring indices -/

/-- C11: in every state reached from `trace_log_init` by output and completion calls,
`head < N`, `tail < N` and `tail = (head + count) mod N`, with `N = 32`. -/
theorem ring_index_invariant (g0 : Globals) (cs : List Call) :
    (run (trace_log_init g0) cs).uart_queue.head < TRACE_LOG_UART_QUEUE_SIZE ∧
    (run (trace_log_init g0) cs).uart_queue.tail < TRACE_LOG_UART_QUEUE_SIZE ∧
    (run (trace_log_init g0) cs).uart_queue.tail
      = ((run (trace_log_init g0) cs).uart_queue.head
          + (run (trace_log_init g0) cs).uart_queue.count) % TRACE_LOG_UART_QUEUE_SIZE :=
  run_indexInv _ cs (init_indexInv g0)

/-! ## C12: message retained on a transient hardware failure -/

/-- C12: with a queued message of valid length at the head and no transmission in flight,
if the channel is not ready or the hardware rejects the submission, then
`uart_start_transmission` leaves the globals exactly as they were: `dma_busy` is false
and head, count and the head slot (content and length) are unchanged. The same holds for
the start attempt made by `trace_log_uart_output` after it stored the message and by the
completion callback after it retired the head slot: the call ends in the state it had
just before the start attempt. -/
theorem message_retained (g : Globals) (m : List Nat) (ready hal_ok : Bool)
    (hfail : ready = false ∨ hal_ok = false) :
    (1 ≤ g.uart_queue.count → g.uart_queue.dma_busy = false → HeadValid g →
      (uart_start_transmission g ready hal_ok).2.1 = g ∧
      (uart_start_transmission g ready hal_ok).2.1.uart_queue.dma_busy = false ∧
      (uart_start_transmission g ready hal_ok).2.1.uart_queue.head = g.uart_queue.head ∧
      (uart_start_transmission g ready hal_ok).2.1.uart_queue.count = g.uart_queue.count ∧
      slot_at (uart_start_transmission g ready hal_ok).2.1.uart_queue g.uart_queue.head
        = slot_at g.uart_queue g.uart_queue.head) ∧
    (g.uart_queue.count < TRACE_LOG_UART_QUEUE_SIZE → g.uart_queue.dma_busy = false →
      HeadValid (uart_queue_enqueue g m).2 →
      (trace_log_uart_output g (some m) ready hal_ok).2.1 = (uart_queue_enqueue g m).2 ∧
      (trace_log_uart_output g (some m) ready hal_ok).2.1.uart_queue.dma_busy = false) ∧
    (g.uart_queue.count ≠ 0 → (pop (clear_busy g)).uart_queue.count ≠ 0 →
      HeadValid (pop (clear_busy g)) →
      (trace_log_tx_complete_callback g ready hal_ok).1 = pop (clear_busy g) ∧
      (trace_log_tx_complete_callback g ready hal_ok).1.uart_queue.dma_busy = false) := by
  have key : ∀ s : Globals, s.uart_queue.count ≠ 0 → s.uart_queue.dma_busy = false →
      HeadValid s → (uart_start_transmission s ready hal_ok).2.1 = s := by
    intro s hc hb hv
    rcases hfail with hr | hh
    · rw [start_idle s _ _ (Or.inr (Or.inr hr))]
    · cases ready
      · rw [start_idle s _ _ (Or.inr (Or.inr rfl))]
      · rw [start_submit s _ hc hb hv, hh]
        show { s with uart_queue := { s.uart_queue with dma_busy := false } } = s
        rw [← hb]
  refine ⟨?_, ?_, ?_⟩
  · intro hc hb hv
    have h := key g (by omega) hb hv
    rw [h]
    exact ⟨rfl, hb, rfl, rfl, rfl⟩
  · intro hc hb hv
    simp only [TRACE_LOG_UART_QUEUE_SIZE] at hc
    have hE := enqueue_fields g m hc
    have hbE : (uart_queue_enqueue g m).2.uart_queue.dma_busy = false := by rw [hE.2.1, hb]
    have hcE : (uart_queue_enqueue g m).2.uart_queue.count ≠ 0 := by
      rw [hE.1]; split <;> omega
    rw [output_room g m _ _ hc, if_neg (by rw [hbE]; simp), key _ hcE hbE hv]
    exact ⟨rfl, hbE⟩
  · intro hc hp hv
    rw [callback_eq, if_neg hc, if_neg hp]
    show (uart_start_transmission _ ready hal_ok).2.1 = _ ∧
      (uart_start_transmission _ ready hal_ok).2.1.uart_queue.dma_busy = false
    rw [key _ hp rfl hv]
    exact ⟨rfl, rfl⟩

/-- Instance of C12: one message queued, the hardware rejects the submission. -/
theorem message_retained_witness :
    1 ≤ one_pending.uart_queue.count ∧ one_pending.uart_queue.dma_busy = false ∧
    HeadValid one_pending ∧
    (uart_start_transmission one_pending true false).2.1 = one_pending :=
  ⟨by decide!, by decide!, by decide!,
    ((message_retained one_pending [] true false (Or.inr rfl)).1
      (by decide!) (by decide!) (by decide!)).1⟩

/-! ## C13: no double start -/

/-- C13: called while `dma_busy` is set, `uart_start_transmission` and
`trace_log_uart_output` submit no transmit request and leave `dma_busy` set. Hence, once a
call (an output or a completion) has made a submission that the hardware accepted, no
output call made before the next completion notification submits anything, and `dma_busy`
stays set throughout. -/
theorem no_double_start (g : Globals) (message : Option (List Nat)) (ready hal_ok : Bool)
    (c : Call) (os : List (Option (List Nat) × Bool × Bool)) :
    (g.uart_queue.dma_busy = true →
      uart_start_transmission g ready hal_ok = (TL_RESULT_ERROR, g, none) ∧
      (trace_log_uart_output g message ready hal_ok).2.2 = none ∧
      (trace_log_uart_output g message ready hal_ok).2.1.uart_queue.dma_busy = true) ∧
    ((c.submitted g).isSome = true → c.accepted = true →
      (c.apply g).uart_queue.dma_busy = true ∧
      (∀ x ∈ requests (c.apply g) (os.map (fun o => Call.output o.1 o.2.1 o.2.2)), x = none) ∧
      (run (c.apply g) (os.map (fun o => Call.output o.1 o.2.1 o.2.2))).uart_queue.dma_busy
        = true) := by
  refine ⟨?_, ?_⟩
  · intro hb
    exact ⟨start_idle g _ _ (Or.inr (Or.inl hb)), output_busy g message ready hal_ok hb⟩
  · intro hs ha
    have hb := submitted_accepted_busy g c hs ha
    exact ⟨hb, outputs_while_busy _ os hb⟩

/-- Instance of C13: the first message starts a transmission; the two messages offered
next, with the channel ready, submit nothing. -/
theorem no_double_start_witness :
    ((Call.output (some [97]) true true).submitted boot).isSome = true ∧
    (Call.output (some [97]) true true).accepted = true ∧
    (∀ x ∈ requests ((Call.output (some [97]) true true).apply boot)
        ([(some [98], true, true), (some [99], true, true)].map
          (fun o => Call.output o.1 o.2.1 o.2.2)), x = none) :=
  ⟨by decide!, rfl,
    ((no_double_start boot none true true (Call.output (some [97]) true true)
      [(some [98], true, true), (some [99], true, true)]).2 (by decide!) rfl).2.1⟩

/-! ## C14: initialisation -/

/-- C14: from every prior state `trace_log_init` yields head = tail = count = 0, `dma_busy`
false and 32 slots that are all unused with length 0 (and zeroed content); the queue then
reports empty and not full. -/
theorem init_state (g : Globals) (i : Nat) :
    (trace_log_init g).uart_queue.head = 0 ∧ (trace_log_init g).uart_queue.tail = 0 ∧
    (trace_log_init g).uart_queue.count = 0 ∧ (trace_log_init g).uart_queue.dma_busy = false ∧
    (trace_log_init g).uart_queue.messages.length = TRACE_LOG_UART_QUEUE_SIZE ∧
    (∀ s ∈ (trace_log_init g).uart_queue.messages,
      s.in_use = false ∧ s.length = 0 ∧
      s.message = List.replicate TRACE_LOG_UART_MESSAGE_SIZE 0) ∧
    (slot_at (trace_log_init g).uart_queue i).in_use = false ∧
    (slot_at (trace_log_init g).uart_queue i).length = 0 ∧
    uart_queue_is_empty (trace_log_init g) = true ∧
    uart_queue_is_full (trace_log_init g) = false := by
  have hs : ∀ s ∈ (trace_log_init g).uart_queue.messages, s = zero_message :=
    fun s hs => List.eq_of_mem_replicate hs
  have hi : slot_at (trace_log_init g).uart_queue i = zero_message := by
    have := (ring_init { g with trace_dropped_count := 0 } rfl).2.2.2.2.2 i
    simpa using this
  refine ⟨rfl, rfl, rfl, rfl, by simp [trace_log_init], ?_, ?_, ?_, rfl, rfl⟩
  · intro s h
    rw [hs s h]
    exact ⟨rfl, rfl, rfl⟩
  · rw [hi]; rfl
  · rw [hi]; rfl

/-! ## C16: completion chaining -/

/-- C16 as stated fails: with `"a"` in flight followed by an empty entry and `"b"`, the
completion retires `"a"`, then finds the zero-length entry at the head and discards it
too: head moves from 0 to 2 and count from 3 to 1, nothing is submitted and `dma_busy`
is left false although `"b"` is queued. -/
theorem completion_skips_corrupt_slot :
    1 ≤ empty_in_the_middle.uart_queue.count ∧
    empty_in_the_middle.uart_queue.head = 0 ∧ empty_in_the_middle.uart_queue.count = 3 ∧
    (trace_log_tx_complete_callback empty_in_the_middle true true).1.uart_queue.head = 2 ∧
    (trace_log_tx_complete_callback empty_in_the_middle true true).1.uart_queue.head
      ≠ (empty_in_the_middle.uart_queue.head + 1) % TRACE_LOG_UART_QUEUE_SIZE ∧
    (trace_log_tx_complete_callback empty_in_the_middle true true).1.uart_queue.count = 1 ∧
    (trace_log_tx_complete_callback empty_in_the_middle true true).1.uart_queue.count
      ≠ empty_in_the_middle.uart_queue.count - 1 ∧
    (trace_log_tx_complete_callback empty_in_the_middle true true).2 = none ∧
    (trace_log_tx_complete_callback empty_in_the_middle true true).1.uart_queue.dma_busy
      = false := by
  decide!

/-- C16 amended: for every state with count >= 1, `trace_log_tx_complete_callback` first
clears `dma_busy` and dequeues the head slot: the slot is marked unused, head becomes
(head+1) mod 32 and count becomes count-1 (state `pop (clear_busy g)`). If the queue is
then empty, or the channel is not ready, the call ends there with no submission and
`dma_busy` false. If the queue is then non-empty, the new head slot has a valid length and
the channel is ready, exactly one request is submitted, for the new head slot with its
content and stored length, and `dma_busy` ends equal to the hardware's acceptance (true
when accepted). If the queue is then non-empty, the channel is ready and the new head
slot's length is 0 or above 256, that slot is dequeued as well and nothing is submitted. -/
theorem completion_chaining (g : Globals) (ready hal_ok : Bool)
    (hc : 1 ≤ g.uart_queue.count) (hc8 : g.uart_queue.count < 256)
    (hh : g.uart_queue.head < g.uart_queue.messages.length) :
    (slot_at (pop (clear_busy g)).uart_queue g.uart_queue.head
        = { slot_at g.uart_queue g.uart_queue.head with in_use := false } ∧
      (∀ j, j ≠ g.uart_queue.head →
        slot_at (pop (clear_busy g)).uart_queue j = slot_at g.uart_queue j) ∧
      (pop (clear_busy g)).uart_queue.head
        = (g.uart_queue.head + 1) % TRACE_LOG_UART_QUEUE_SIZE ∧
      (pop (clear_busy g)).uart_queue.count = g.uart_queue.count - 1 ∧
      (pop (clear_busy g)).uart_queue.tail = g.uart_queue.tail ∧
      (pop (clear_busy g)).uart_queue.dma_busy = false) ∧
    ((pop (clear_busy g)).uart_queue.count = 0 ∨ ready = false →
      trace_log_tx_complete_callback g ready hal_ok = (pop (clear_busy g), none)) ∧
    ((pop (clear_busy g)).uart_queue.count ≠ 0 → HeadValid (pop (clear_busy g)) →
      ready = true →
      (trace_log_tx_complete_callback g ready hal_ok).2
        = some { slot := (g.uart_queue.head + 1) % TRACE_LOG_UART_QUEUE_SIZE,
                 buffer := (slot_at (pop (clear_busy g)).uart_queue
                   ((g.uart_queue.head + 1) % TRACE_LOG_UART_QUEUE_SIZE)).message,
                 size := (slot_at (pop (clear_busy g)).uart_queue
                   ((g.uart_queue.head + 1) % TRACE_LOG_UART_QUEUE_SIZE)).length } ∧
      (trace_log_tx_complete_callback g ready hal_ok).1
        = { pop (clear_busy g) with
            uart_queue := { (pop (clear_busy g)).uart_queue with dma_busy := hal_ok } } ∧
      (hal_ok = true →
        (trace_log_tx_complete_callback g ready hal_ok).1.uart_queue.dma_busy = true)) ∧
    ((pop (clear_busy g)).uart_queue.count ≠ 0 → ¬ HeadValid (pop (clear_busy g)) →
      ready = true →
      trace_log_tx_complete_callback g ready hal_ok = (pop (pop (clear_busy g)), none)) := by
  have hne : g.uart_queue.count ≠ 0 := by omega
  have hp := pop_fields (clear_busy g) hne hc8
  refine ⟨⟨?_, ?_, rfl, hp.1, rfl, rfl⟩, ?_, ?_, ?_⟩
  · rw [pop_slot]
    exact if_pos ⟨rfl, hh⟩
  · intro j hj
    rw [pop_slot, if_neg (fun h => hj h.1.symm)]
    rfl
  · intro h
    rw [callback_eq, if_neg hne]
    rcases h with h | h
    · rw [if_pos h]
    · by_cases h0 : (pop (clear_busy g)).uart_queue.count = 0
      · rw [if_pos h0]
      · rw [if_neg h0, start_idle _ _ _ (Or.inr (Or.inr h))]
  · intro h0 hv hr
    rw [callback_eq, if_neg hne, if_neg h0, hr, start_submit _ _ h0 rfl hv]
    refine ⟨rfl, rfl, ?_⟩
    intro hok
    rw [hok]
  · intro h0 hv hr
    rw [callback_eq, if_neg hne, if_neg h0, hr, start_corrupt _ _ h0 rfl hv]

/-- Instance of C16 amended: two messages queued, the first in flight; its completion
submits the second. -/
theorem completion_chaining_witness :
    1 ≤ (run boot [Call.output (some [97]) true true,
      Call.output (some [98]) true true]).uart_queue.count ∧
    (trace_log_tx_complete_callback (run boot [Call.output (some [97]) true true,
      Call.output (some [98]) true true]) true true).1.uart_queue.dma_busy = true :=
  ⟨by decide!,
    ((completion_chaining (run boot [Call.output (some [97]) true true,
        Call.output (some [98]) true true]) true true
      (by decide!) (by decide!) (by decide!)).2.2.1 (by decide!) (by decide!) rfl).2.2 rfl⟩

/-! ## C17: corrupt-slot discard -/

/-- C17: with a non-empty queue, nothing in flight and the channel ready, a head slot whose
stored length is 0 or above 256 makes `uart_start_transmission` submit nothing, return
`TL_RESULT_ERROR`, leave `dma_busy` false and dequeue exactly that slot (it is marked
unused, every other slot is untouched, head advances by one modulo 32, count drops by
one); and whenever a request is submitted, it is for the head slot, carries that slot's
buffer and its stored length, and this length lies in (0, 256]. -/
theorem corrupt_slot_discard (g : Globals) (ready hal_ok : Bool) (req : TxRequest) :
    (1 ≤ g.uart_queue.count → g.uart_queue.count < 256 →
      g.uart_queue.head < g.uart_queue.messages.length →
      g.uart_queue.dma_busy = false →
      ((slot_at g.uart_queue g.uart_queue.head).length = 0 ∨
        (slot_at g.uart_queue g.uart_queue.head).length > TRACE_LOG_UART_MESSAGE_SIZE) →
      (uart_start_transmission g true hal_ok).2.2 = none ∧
      (uart_start_transmission g true hal_ok).1 = TL_RESULT_ERROR ∧
      (uart_start_transmission g true hal_ok).2.1.uart_queue.dma_busy = false ∧
      (uart_start_transmission g true hal_ok).2.1.uart_queue.head
        = (g.uart_queue.head + 1) % TRACE_LOG_UART_QUEUE_SIZE ∧
      (uart_start_transmission g true hal_ok).2.1.uart_queue.count = g.uart_queue.count - 1 ∧
      (uart_start_transmission g true hal_ok).2.1.uart_queue.tail = g.uart_queue.tail ∧
      slot_at (uart_start_transmission g true hal_ok).2.1.uart_queue g.uart_queue.head
        = { slot_at g.uart_queue g.uart_queue.head with in_use := false } ∧
      (∀ j, j ≠ g.uart_queue.head →
        slot_at (uart_start_transmission g true hal_ok).2.1.uart_queue j
          = slot_at g.uart_queue j)) ∧
    ((uart_start_transmission g ready hal_ok).2.2 = some req →
      req.slot = g.uart_queue.head ∧
      req.buffer = (slot_at g.uart_queue g.uart_queue.head).message ∧
      req.size = (slot_at g.uart_queue g.uart_queue.head).length ∧
      0 < req.size ∧ req.size ≤ TRACE_LOG_UART_MESSAGE_SIZE) := by
  simp only [TRACE_LOG_UART_MESSAGE_SIZE, TRACE_LOG_MAX_MESSAGE_SIZE, TRACE_LOG_UART_QUEUE_SIZE]
  refine ⟨?_, ?_⟩
  · intro hc hc8 hh hb hbad
    have hv : ¬ HeadValid g := by unfold HeadValid; omega
    rw [start_corrupt g _ (by omega) hb hv]
    have hp := pop_fields g (by omega) hc8
    refine ⟨rfl, rfl, ?_, rfl, hp.1, rfl, ?_, ?_⟩
    · show (pop g).uart_queue.dma_busy = false
      rw [hp.2.1, hb]
    · show slot_at (pop g).uart_queue _ = _
      rw [pop_slot, if_pos ⟨rfl, hh⟩]
    · intro j hj
      show slot_at (pop g).uart_queue _ = _
      rw [pop_slot, if_neg (fun h => hj h.1.symm)]
  · intro h
    obtain ⟨-, -, -, hv, -, hreq⟩ := start_request g ready hal_ok req h
    rw [hreq]
    unfold HeadValid at hv
    refine ⟨rfl, rfl, rfl, ?_, hv.2⟩
    show 0 < (slot_at g.uart_queue g.uart_queue.head).length
    omega

/-- Instance of C17: the empty string stored on the fresh queue is discarded by the start
attempt. -/
theorem corrupt_slot_discard_witness :
    1 ≤ (uart_queue_enqueue boot []).2.uart_queue.count ∧
    (slot_at (uart_queue_enqueue boot []).2.uart_queue
      (uart_queue_enqueue boot []).2.uart_queue.head).length = 0 ∧
    (uart_start_transmission (uart_queue_enqueue boot []).2 true true).2.2 = none ∧
    (uart_start_transmission (uart_queue_enqueue boot []).2 true true).1 = TL_RESULT_ERROR :=
  ⟨by decide!, by decide!,
    ((corrupt_slot_discard (uart_queue_enqueue boot []).2 true true ⟨0, [], 0⟩).1
      (by decide!) (by decide!) (by decide!) (by decide!) (Or.inl (by decide!))).1,
    ((corrupt_slot_discard (uart_queue_enqueue boot []).2 true true ⟨0, [], 0⟩).1
      (by decide!) (by decide!) (by decide!) (by decide!) (Or.inl (by decide!))).2.1⟩

/-! ## C18: status returned by `uart_start_transmission` -/

/-- C18 fails on the code: with one valid message queued, nothing in flight and the channel
ready, a submission that the hardware accepts leaves `dma_busy` set but returns
`TL_RESULT_ERROR`, and a submission that the hardware rejects clears `dma_busy` and returns
`TL_RESULT_OK`. -/
theorem start_status_inverted :
    one_pending.uart_queue.count = 1 ∧ one_pending.uart_queue.dma_busy = false ∧
    HeadValid one_pending ∧
    (uart_start_transmission one_pending true true).2.2
      = some { slot := 0, buffer := (stored_slot [97]).message, size := 1 } ∧
    (uart_start_transmission one_pending true true).1 = TL_RESULT_ERROR ∧
    (uart_start_transmission one_pending true true).2.1.uart_queue.dma_busy = true ∧
    (uart_start_transmission one_pending true false).2.2
      = some { slot := 0, buffer := (stored_slot [97]).message, size := 1 } ∧
    (uart_start_transmission one_pending true false).1 = TL_RESULT_OK ∧
    (uart_start_transmission one_pending true false).2.1.uart_queue.dma_busy = false := by
  decide!

/-- Supporting fact for C18: `uart_start_transmission` returns `TL_RESULT_OK` exactly when
it made a submission that the hardware rejected; `dma_busy` itself is handled as the claim
says: it ends set exactly when it was set before or a submission was accepted. -/
theorem start_status_characterised (g : Globals) (ready hal_ok : Bool) :
    ((uart_start_transmission g ready hal_ok).1 = TL_RESULT_OK ↔
      ((uart_start_transmission g ready hal_ok).2.2.isSome = true ∧ hal_ok = false)) ∧
    ((uart_start_transmission g ready hal_ok).2.1.uart_queue.dma_busy = true ↔
      (g.uart_queue.dma_busy = true ∨
        ((uart_start_transmission g ready hal_ok).2.2.isSome = true ∧ hal_ok = true))) := by
  by_cases hc : g.uart_queue.count = 0
  · rw [start_idle g _ _ (Or.inl hc)]; simp
  · cases hb : g.uart_queue.dma_busy
    · cases ready
      · rw [start_idle g _ _ (Or.inr (Or.inr rfl))]; simp [hb]
      · by_cases hv : HeadValid g
        · rw [start_submit g _ hc hb hv]; cases hal_ok <;> simp
        · rw [start_corrupt g _ hc hb hv]
          have : (pop g).uart_queue.dma_busy = false := hb
          simp [this]
    · rw [start_idle g _ _ (Or.inr (Or.inl hb))]; simp [hb]

/-! ## C19: bounded recursion -/

/-- C19: `uart_queue_enqueue` returns for every state, drop-counter value and message, and
two activations (the call and one nested call) always suffice: the nested call is made
with the drop counter already 0 and completes without calling itself again. A single
activation is not enough exactly when the queue has room and drops are recorded. -/
theorem enqueue_bounded_recursion (n : Nat) (g : Globals) (m : List Nat) :
    uart_queue_enqueue_fuel (n + 2) g m = some (uart_queue_enqueue g m) ∧
    uart_queue_enqueue_fuel 1 { g with trace_dropped_count := 0 }
        (drop_msg g.trace_dropped_count)
      = some (uart_queue_enqueue { g with trace_dropped_count := 0 }
          (drop_msg g.trace_dropped_count)) ∧
    (uart_queue_enqueue_fuel 1 g m = none ↔
      (g.uart_queue.count < TRACE_LOG_UART_QUEUE_SIZE ∧ 0 < g.trace_dropped_count)) := by
  refine ⟨enqueue_fuel_two n g m, enqueue_fuel_flat 0 _ _ (Or.inr rfl), ?_⟩
  simp only [TRACE_LOG_UART_QUEUE_SIZE]
  constructor
  · intro h
    by_contra hcon
    have : 32 ≤ g.uart_queue.count ∨ g.trace_dropped_count = 0 := by omega
    rw [enqueue_fuel_flat 0 g m this] at h
    cases h
  · intro h
    exact enqueue_fuel_one_nested g m h.1 h.2

/-! ## C20: width of the counter -/

/-- C20: in every state reached from `trace_log_init`, `count <= N + 1 = 33`. So each
increment made by `uart_queue_enqueue` is exact (no wrap of the 8-bit field): the count
grows by 0 (full queue), 1 or 2 (drop notice and message) and stays at most 33; and
`uart_queue_dequeue` decrements only a non-zero count: on an empty queue it returns
`TL_RESULT_ERROR` and leaves the state alone, otherwise the new count is exactly one
less. The same holds for the dequeue that may follow the enqueue inside the same call. -/
theorem counter_width (g0 : Globals) (cs : List Call) (m : List Nat) :
    (run (trace_log_init g0) cs).uart_queue.count ≤ TRACE_LOG_UART_QUEUE_SIZE + 1 ∧
    (uart_queue_enqueue (run (trace_log_init g0) cs) m).2.uart_queue.count
      = (run (trace_log_init g0) cs).uart_queue.count
        + (if uart_queue_is_full (run (trace_log_init g0) cs) then 0
           else if (run (trace_log_init g0) cs).trace_dropped_count = 0 then 1 else 2) ∧
    (uart_queue_enqueue (run (trace_log_init g0) cs) m).2.uart_queue.count
      ≤ TRACE_LOG_UART_QUEUE_SIZE + 1 ∧
    ((run (trace_log_init g0) cs).uart_queue.count = 0 →
      uart_queue_dequeue (run (trace_log_init g0) cs)
        = (TL_RESULT_ERROR, run (trace_log_init g0) cs)) ∧
    ((run (trace_log_init g0) cs).uart_queue.count ≠ 0 →
      (uart_queue_dequeue (run (trace_log_init g0) cs)).2.uart_queue.count + 1
        = (run (trace_log_init g0) cs).uart_queue.count) ∧
    ((uart_queue_enqueue (run (trace_log_init g0) cs) m).2.uart_queue.count ≠ 0 →
      (uart_queue_dequeue (uart_queue_enqueue (run (trace_log_init g0) cs) m).2).2.uart_queue.count
        + 1 = (uart_queue_enqueue (run (trace_log_init g0) cs) m).2.uart_queue.count) := by
  have hinv := run_countInv _ cs (init_countInv g0)
  generalize run (trace_log_init g0) cs = g at hinv ⊢
  have hE : (uart_queue_enqueue g m).2.uart_queue.count
      = g.uart_queue.count + (if uart_queue_is_full g then 0
           else if g.trace_dropped_count = 0 then 1 else 2) := by
    by_cases hf : 32 ≤ g.uart_queue.count
    · rw [enqueue_full g m hf]
      simp [uart_queue_is_full, TRACE_LOG_UART_QUEUE_SIZE, hf]
    · rw [(enqueue_fields g m (by omega)).1]
      simp [uart_queue_is_full, TRACE_LOG_UART_QUEUE_SIZE, hf]
  have hE33 : (uart_queue_enqueue g m).2.uart_queue.count ≤ 33 := by
    by_cases hf : 32 ≤ g.uart_queue.count
    · rw [enqueue_full g m hf]; exact hinv.1
    · rw [(enqueue_fields g m (by omega)).1]; split <;> omega
  have hdeq : ∀ s : Globals, s.uart_queue.count ≤ 33 → s.uart_queue.count ≠ 0 →
      (uart_queue_dequeue s).2.uart_queue.count + 1 = s.uart_queue.count := by
    intro s h33 hne
    rw [dequeue_nonempty s hne]
    show (s.uart_queue.count + 255) % 256 + 1 = _
    omega
  refine ⟨hinv.1, hE, hE33, fun h => dequeue_empty g h, hdeq g hinv.1, hdeq _ hE33⟩

/-- Instance of C20 on the trace that drives the count to its maximum. -/
theorem counter_width_witness :
    (run (trace_log_init boot)
      (drop_then_complete ++ [Call.output (some [102]) true true])).uart_queue.count ≠ 0 ∧
    (uart_queue_dequeue (run (trace_log_init boot)
      (drop_then_complete ++ [Call.output (some [102]) true true]))).2.uart_queue.count + 1
      = (run (trace_log_init boot)
          (drop_then_complete ++ [Call.output (some [102]) true true])).uart_queue.count :=
  ⟨by decide!,
    (counter_width boot (drop_then_complete ++ [Call.output (some [102]) true true])
      []).2.2.2.2.1 (by decide!)⟩

/-! ## Facts about runs in which every message is non-empty -/

theorem stored_slot_length (m : List Nat) (hne : cstr m ≠ []) :
    1 ≤ (stored_slot m).length ∧ (stored_slot m).length ≤ 255 := by
  have : 0 < strlen m := List.length_pos.mpr hne
  simp only [stored_slot]
  omega

theorem push_pendingValid (g : Globals) (m : List Nat) (hs : ShapeOk g) (hi : IndexInv g)
    (hc : g.uart_queue.count < 255) (hp : PendingValid g) (hne : cstr m ≠ []) :
    PendingValid (push g m) := by
  intro k hk
  have hcount : (push g m).uart_queue.count = g.uart_queue.count + 1 := by
    show (g.uart_queue.count + 1) % 256 = _
    omega
  rw [hcount] at hk
  show 1 ≤ (slot_at (push g m).uart_queue
      ((g.uart_queue.head + k) % TRACE_LOG_UART_QUEUE_SIZE)).length ∧
    (slot_at (push g m).uart_queue
      ((g.uart_queue.head + k) % TRACE_LOG_UART_QUEUE_SIZE)).length ≤ 255
  rw [push_slot g m hs]
  split
  · exact stored_slot_length m hne
  · rename_i hcond
    have hk2 : k < g.uart_queue.count := by
      by_contra hge
      have hkeq : k = g.uart_queue.count := by omega
      apply hcond
      obtain ⟨-, ht, he⟩ := hi
      simp only [TRACE_LOG_UART_QUEUE_SIZE] at ht he ⊢
      exact ⟨by rw [hkeq]; exact he, ht⟩
    exact hp k hk2

theorem pop_pendingValid (g : Globals) (hc : g.uart_queue.count ≠ 0)
    (hc2 : g.uart_queue.count < 256) (hp : PendingValid g) : PendingValid (pop g) := by
  intro k hk
  have hcount : (pop g).uart_queue.count = g.uart_queue.count - 1 :=
    (pop_fields g hc hc2).1
  rw [hcount] at hk
  have hidx : ((pop g).uart_queue.head + k) % TRACE_LOG_UART_QUEUE_SIZE
      = (g.uart_queue.head + (k + 1)) % TRACE_LOG_UART_QUEUE_SIZE := by
    show ((g.uart_queue.head + 1) % TRACE_LOG_UART_QUEUE_SIZE + k) % TRACE_LOG_UART_QUEUE_SIZE = _
    simp only [TRACE_LOG_UART_QUEUE_SIZE]
    omega
  rw [hidx, pop_slot]
  have hold := hp (k + 1) (by omega)
  split
  · rename_i hcond
    rw [← hcond.1] at hold
    exact hold
  · exact hold

theorem pendingValid_busy (g : Globals) (b : Bool) (h : PendingValid g) :
    PendingValid { g with uart_queue := { g.uart_queue with dma_busy := b } } := h

theorem push_sound (g : Globals) (m : List Nat) (h : SoundQueue g)
    (hc : g.uart_queue.count ≤ 32) (hne : cstr m ≠ []) :
    ShapeOk (push g m) ∧ IndexInv (push g m) ∧ PendingValid (push g m) ∧
    (push g m).uart_queue.count = g.uart_queue.count + 1 ∧
    (push g m).uart_queue.dma_busy = g.uart_queue.dma_busy := by
  obtain ⟨hs, hi, -, hp⟩ := h
  refine ⟨push_shape g m hs, push_indexInv g m hi (by omega),
    push_pendingValid g m hs hi (by omega) hp hne, ?_, rfl⟩
  show (g.uart_queue.count + 1) % 256 = _
  omega

theorem enqueue_sound (g : Globals) (m : List Nat) (h : SoundQueue g) (hne : cstr m ≠ []) :
    SoundQueue (uart_queue_enqueue g m).2 := by
  by_cases hf : 32 ≤ g.uart_queue.count
  · rw [enqueue_full g m hf]; exact h
  · have hlt : g.uart_queue.count < 32 := by omega
    rcases Nat.eq_zero_or_pos g.trace_dropped_count with hd | hd
    · rw [enqueue_zero g m hlt hd]
      obtain ⟨h1, h2, h3, h4, h5⟩ := push_sound g m h (by omega) hne
      refine ⟨h1, h2, ⟨?_, ?_⟩, h3⟩
      · rw [h4]; omega
      · intro _; rw [h4]; omega
    · rw [enqueue_pos g m hlt hd]
      have h0 : SoundQueue { g with trace_dropped_count := 0 } := h
      obtain ⟨h1, h2, h3, h4, h5⟩ := push_sound _ (drop_msg g.trace_dropped_count) h0
        (show g.uart_queue.count ≤ 32 by omega) (cstr_drop_msg _)
      have hmid : SoundQueue (push { g with trace_dropped_count := 0 }
          (drop_msg g.trace_dropped_count)) := by
        refine ⟨h1, h2, ⟨?_, ?_⟩, h3⟩
        · rw [h4]; show g.uart_queue.count + 1 ≤ 33; omega
        · intro _; rw [h4]; omega
      obtain ⟨k1, k2, k3, k4, k5⟩ := push_sound _ m hmid
        (by rw [h4]; show g.uart_queue.count + 1 ≤ 32; omega) hne
      refine ⟨k1, k2, ⟨?_, ?_⟩, k3⟩
      · rw [k4, h4]; show g.uart_queue.count + 1 + 1 ≤ 33; omega
      · intro _; rw [k4]; omega

theorem pop_sound (g : Globals) (h : SoundQueue g) (hc : g.uart_queue.count ≠ 0)
    (hb : g.uart_queue.dma_busy = false) : SoundQueue (pop g) := by
  obtain ⟨hs, hi, hcnt, hp⟩ := h
  have hlt : g.uart_queue.count < 256 := by have := hcnt.1; omega
  have hf := pop_fields g hc hlt
  refine ⟨pop_shape g hs, pop_indexInv g hi, ⟨?_, ?_⟩, pop_pendingValid g hc hlt hp⟩
  · rw [hf.1]; have := hcnt.1; omega
  · rw [hf.2.1, hb]; intro hx; cases hx

/-- A sound queue with entries has a head slot that passes the length validation. -/
theorem sound_head_valid (g : Globals) (h : SoundQueue g) (hc : g.uart_queue.count ≠ 0) :
    HeadValid g := by
  have := h.2.2.2 0 (Nat.pos_of_ne_zero hc)
  have hidx : (g.uart_queue.head + 0) % TRACE_LOG_UART_QUEUE_SIZE = g.uart_queue.head := by
    have := h.2.1.1
    simp only [TRACE_LOG_UART_QUEUE_SIZE] at this ⊢
    omega
  rw [hidx] at this
  unfold HeadValid
  omega

theorem sound_no_corrupt_branch (g : Globals) (ready : Bool) (h : SoundQueue g) :
    corrupt_branch g ready = false := by
  by_cases hc : g.uart_queue.count = 0
  · simp [corrupt_branch, uart_queue_is_empty, hc]
  · have hv := sound_head_valid g h hc
    unfold HeadValid at hv
    have : ¬ ((slot_at g.uart_queue g.uart_queue.head).length = 0 ∨
        (slot_at g.uart_queue g.uart_queue.head).length > TRACE_LOG_UART_MESSAGE_SIZE) := by
      simp only [TRACE_LOG_UART_MESSAGE_SIZE, TRACE_LOG_MAX_MESSAGE_SIZE]
      omega
    simp [corrupt_branch, this]

theorem start_sound (g : Globals) (ready hal_ok : Bool) (h : SoundQueue g) :
    SoundQueue (uart_start_transmission g ready hal_ok).2.1 := by
  obtain ⟨b, hb⟩ := start_valid_frame g ready hal_ok (sound_head_valid g h)
  have hcnt := start_countInv g ready hal_ok h.2.2.1
  rw [hb] at hcnt ⊢
  exact ⟨h.1, h.2.1, hcnt, h.2.2.2⟩

theorem output_sound (g : Globals) (m : List Nat) (ready hal_ok : Bool) (h : SoundQueue g)
    (hne : cstr m ≠ []) : SoundQueue (trace_log_uart_output g (some m) ready hal_ok).2.1 := by
  by_cases hf : 32 ≤ g.uart_queue.count
  · rw [output_full g m _ _ hf]; exact h
  · rw [output_room g m _ _ (by omega)]
    split
    · exact enqueue_sound g m h hne
    · exact start_sound _ _ _ (enqueue_sound g m h hne)

theorem clear_busy_sound (g : Globals) (h : SoundQueue g) : SoundQueue (clear_busy g) :=
  ⟨h.1, h.2.1, ⟨h.2.2.1.1, fun hb => by simp [clear_busy] at hb⟩, h.2.2.2⟩

theorem callback_sound (g : Globals) (ready hal_ok : Bool) (h : SoundQueue g) :
    SoundQueue (trace_log_tx_complete_callback g ready hal_ok).1 := by
  rw [callback_eq]
  have h1 := clear_busy_sound g h
  split
  · exact h1
  · rename_i hc
    have h2 := pop_sound (clear_busy g) h1 hc rfl
    split
    · exact h2
    · exact start_sound _ _ _ h2

theorem init_sound (g : Globals) : SoundQueue (trace_log_init g) := by
  refine ⟨(ring_init { g with trace_dropped_count := 0 } rfl).2.2.2.2.1,
    init_indexInv g, init_countInv g, ?_⟩
  intro k hk
  exact absurd hk (Nat.not_lt_zero k)

theorem run_sound (g : Globals) (cs : List Call) (h : SoundQueue g)
    (hok : ∀ c ∈ cs, c.message_ok = true) : SoundQueue (run g cs) := by
  induction cs generalizing g with
  | nil => exact h
  | cons c cs ih =>
    have hc : c.message_ok = true := hok c (List.mem_cons_self _ _)
    have hrest : ∀ d ∈ cs, d.message_ok = true := fun d hd => hok d (List.mem_cons_of_mem _ hd)
    cases c with
    | output message ready hal_ok =>
      cases message with
      | none => simp [Call.message_ok] at hc
      | some m =>
        have hne : cstr m ≠ [] := by simpa [Call.message_ok] using hc
        exact ih _ (output_sound g m ready hal_ok h hne) hrest
    | tx_complete ready hal_ok => exact ih _ (callback_sound g ready hal_ok h) hrest

/-- What `corrupt_branch` decides: when it holds, `uart_start_transmission` dequeues the
head slot and returns an error without submitting; when it does not, the call changes
nothing but `dma_busy`. -/
theorem corrupt_branch_spec (g : Globals) (ready hal_ok : Bool) :
    (corrupt_branch g ready = true →
      uart_start_transmission g ready hal_ok
        = (TL_RESULT_ERROR, (uart_queue_dequeue g).2, none)) ∧
    (corrupt_branch g ready = false →
      ∃ b, (uart_start_transmission g ready hal_ok).2.1
        = { g with uart_queue := { g.uart_queue with dma_busy := b } }) := by
  have hiff : ¬ HeadValid g ↔ ((slot_at g.uart_queue g.uart_queue.head).length = 0 ∨
      (slot_at g.uart_queue g.uart_queue.head).length > TRACE_LOG_UART_MESSAGE_SIZE) := by
    unfold HeadValid
    simp only [TRACE_LOG_UART_MESSAGE_SIZE, TRACE_LOG_MAX_MESSAGE_SIZE]
    omega
  refine ⟨?_, ?_⟩
  · intro h
    simp only [corrupt_branch, uart_queue_is_empty, Bool.and_eq_true, Bool.not_eq_true',
      decide_eq_false_iff_not, decide_eq_true_eq] at h
    obtain ⟨⟨⟨hc, hb⟩, hr⟩, hbad⟩ := h
    rw [hr, start_corrupt g _ hc hb (hiff.mpr hbad), dequeue_nonempty g hc]
  · intro h
    by_cases hc : g.uart_queue.count = 0
    · exact ⟨g.uart_queue.dma_busy, by rw [start_idle g _ _ (Or.inl hc)]⟩
    · cases hb : g.uart_queue.dma_busy
      · cases ready
        · exact ⟨false, by rw [start_idle g _ _ (Or.inr (Or.inr rfl)), ← hb]⟩
        · have hv : HeadValid g := by
            by_contra hv
            have hbad := hiff.mp hv
            simp [corrupt_branch, uart_queue_is_empty, hc, hb, hbad] at h
          exact ⟨hal_ok, by rw [start_submit g _ hc hb hv]⟩
      · exact ⟨true, by rw [start_idle g _ _ (Or.inr (Or.inl hb)), ← hb]⟩

/-! ## C21: busy implies pending -/

/-- C21: in every state reached from `trace_log_init` by output and completion calls,
`dma_busy = true` implies `count >= 1`: no transmission is in flight on an empty queue. -/
theorem busy_implies_pending (g0 : Globals) (cs : List Call)
    (hb : (run (trace_log_init g0) cs).uart_queue.dma_busy = true) :
    1 ≤ (run (trace_log_init g0) cs).uart_queue.count :=
  (run_countInv _ cs (init_countInv g0)).2 hb

/-- Instance of C21: after the first message has been submitted and accepted. -/
theorem busy_implies_pending_witness :
    (run (trace_log_init boot) [Call.output (some [97]) true true]).uart_queue.dma_busy
      = true ∧
    1 ≤ (run (trace_log_init boot) [Call.output (some [97]) true true]).uart_queue.count :=
  ⟨by decide!,
    busy_implies_pending boot [Call.output (some [97]) true true] (by decide!)⟩

/-! ## C22: the corrupt-slot branch is unreachable with non-empty messages -/

/-- C22: if every message passed to `trace_log_uart_output` is non-null and non-empty, then
in every state reached from `trace_log_init` every pending slot (the `count` slots from
`head` on) has a stored length between 1 and 255, and the corrupt-slot branch of
`uart_start_transmission` is not taken: neither in that state, nor in the two states on
which the function is invoked during the next call, after `uart_queue_enqueue` of a
non-empty message (line 149) and after the dequeue of the completion callback
(line 174). -/
theorem corrupt_branch_unreachable (g0 : Globals) (cs : List Call) (m : List Nat)
    (ready : Bool) (hok : ∀ c ∈ cs, c.message_ok = true) :
    (∀ k, k < (run (trace_log_init g0) cs).uart_queue.count →
      1 ≤ (slot_at (run (trace_log_init g0) cs).uart_queue
            (((run (trace_log_init g0) cs).uart_queue.head + k)
              % TRACE_LOG_UART_QUEUE_SIZE)).length ∧
      (slot_at (run (trace_log_init g0) cs).uart_queue
            (((run (trace_log_init g0) cs).uart_queue.head + k)
              % TRACE_LOG_UART_QUEUE_SIZE)).length ≤ 255) ∧
    corrupt_branch (run (trace_log_init g0) cs) ready = false ∧
    (cstr m ≠ [] →
      corrupt_branch (uart_queue_enqueue (run (trace_log_init g0) cs) m).2 ready = false) ∧
    corrupt_branch (uart_queue_dequeue (clear_busy (run (trace_log_init g0) cs))).2 ready
      = false := by
  have hs := run_sound _ cs (init_sound g0) hok
  generalize run (trace_log_init g0) cs = g at hs ⊢
  refine ⟨hs.2.2.2, sound_no_corrupt_branch g ready hs,
    fun hne => sound_no_corrupt_branch _ ready (enqueue_sound g m hs hne), ?_⟩
  have h1 := clear_busy_sound g hs
  by_cases hc : (clear_busy g).uart_queue.count = 0
  · rw [dequeue_empty _ hc]; exact sound_no_corrupt_branch _ ready h1
  · rw [dequeue_nonempty _ hc]
    exact sound_no_corrupt_branch _ ready (pop_sound _ h1 hc rfl)

/-- Instance of C22 on the trace that overflows the queue: all its messages are non-empty,
and the head slot is still valid afterwards. -/
theorem corrupt_branch_unreachable_witness :
    (∀ c ∈ drop_then_complete ++ [Call.output (some [102]) true true],
      c.message_ok = true) ∧
    corrupt_branch (run (trace_log_init boot)
      (drop_then_complete ++ [Call.output (some [102]) true true])) true = false :=
  ⟨by decide!,
    (corrupt_branch_unreachable boot
      (drop_then_complete ++ [Call.output (some [102]) true true]) [] true
      (by decide!)).2.1⟩


/-! ## The steps of `trace_log_uart_output` and the completion callback -/

@[simp] theorem set_slot_head (g : Globals) (i : Nat) (v : tTraceLogUartMessage) :
    (set_slot g i v).uart_queue.head = g.uart_queue.head := rfl

@[simp] theorem set_slot_tail (g : Globals) (i : Nat) (v : tTraceLogUartMessage) :
    (set_slot g i v).uart_queue.tail = g.uart_queue.tail := rfl

@[simp] theorem set_slot_count (g : Globals) (i : Nat) (v : tTraceLogUartMessage) :
    (set_slot g i v).uart_queue.count = g.uart_queue.count := rfl

@[simp] theorem set_slot_busy (g : Globals) (i : Nat) (v : tTraceLogUartMessage) :
    (set_slot g i v).uart_queue.dma_busy = g.uart_queue.dma_busy := rfl

@[simp] theorem set_slot_dropped (g : Globals) (i : Nat) (v : tTraceLogUartMessage) :
    (set_slot g i v).trace_dropped_count = g.trace_dropped_count := rfl

@[simp] theorem set_slot_length (g : Globals) (i : Nat) (v : tTraceLogUartMessage) :
    (set_slot g i v).uart_queue.messages.length = g.uart_queue.messages.length := by
  simp [set_slot]

theorem slot_at_set_slot (g : Globals) (i j : Nat) (v : tTraceLogUartMessage) :
    slot_at (set_slot g i v).uart_queue j =
      if i = j ∧ i < g.uart_queue.messages.length then v else slot_at g.uart_queue j := by
  simp only [set_slot, slot_at, getD_set]

theorem set_slot_set_slot (g : Globals) (i : Nat) (a b : tTraceLogUartMessage) :
    set_slot (set_slot g i a) i b = set_slot g i b := by
  simp [set_slot, List.set_set]

/-- The store sequence, step by step: `j <= 6` steps from the producer at line 210. -/
theorem steps_stage (ro ho : Bool) (p : Producer) (s : Globals) (j : Nat) (hj : j ≤ 6)
    (hp : p.pc = Pc.copy) (ht : s.uart_queue.tail < s.uart_queue.messages.length) :
    output_steps ro ho j (p, s) = (stage_producer j p s, stage j s p.cur) := by
  interval_cases j
  · simp [output_steps, stage, stage_producer, ← hp]
  all_goals
    simp [output_steps, output_step, hp, stage, stage_producer, stage_slot,
      slot_at_set_slot, set_slot_set_slot, ht, fill_slot, set_tail]

theorem pop_slot_length (g : Globals) (j : Nat) :
    (slot_at (pop g).uart_queue j).length = (slot_at g.uart_queue j).length := by
  rw [pop_slot]
  split
  · rename_i h; rw [← h.1]
  · rfl

/-- The completion callback in closed form (for a count within the 8-bit range). -/
theorem callback_cases (g : Globals) (rc hc : Bool) (h8 : g.uart_queue.count < 256) :
    (trace_log_tx_complete_callback g rc hc).1 =
      if g.uart_queue.count = 0 then clear_busy g
      else if g.uart_queue.count = 1 then pop (clear_busy g)
      else if rc = false then pop (clear_busy g)
      else if NextValid g then set_busy (pop (clear_busy g)) hc
      else pop (pop (clear_busy g)) := by
  rw [callback_eq]
  by_cases h0 : g.uart_queue.count = 0
  · simp [h0]
  · have hpc : (pop (clear_busy g)).uart_queue.count = g.uart_queue.count - 1 :=
      (pop_fields (clear_busy g) h0 h8).1
    rw [if_neg h0, if_neg h0]
    by_cases h1 : g.uart_queue.count = 1
    · rw [if_pos (by rw [hpc, h1]), if_pos h1]
    · have hne : (pop (clear_busy g)).uart_queue.count ≠ 0 := by rw [hpc]; omega
      rw [if_neg (by rw [hpc]; omega), if_neg h1]
      have hb : (pop (clear_busy g)).uart_queue.dma_busy = false := rfl
      have hv : HeadValid (pop (clear_busy g)) ↔ NextValid g := by
        unfold HeadValid NextValid
        rw [pop_slot_length]
        rfl
      cases rc
      · rw [if_pos rfl, start_idle _ _ _ (Or.inr (Or.inr rfl))]
      · rw [if_neg (by simp)]
        by_cases hn : NextValid g
        · rw [if_pos hn, start_submit _ _ hne hb (hv.mpr hn)]
          rfl
        · rw [if_neg hn, start_corrupt _ _ hne hb (fun h => hn (hv.mp h))]

theorem pop_set_slot (g : Globals) (t : Nat) (v : tTraceLogUartMessage)
    (ht : t ≠ g.uart_queue.head) : pop (set_slot g t v) = set_slot (pop g) t v := by
  simp only [pop, set_slot, slot_at, getD_set]
  rw [if_neg (fun h => ht h.1), List.set_comm _ _ _ ht]

theorem clear_busy_set_slot (g : Globals) (t : Nat) (v : tTraceLogUartMessage) :
    clear_busy (set_slot g t v) = set_slot (clear_busy g) t v := rfl

theorem set_busy_set_slot (g : Globals) (t : Nat) (v : tTraceLogUartMessage) (b : Bool) :
    set_busy (set_slot g t v) b = set_slot (set_busy g b) t v := rfl

/-- The callback leaves alone, and does not look at, a slot outside its reach: the head
slot when the queue is non-empty, the next one when it holds two entries or more. -/
theorem callback_set_slot (g : Globals) (rc hc : Bool) (t : Nat) (v : tTraceLogUartMessage)
    (h8 : g.uart_queue.count < 256)
    (h1 : g.uart_queue.count ≠ 0 → t ≠ g.uart_queue.head)
    (h2 : 2 ≤ g.uart_queue.count → t ≠ (g.uart_queue.head + 1) % TRACE_LOG_UART_QUEUE_SIZE) :
    (trace_log_tx_complete_callback (set_slot g t v) rc hc).1
      = set_slot (trace_log_tx_complete_callback g rc hc).1 t v := by
  rw [callback_cases _ _ _ (show (set_slot g t v).uart_queue.count < 256 from h8),
    callback_cases _ _ _ h8]
  simp only [set_slot_count]
  by_cases c0 : g.uart_queue.count = 0
  · rw [if_pos c0, if_pos c0]; rfl
  · have hp : pop (clear_busy (set_slot g t v)) = set_slot (pop (clear_busy g)) t v := by
      rw [clear_busy_set_slot, pop_set_slot (clear_busy g) t v (h1 c0)]
    rw [if_neg c0, if_neg c0, hp]
    by_cases c1 : g.uart_queue.count = 1
    · rw [if_pos c1, if_pos c1]
    · have c2 : 2 ≤ g.uart_queue.count := by omega
      have hnv : NextValid (set_slot g t v) ↔ NextValid g := by
        unfold NextValid
        rw [set_slot_head, slot_at_set_slot, if_neg (fun h => h2 c2 h.1)]
      rw [if_neg c1, if_neg c1]
      by_cases hr : rc = false
      · rw [if_pos hr, if_pos hr]
      · rw [if_neg hr, if_neg hr]
        by_cases hn : NextValid g
        · rw [if_pos hn, if_pos (hnv.mpr hn)]; rfl
        · rw [if_neg hn, if_neg (fun h => hn (hnv.mp h))]
          exact pop_set_slot (pop (clear_busy g)) t v (h2 c2)

theorem callback_slot_at (g : Globals) (rc hc : Bool) (t : Nat)
    (h8 : g.uart_queue.count < 256)
    (h1 : g.uart_queue.count ≠ 0 → t ≠ g.uart_queue.head)
    (h2 : 2 ≤ g.uart_queue.count → t ≠ (g.uart_queue.head + 1) % TRACE_LOG_UART_QUEUE_SIZE) :
    slot_at (trace_log_tx_complete_callback g rc hc).1.uart_queue t = slot_at g.uart_queue t := by
  have hp1 : g.uart_queue.count ≠ 0 →
      slot_at (pop (clear_busy g)).uart_queue t = slot_at g.uart_queue t := by
    intro c0
    rw [pop_slot, if_neg (fun h => h1 c0 h.1.symm)]
    rfl
  rw [callback_cases _ _ _ h8]
  split
  · rfl
  · rename_i c0
    split
    · exact hp1 c0
    · rename_i c1
      split
      · exact hp1 c0
      · split
        · exact hp1 c0
        · rw [pop_slot, if_neg (fun h => h2 (by omega) h.1.symm)]
          exact hp1 c0

theorem callback_set_tail (g : Globals) (rc hc : Bool) (x : Nat)
    (h8 : g.uart_queue.count < 256) :
    (trace_log_tx_complete_callback (set_tail g x) rc hc).1
      = set_tail (trace_log_tx_complete_callback g rc hc).1 x := by
  rw [callback_cases _ _ _ (show (set_tail g x).uart_queue.count < 256 from h8),
    callback_cases _ _ _ h8]
  have hnv : NextValid (set_tail g x) ↔ NextValid g := Iff.rfl
  have hc0 : (set_tail g x).uart_queue.count = g.uart_queue.count := rfl
  simp only [hnv, hc0]
  split_ifs <;> rfl

theorem callback_set_dropped (g : Globals) (rc hc : Bool) (d : Nat)
    (h8 : g.uart_queue.count < 256) :
    (trace_log_tx_complete_callback { g with trace_dropped_count := d } rc hc).1
      = { (trace_log_tx_complete_callback g rc hc).1 with trace_dropped_count := d } := by
  rw [callback_cases _ _ _ (show ({ g with trace_dropped_count := d } : Globals).uart_queue.count
      < 256 from h8), callback_cases _ _ _ h8]
  have hnv : NextValid { g with trace_dropped_count := d } ↔ NextValid g := Iff.rfl
  have hc0 : ({ g with trace_dropped_count := d } : Globals).uart_queue.count
      = g.uart_queue.count := rfl
  simp only [hnv, hc0]
  split_ifs <;> rfl

/-- Fields the callback never writes, and the direction in which it moves the count. -/
theorem callback_frame (g : Globals) (rc hc : Bool) (h8 : g.uart_queue.count < 256) :
    (trace_log_tx_complete_callback g rc hc).1.uart_queue.tail = g.uart_queue.tail ∧
    (trace_log_tx_complete_callback g rc hc).1.trace_dropped_count = g.trace_dropped_count ∧
    (trace_log_tx_complete_callback g rc hc).1.uart_queue.messages.length
      = g.uart_queue.messages.length ∧
    (trace_log_tx_complete_callback g rc hc).1.uart_queue.count ≤ g.uart_queue.count := by
  have hpl : ∀ s : Globals, (pop s).uart_queue.messages.length = s.uart_queue.messages.length := by
    intro s; simp [pop]
  have hpc : ∀ s : Globals, s.uart_queue.count ≠ 0 → s.uart_queue.count < 256 →
      (pop s).uart_queue.count = s.uart_queue.count - 1 := fun s h0 h => (pop_fields s h0 h).1
  have h1 : g.uart_queue.count ≠ 0 →
      (pop (clear_busy g)).uart_queue.count = g.uart_queue.count - 1 :=
    fun h0 => hpc (clear_busy g) h0 h8
  rw [callback_cases _ _ _ h8]
  split
  · exact ⟨rfl, rfl, rfl, Nat.le_refl _⟩
  · rename_i c0
    split
    · exact ⟨rfl, rfl, hpl _, by rw [h1 c0]; omega⟩
    · rename_i c1
      split
      · exact ⟨rfl, rfl, hpl _, by rw [h1 c0]; omega⟩
      · split
        · exact ⟨rfl, rfl, hpl _, by show (pop (clear_busy g)).uart_queue.count ≤ _; rw [h1 c0]; omega⟩
        · refine ⟨rfl, rfl, by rw [hpl, hpl]; rfl, ?_⟩
          rw [hpc _ (by rw [h1 c0]; omega) (by rw [h1 c0]; omega), h1 c0]
          omega

/-- The callback commutes with a store sequence in progress (count not yet written) whose
slot is outside the callback's reach. -/
theorem callback_stage (g : Globals) (rc hc : Bool) (j : Nat) (x : List Nat)
    (h8 : g.uart_queue.count < 256)
    (h1 : g.uart_queue.count ≠ 0 → g.uart_queue.tail ≠ g.uart_queue.head)
    (h2 : 2 ≤ g.uart_queue.count →
      g.uart_queue.tail ≠ (g.uart_queue.head + 1) % TRACE_LOG_UART_QUEUE_SIZE) :
    (trace_log_tx_complete_callback (stage j g x) rc hc).1
      = stage j (trace_log_tx_complete_callback g rc hc).1 x := by
  have hf := callback_frame g rc hc h8
  have hs := callback_slot_at g rc hc g.uart_queue.tail h8 h1 h2
  unfold stage
  rw [hf.1, hs]
  split
  · rfl
  · split
    · exact callback_set_slot g rc hc _ _ h8 h1 h2
    · rw [callback_set_tail _ _ _ _ (show (set_slot g _ _).uart_queue.count < 256 from h8),
        callback_set_slot g rc hc _ _ h8 h1 h2]

theorem steps_add (ro ho : Bool) (a b : Nat) (x : Producer × Globals) :
    output_steps ro ho (a + b) x = output_steps ro ho b (output_steps ro ho a x) := by
  induction a generalizing x with
  | zero => simp [output_steps]
  | succ a ih =>
    rw [Nat.succ_add]
    exact ih (output_step ro ho x)

theorem steps_done (ro ho : Bool) (k : Nat) (x : Producer × Globals) (h : x.1.pc = Pc.done) :
    output_steps ro ho k x = x := by
  induction k with
  | zero => rfl
  | succ k ih =>
    have : output_step ro ho x = x := by simp [output_step, h]
    rw [output_steps, this, ih]

/-- The whole store sequence of `uart_queue_enqueue` is `push`. -/
theorem steps_store (ro ho : Bool) (p : Producer) (s : Globals)
    (hp : p.pc = Pc.copy) (ht : s.uart_queue.tail < s.uart_queue.messages.length) :
    output_steps ro ho 7 (p, s)
      = (enq_return (stage_producer 6 p s) TL_RESULT_OK, push s p.cur) := by
  rw [show 7 = 6 + 1 from rfl, steps_add, steps_stage ro ho p s 6 (Nat.le_refl _) hp ht]
  simp [output_steps, output_step, stage_producer, stage, stage_slot, set_tail, set_slot, push]

theorem steps_check_busy (ro ho : Bool) (p : Producer) (s : Globals)
    (hp : p.pc = Pc.check_busy) :
    (output_steps ro ho 1 (p, s)).1.pc = Pc.done ∧
    (output_steps ro ho 1 (p, s)).2 = finish s ro ho := by
  cases hb : s.uart_queue.dma_busy <;> simp [output_steps, output_step, hp, hb, finish]

theorem output_finish (g : Globals) (m : List Nat) (ro ho : Bool)
    (h : g.uart_queue.count < 32) :
    (trace_log_uart_output g (some m) ro ho).2.1 = finish (enq g m) ro ho := by
  rw [output_room g m ro ho h]
  unfold finish enq
  split <;> rfl

theorem steps_enter (ro ho : Bool) (m : List Nat) (s : Globals) (hc : s.uart_queue.count < 32) :
    output_steps ro ho 1 (producer_entry m, s)
      = ({ producer_entry m with pc := Pc.enq_check }, s) ∧
    output_steps ro ho 2 (producer_entry m, s)
      = ({ producer_entry m with pc := Pc.notice_check }, s) := by
  have hf : uart_queue_is_full s = false := by
    simp [uart_queue_is_full, TRACE_LOG_UART_QUEUE_SIZE]; omega
  simp [output_steps, output_step, producer_entry, hf]

theorem steps_copy_zero (ro ho : Bool) (m : List Nat) (s : Globals)
    (hc : s.uart_queue.count < 32) (hd : s.trace_dropped_count = 0) :
    output_steps ro ho 3 (producer_entry m, s)
      = ({ producer_entry m with pc := Pc.copy }, s) := by
  rw [show 3 = 2 + 1 from rfl, steps_add, (steps_enter ro ho m s hc).2]
  simp [output_steps, output_step, hd]

theorem steps_notice (ro ho : Bool) (m : List Nat) (s : Globals)
    (hc : s.uart_queue.count < 32) (hd : 0 < s.trace_dropped_count) :
    output_steps ro ho 3 (producer_entry m, s)
      = ({ producer_entry m with
            pc := Pc.enq_check, cur := drop_msg s.trace_dropped_count, stack := [m] },
          { s with trace_dropped_count := 0 }) ∧
    output_steps ro ho 4 (producer_entry m, s)
      = ({ producer_entry m with
            pc := Pc.notice_check, cur := drop_msg s.trace_dropped_count, stack := [m] },
          { s with trace_dropped_count := 0 }) ∧
    output_steps ro ho 5 (producer_entry m, s)
      = ({ producer_entry m with
            pc := Pc.copy, cur := drop_msg s.trace_dropped_count, stack := [m] },
          { s with trace_dropped_count := 0 }) := by
  have hf : uart_queue_is_full ({ s with trace_dropped_count := 0 } : Globals) = false := by
    simp [uart_queue_is_full, TRACE_LOG_UART_QUEUE_SIZE]; omega
  have h3 : output_steps ro ho 3 (producer_entry m, s)
      = ({ producer_entry m with
            pc := Pc.enq_check, cur := drop_msg s.trace_dropped_count, stack := [m] },
          { s with trace_dropped_count := 0 }) := by
    rw [show 3 = 2 + 1 from rfl, steps_add, (steps_enter ro ho m s hc).2]
    simp [output_steps, output_step, hd, producer_entry]
  refine ⟨h3, ?_, ?_⟩
  · rw [show 4 = 3 + 1 from rfl, steps_add, h3]
    simp [output_steps, output_step, hf]
  · rw [show 5 = 3 + 2 from rfl, steps_add, h3]
    simp [output_steps, output_step, hf]

/-- After the drop notice is stored the outer activation resumes at line 210. -/
theorem steps_resume (ro ho : Bool) (m : List Nat) (s : Globals)
    (hc : s.uart_queue.count < 32) (hd : 0 < s.trace_dropped_count)
    (ht : s.uart_queue.tail < s.uart_queue.messages.length) :
    output_steps ro ho 12 (producer_entry m, s)
      = ({ producer_entry m with
            pc := Pc.copy, msg := s.uart_queue.tail, reg := s.uart_queue.count },
         push { s with trace_dropped_count := 0 } (drop_msg s.trace_dropped_count)) := by
  rw [show 12 = 5 + 7 from rfl, steps_add, (steps_notice ro ho m s hc hd).2.2]
  have h7 := steps_store ro ho
    { producer_entry m with
      pc := Pc.copy, cur := drop_msg s.trace_dropped_count, stack := [m] }
    { s with trace_dropped_count := 0 } rfl ht
  rw [h7]
  simp [enq_return, stage_producer, producer_entry]

theorem push_tail_lt (s : Globals) (x : List Nat) (h : s.uart_queue.messages.length = 32) :
    (push s x).uart_queue.tail < (push s x).uart_queue.messages.length := by
  simp only [push, List.length_set, h, TRACE_LOG_UART_QUEUE_SIZE]
  omega

/-- The call up to line 147 is `uart_queue_enqueue`. -/
theorem steps_enqueue (ro ho : Bool) (m : List Nat) (s : Globals)
    (hc : s.uart_queue.count < 32) (hl : s.uart_queue.messages.length = 32)
    (ht : s.uart_queue.tail < 32) :
    (output_steps ro ho (path_length s - 1) (producer_entry m, s)).1.pc = Pc.check_busy ∧
    (output_steps ro ho (path_length s - 1) (producer_entry m, s)).2 = enq s m := by
  have hn : ¬ 32 ≤ s.uart_queue.count := by omega
  have ht2 : s.uart_queue.tail < s.uart_queue.messages.length := by omega
  unfold path_length enq
  rw [if_neg hn]
  by_cases hd : s.trace_dropped_count = 0
  · rw [if_pos hd, enqueue_zero s m hc hd, show 11 - 1 = 3 + 7 from rfl, steps_add,
      steps_copy_zero ro ho m s hc hd]
    have h7 := steps_store ro ho { producer_entry m with pc := Pc.copy } s rfl ht2
    rw [h7]
    simp [enq_return, stage_producer, producer_entry]
  · have hd2 : 0 < s.trace_dropped_count := Nat.pos_of_ne_zero hd
    rw [if_neg hd, enqueue_pos s m hc hd2, show 20 - 1 = 12 + 7 from rfl, steps_add,
      steps_resume ro ho m s hc hd2 ht2]
    have h7 := steps_store ro ho
      { producer_entry m with
        pc := Pc.copy, msg := s.uart_queue.tail, reg := s.uart_queue.count }
      (push { s with trace_dropped_count := 0 } (drop_msg s.trace_dropped_count)) rfl
      (push_tail_lt _ _ hl)
    rw [h7]
    simp [enq_return, stage_producer, producer_entry]

/-- The step machine refines the model: an unpreempted call ends after `path_length`
steps in the state computed by `trace_log_uart_output`. -/
theorem steps_end (ro ho : Bool) (m : List Nat) (s : Globals) (k : Nat)
    (hl : s.uart_queue.messages.length = 32) (ht : s.uart_queue.tail < 32)
    (hk : path_length s ≤ k) :
    (output_steps ro ho k (producer_entry m, s)).1.pc = Pc.done ∧
    (output_steps ro ho k (producer_entry m, s)).2
      = (trace_log_uart_output s (some m) ro ho).2.1 := by
  obtain ⟨r, rfl⟩ : ∃ r, k = path_length s + r := ⟨k - path_length s, by omega⟩
  rw [steps_add]
  suffices h : (output_steps ro ho (path_length s) (producer_entry m, s)).1.pc = Pc.done ∧
      (output_steps ro ho (path_length s) (producer_entry m, s)).2
        = (trace_log_uart_output s (some m) ro ho).2.1 by
    rw [steps_done ro ho r _ h.1]; exact h
  by_cases hc : 32 ≤ s.uart_queue.count
  · have hf : uart_queue_is_full s = true := by
      simp [uart_queue_is_full, TRACE_LOG_UART_QUEUE_SIZE]; omega
    rw [output_full s m ro ho hc]
    simp [path_length, hc, output_steps, output_step, producer_entry, hf]
  · have hc2 : s.uart_queue.count < 32 := by omega
    have h1 := steps_enqueue ro ho m s hc2 hl ht
    have hp : 1 ≤ path_length s := by unfold path_length; split_ifs <;> omega
    rw [show path_length s = (path_length s - 1) + 1 by omega, steps_add,
      output_finish s m ro ho hc2, ← h1.2]
    exact steps_check_busy ro ho _ _ h1.1

theorem push_slot_at (s : Globals) (x : List Nat) (j : Nat) :
    slot_at (push s x).uart_queue j =
      if s.uart_queue.tail = j ∧ s.uart_queue.tail < s.uart_queue.messages.length then
        fill_slot (slot_at s.uart_queue s.uart_queue.tail) x
      else slot_at s.uart_queue j := by
  simp only [push, slot_at, getD_set]

/-- Retiring the head and storing at the tail commute when they are different slots. -/
theorem pop_push (s : Globals) (x : List Nat) (h : s.uart_queue.tail ≠ s.uart_queue.head) :
    pop (push s x) = push (pop s) x := by
  have h1 : slot_at (push s x).uart_queue s.uart_queue.head
      = slot_at s.uart_queue s.uart_queue.head := by
    rw [push_slot_at, if_neg (fun hh => h hh.1)]
  have h2 : slot_at (pop s).uart_queue s.uart_queue.tail
      = slot_at s.uart_queue s.uart_queue.tail := by
    rw [pop_slot, if_neg (fun hh => h hh.1.symm)]
  have h3 : (s.uart_queue.count + 1) % 256 + 255 = (s.uart_queue.count + 255) % 256 + 1
      ∨ ((s.uart_queue.count + 1) % 256 + 255) % 256
          = ((s.uart_queue.count + 255) % 256 + 1) % 256 := Or.inr (by omega)
  have h4 : ((s.uart_queue.count + 1) % 256 + 255) % 256
      = ((s.uart_queue.count + 255) % 256 + 1) % 256 := by omega
  show ({ (push s x) with uart_queue :=
      { (push s x).uart_queue with
        messages := (push s x).uart_queue.messages.set (push s x).uart_queue.head
          { slot_at (push s x).uart_queue (push s x).uart_queue.head with in_use := false },
        head := ((push s x).uart_queue.head + 1) % TRACE_LOG_UART_QUEUE_SIZE,
        count := ((push s x).uart_queue.count + 255) % 256 } } : Globals) =
    { (pop s) with uart_queue :=
      { (pop s).uart_queue with
        messages := (pop s).uart_queue.messages.set (pop s).uart_queue.tail
          (fill_slot (slot_at (pop s).uart_queue (pop s).uart_queue.tail) x),
        tail := ((pop s).uart_queue.tail + 1) % TRACE_LOG_UART_QUEUE_SIZE,
        count := ((pop s).uart_queue.count + 1) % 256 } }
  have e1 : (push s x).uart_queue.head = s.uart_queue.head := rfl
  have e2 : (pop s).uart_queue.tail = s.uart_queue.tail := rfl
  rw [e1, e2, h1, h2]
  simp only [push, pop]
  rw [List.set_comm _ _ _ h, h4]

theorem clear_busy_push (s : Globals) (x : List Nat) :
    clear_busy (push s x) = push (clear_busy s) x := rfl

theorem set_busy_push (s : Globals) (x : List Nat) (b : Bool) :
    set_busy (push s x) b = push (set_busy s b) x := rfl

theorem nextValid_push (s : Globals) (x : List Nat)
    (h : s.uart_queue.tail ≠ (s.uart_queue.head + 1) % TRACE_LOG_UART_QUEUE_SIZE) :
    NextValid (push s x) ↔ NextValid s := by
  unfold NextValid
  have e1 : (push s x).uart_queue.head = s.uart_queue.head := rfl
  rw [e1, push_slot_at, if_neg (fun hh => h hh.1)]

/-- With two or more entries queued the callback commutes with a whole store sequence. -/
theorem callback_push (s : Globals) (x : List Nat) (rc hc : Bool)
    (h2 : 2 ≤ s.uart_queue.count) (h32 : s.uart_queue.count < 32)
    (ht : s.uart_queue.tail = (s.uart_queue.head + s.uart_queue.count) % 32) :
    (trace_log_tx_complete_callback (push s x) rc hc).1
      = push (trace_log_tx_complete_callback s rc hc).1 x := by
  have hc1 : (push s x).uart_queue.count = s.uart_queue.count + 1 := by
    show (s.uart_queue.count + 1) % 256 = _
    omega
  have hne1 : s.uart_queue.tail ≠ s.uart_queue.head := by rw [ht]; omega
  have hne2 : s.uart_queue.tail ≠ (s.uart_queue.head + 1) % TRACE_LOG_UART_QUEUE_SIZE := by
    rw [ht]; simp only [TRACE_LOG_UART_QUEUE_SIZE]; omega
  have hP : pop (clear_busy (push s x)) = push (pop (clear_busy s)) x := by
    rw [clear_busy_push]; exact pop_push _ _ hne1
  have hPP : pop (pop (clear_busy (push s x))) = push (pop (pop (clear_busy s))) x := by
    rw [hP]
    refine pop_push _ _ ?_
    show s.uart_queue.tail ≠ (s.uart_queue.head + 1) % TRACE_LOG_UART_QUEUE_SIZE
    exact hne2
  have e0 : ¬ (push s x).uart_queue.count = 0 := by rw [hc1]; omega
  have e1 : ¬ (push s x).uart_queue.count = 1 := by rw [hc1]; omega
  have f0 : ¬ s.uart_queue.count = 0 := by omega
  have f1 : ¬ s.uart_queue.count = 1 := by omega
  rw [callback_cases _ rc hc (by rw [hc1]; omega), callback_cases s rc hc (by omega),
    if_neg e0, if_neg e1, if_neg f0, if_neg f1]
  by_cases hr : rc = false
  · rw [if_pos hr, if_pos hr, hP]
  · rw [if_neg hr, if_neg hr]
    by_cases hn : NextValid s
    · rw [if_pos hn, if_pos ((nextValid_push s x hne2).mpr hn), hP]; rfl
    · rw [if_neg hn, if_neg (fun h => hn ((nextValid_push s x hne2).mp h)), hPP]

theorem enq_zero (s : Globals) (m : List Nat) (h : s.uart_queue.count < 32)
    (hd : s.trace_dropped_count = 0) : enq s m = push s m := by
  unfold enq; rw [enqueue_zero s m h hd]

theorem enq_pos (s : Globals) (m : List Nat) (h : s.uart_queue.count < 32)
    (hd : s.trace_dropped_count ≠ 0) :
    enq s m = push (push { s with trace_dropped_count := 0 }
      (drop_msg s.trace_dropped_count)) m := by
  unfold enq; rw [enqueue_pos s m h (Nat.pos_of_ne_zero hd)]

theorem push_count (s : Globals) (x : List Nat) (h : s.uart_queue.count < 255) :
    (push s x).uart_queue.count = s.uart_queue.count + 1 := by
  show (s.uart_queue.count + 1) % 256 = _
  omega

theorem push_tail_eq (s : Globals) (x : List Nat) (h : s.uart_queue.count < 255)
    (ht : s.uart_queue.tail = (s.uart_queue.head + s.uart_queue.count) % 32) :
    (push s x).uart_queue.tail
      = ((push s x).uart_queue.head + (push s x).uart_queue.count) % 32 := by
  rw [push_count s x h]
  show (s.uart_queue.tail + 1) % TRACE_LOG_UART_QUEUE_SIZE = (s.uart_queue.head + _) % 32
  rw [ht]; simp only [TRACE_LOG_UART_QUEUE_SIZE]; omega

/-- With two or more entries queued the callback commutes with `uart_queue_enqueue`. -/
theorem callback_enq (s : Globals) (m : List Nat) (rc hc : Bool)
    (h2 : 2 ≤ s.uart_queue.count) (hr : Room s)
    (ht : s.uart_queue.tail = (s.uart_queue.head + s.uart_queue.count) % 32) :
    (trace_log_tx_complete_callback (enq s m) rc hc).1
      = enq (trace_log_tx_complete_callback s rc hc).1 m := by
  have hf := callback_frame s rc hc (by unfold Room at hr; split at hr <;> omega)
  unfold Room at hr
  by_cases hd : s.trace_dropped_count = 0
  · rw [if_pos hd] at hr
    rw [enq_zero s m (by omega) hd, enq_zero _ m (by omega) (by rw [hf.2.1]; exact hd),
      callback_push s m rc hc h2 (by omega) ht]
  · rw [if_neg hd] at hr
    have hc0 : ({ s with trace_dropped_count := 0 } : Globals).uart_queue.count < 255 := by
      show s.uart_queue.count < 255; omega
    have hc1 := push_count { s with trace_dropped_count := 0 } (drop_msg s.trace_dropped_count)
      hc0
    have hc1b : (push { s with trace_dropped_count := 0 }
        (drop_msg s.trace_dropped_count)).uart_queue.count = s.uart_queue.count + 1 := hc1
    have hE1 := callback_push (push { s with trace_dropped_count := 0 }
        (drop_msg s.trace_dropped_count)) m rc hc (by rw [hc1b]; omega) (by rw [hc1b]; omega)
      (push_tail_eq _ _ hc0 ht)
    have hs0 := callback_push { s with trace_dropped_count := 0 }
      (drop_msg s.trace_dropped_count) rc hc h2 (show s.uart_queue.count < 32 by omega) ht
    rw [enq_pos s m (by omega) hd, enq_pos _ m (by omega) (by rw [hf.2.1]; exact hd), hf.2.1,
      hE1, hs0, callback_set_dropped s rc hc 0 (by omega)]

/-- Retiring the head commutes with `uart_queue_enqueue` on a non-empty queue. -/
theorem pop_enq (s : Globals) (m : List Nat)
    (h1 : 1 ≤ s.uart_queue.count) (hr : Room s)
    (ht : s.uart_queue.tail = (s.uart_queue.head + s.uart_queue.count) % 32) :
    pop (clear_busy (enq s m)) = enq (pop (clear_busy s)) m := by
  unfold Room at hr
  have hpc : (pop (clear_busy s)).uart_queue.count = s.uart_queue.count - 1 :=
    (pop_fields (clear_busy s) (show s.uart_queue.count ≠ 0 by omega)
      (show s.uart_queue.count < 256 by split at hr <;> omega)).1
  have hne1 : s.uart_queue.tail ≠ s.uart_queue.head := by
    rw [ht]; split at hr <;> omega
  by_cases hd : s.trace_dropped_count = 0
  · rw [if_pos hd] at hr
    rw [enq_zero s m (by omega) hd,
      enq_zero (pop (clear_busy s)) m (by rw [hpc]; omega) hd, clear_busy_push]
    exact pop_push _ _ hne1
  · rw [if_neg hd] at hr
    rw [enq_pos s m (by omega) hd, enq_pos (pop (clear_busy s)) m (by rw [hpc]; omega) hd,
      clear_busy_push, clear_busy_push, pop_push, pop_push]
    · rfl
    · exact hne1
    · show (s.uart_queue.tail + 1) % TRACE_LOG_UART_QUEUE_SIZE ≠ s.uart_queue.head
      rw [ht]; simp only [TRACE_LOG_UART_QUEUE_SIZE]; omega

theorem finish_busy (g : Globals) (ro ho : Bool) (h : g.uart_queue.dma_busy = true) :
    finish g ro ho = g := by
  unfold finish; rw [if_pos h]

theorem finish_idle (g : Globals) (ro ho : Bool)
    (h : g.uart_queue.count = 0 ∨ ro = false) : finish g ro ho = g := by
  unfold finish
  split
  · rfl
  · rcases h with h | h
    · rw [start_idle g ro ho (Or.inl h)]
    · rw [start_idle g ro ho (Or.inr (Or.inr h))]

/-- After the enqueue of a call that found one entry and a drop recorded, the slot after
the head holds the drop notice. -/
theorem nextValid_notice (s : Globals) (m : List Nat) (hs : ShapeOk s)
    (h1 : s.uart_queue.count = 1) (hd : s.trace_dropped_count ≠ 0)
    (ht : s.uart_queue.tail = (s.uart_queue.head + s.uart_queue.count) % 32) :
    NextValid (enq s m) := by
  rw [enq_pos s m (by omega) hd]
  unfold NextValid
  have ht1 : s.uart_queue.tail = (s.uart_queue.head + 1) % TRACE_LOG_UART_QUEUE_SIZE := by
    rw [ht, h1]; rfl
  have hslot : slot_at (push (push { s with trace_dropped_count := 0 }
        (drop_msg s.trace_dropped_count)) m).uart_queue
        ((s.uart_queue.head + 1) % TRACE_LOG_UART_QUEUE_SIZE)
      = stored_slot (drop_msg s.trace_dropped_count) := by
    rw [push_slot_at, if_neg, push_slot_at, if_pos, fill_slot_stored _ _ (slot_at_shape s hs _)]
    · exact ⟨ht1, by
        show s.uart_queue.tail < s.uart_queue.messages.length
        rw [hs.1, ht]; omega⟩
    · intro hh2
      have := hh2.1
      change (s.uart_queue.tail + 1) % TRACE_LOG_UART_QUEUE_SIZE
        = (s.uart_queue.head + 1) % TRACE_LOG_UART_QUEUE_SIZE at this
      rw [ht1] at this
      simp only [TRACE_LOG_UART_QUEUE_SIZE] at this
      omega
  show (slot_at _ ((s.uart_queue.head + 1) % TRACE_LOG_UART_QUEUE_SIZE)).length ≠ 0 ∧
    (slot_at _ ((s.uart_queue.head + 1) % TRACE_LOG_UART_QUEUE_SIZE)).length ≤ 256
  rw [hslot]
  exact stored_slot_valid _ (cstr_drop_msg _)

theorem enq_count (s : Globals) (m : List Nat) (h : s.uart_queue.count < 32) :
    (enq s m).uart_queue.count
      = s.uart_queue.count + (if s.trace_dropped_count = 0 then 1 else 2) :=
  (enqueue_fields s m h).1

/-- The rest of the call after a callback that ran right after the enqueue: either nothing
more happens (the result is that of the order output, callback), or the state is the one
of the order callback, output. -/
theorem callback_after_enqueue (g : Globals) (m : List Nat) (ro ho rc hc : Bool)
    (hs : ShapeOk g) (h1 : 1 ≤ g.uart_queue.count) (hr : Room g)
    (ht : g.uart_queue.tail = (g.uart_queue.head + g.uart_queue.count) % 32) :
    finish (trace_log_tx_complete_callback (enq g m) rc hc).1 ro ho
        = (trace_log_tx_complete_callback (enq g m) rc hc).1 ∨
    finish (trace_log_tx_complete_callback (enq g m) rc hc).1 ro ho
        = finish (enq (trace_log_tx_complete_callback g rc hc).1 m) ro ho := by
  have h32 : g.uart_queue.count < 32 := by unfold Room at hr; split at hr <;> omega
  by_cases h2 : 2 ≤ g.uart_queue.count
  · exact Or.inr (by rw [callback_enq g m rc hc h2 hr ht])
  · have hc1 : g.uart_queue.count = 1 := by omega
    have hcb : (trace_log_tx_complete_callback g rc hc).1 = pop (clear_busy g) := by
      rw [callback_cases g rc hc (by omega), if_neg (by omega), if_pos hc1]
    have hP := pop_enq g m h1 hr ht
    have hEc := enq_count g m h32
    have e0 : ¬ (enq g m).uart_queue.count = 0 := by rw [hEc]; split <;> omega
    have e1 : ¬ (enq g m).uart_queue.count = 1 := by rw [hEc]; split <;> omega
    rw [hcb, ← hP, callback_cases (enq g m) rc hc (by rw [hEc]; split <;> omega),
      if_neg e0, if_neg e1]
    by_cases hrc : rc = false
    · rw [if_pos hrc]; exact Or.inr rfl
    · rw [if_neg hrc]
      by_cases hn : NextValid (enq g m)
      · rw [if_pos hn]
        cases hc
        · exact Or.inr rfl
        · exact Or.inl (finish_busy _ ro ho rfl)
      · rw [if_neg hn]
        refine Or.inl (finish_idle _ ro ho (Or.inl ?_))
        have hd : g.trace_dropped_count = 0 := by
          by_contra hd
          exact hn (nextValid_notice g m hs hc1 hd ht)
        have hq : (pop (clear_busy (enq g m))).uart_queue.count = 1 := by
          rw [(pop_fields (clear_busy (enq g m)) e0
            (show (enq g m).uart_queue.count < 256 by rw [hEc]; split <;> omega)).1]
          show (enq g m).uart_queue.count - 1 = 1
          rw [hEc, if_pos hd]; omega
        rw [(pop_fields _ (by rw [hq]; omega) (by rw [hq]; omega)).1, hq]

theorem stage_producer_frame (j : Nat) (p : Producer) (s t : Globals) (hj : j ≤ 5)
    (h : s.uart_queue.tail = t.uart_queue.tail) :
    stage_producer j p s = stage_producer j p t := by
  unfold stage_producer
  rw [h, if_neg (show ¬ 6 ≤ j by omega), if_neg (show ¬ 6 ≤ j by omega)]

/-- Up to the first store of `count` the callback commutes with the steps of the call:
running the callback at such a point gives the state and the producer that the same steps
reach when the callback runs first. -/
theorem steps_before_store (g : Globals) (m : List Nat) (ro ho rc hc : Bool) (n : Nat)
    (hl : g.uart_queue.messages.length = 32) (h32 : g.uart_queue.count < 32)
    (ht : g.uart_queue.tail = (g.uart_queue.head + g.uart_queue.count) % 32)
    (hn : n ≤ if g.trace_dropped_count = 0 then 8 else 10) :
    output_steps ro ho n (producer_entry m, (trace_log_tx_complete_callback g rc hc).1)
      = ((output_steps ro ho n (producer_entry m, g)).1,
         (trace_log_tx_complete_callback (output_steps ro ho n (producer_entry m, g)).2
            rc hc).1) := by
  have h8 : g.uart_queue.count < 256 := by omega
  have hf := callback_frame g rc hc h8
  have hc32 : (trace_log_tx_complete_callback g rc hc).1.uart_queue.count < 32 := by omega
  have hn1 : g.uart_queue.count ≠ 0 → g.uart_queue.tail ≠ g.uart_queue.head := by
    intro h0; rw [ht]; omega
  have hn2 : 2 ≤ g.uart_queue.count →
      g.uart_queue.tail ≠ (g.uart_queue.head + 1) % TRACE_LOG_UART_QUEUE_SIZE := by
    intro h0; rw [ht]; simp only [TRACE_LOG_UART_QUEUE_SIZE]; omega
  have htl : g.uart_queue.tail < g.uart_queue.messages.length := by rw [hl, ht]; omega
  have htl2 : (trace_log_tx_complete_callback g rc hc).1.uart_queue.tail
      < (trace_log_tx_complete_callback g rc hc).1.uart_queue.messages.length := by
    rw [hf.1, hf.2.2.1]; exact htl
  by_cases h0 : n = 0
  · subst h0; rfl
  by_cases h1 : n = 1
  · subst h1
    rw [(steps_enter ro ho m g h32).1, (steps_enter ro ho m _ hc32).1]
  by_cases h2 : n = 2
  · subst h2
    rw [(steps_enter ro ho m g h32).2, (steps_enter ro ho m _ hc32).2]
  by_cases hd : g.trace_dropped_count = 0
  · rw [if_pos hd] at hn
    obtain ⟨j, rfl⟩ : ∃ j, n = 3 + j := ⟨n - 3, by omega⟩
    have hj : j ≤ 5 := by omega
    rw [steps_add, steps_add, steps_copy_zero ro ho m g h32 hd,
      steps_copy_zero ro ho m _ hc32 (by rw [hf.2.1]; exact hd),
      steps_stage ro ho _ g j (by omega) rfl htl,
      steps_stage ro ho _ _ j (by omega) rfl htl2]
    show (_, _) = (_, (trace_log_tx_complete_callback (stage j g m) rc hc).1)
    rw [callback_stage g rc hc j m h8 hn1 hn2,
      stage_producer_frame j _ _ g hj hf.1]
    rfl
  · rw [if_neg hd] at hn
    have hd2 : 0 < g.trace_dropped_count := Nat.pos_of_ne_zero hd
    have hd3 : 0 < (trace_log_tx_complete_callback g rc hc).1.trace_dropped_count := by
      rw [hf.2.1]; exact hd2
    have hs0 := callback_set_dropped g rc hc 0 h8
    have hA := steps_notice ro ho m g h32 hd2
    have hB := steps_notice ro ho m _ hc32 hd3
    rw [hf.2.1] at hB
    by_cases h3 : n = 3
    · subst h3; rw [hA.1, hB.1, hs0]
    by_cases h4 : n = 4
    · subst h4; rw [hA.2.1, hB.2.1, hs0]
    obtain ⟨j, rfl⟩ : ∃ j, n = 5 + j := ⟨n - 5, by omega⟩
    have hj : j ≤ 5 := by omega
    rw [steps_add, steps_add, hA.2.2, hB.2.2,
      steps_stage ro ho _ _ j (by omega) rfl (show
        ({ g with trace_dropped_count := 0 } : Globals).uart_queue.tail
          < ({ g with trace_dropped_count := 0 } : Globals).uart_queue.messages.length
        from htl),
      steps_stage ro ho _ _ j (by omega) rfl (show
        ({ (trace_log_tx_complete_callback g rc hc).1 with
            trace_dropped_count := 0 } : Globals).uart_queue.tail
          < ({ (trace_log_tx_complete_callback g rc hc).1 with
            trace_dropped_count := 0 } : Globals).uart_queue.messages.length
        from htl2)]
    show (_, _) = (_, (trace_log_tx_complete_callback
      (stage j { g with trace_dropped_count := 0 } (drop_msg g.trace_dropped_count)) rc hc).1)
    rw [callback_stage { g with trace_dropped_count := 0 } rc hc j _ h8 hn1 hn2, hs0,
      stage_producer_frame j _
        { (trace_log_tx_complete_callback g rc hc).1 with trace_dropped_count := 0 }
        { g with trace_dropped_count := 0 } hj hf.1]

theorem steps_from_check_busy (ro ho : Bool) (p : Producer) (s : Globals) (k : Nat)
    (hp : p.pc = Pc.check_busy) (hk : 1 ≤ k) :
    (output_steps ro ho k (p, s)).2 = finish s ro ho := by
  obtain ⟨r, rfl⟩ : ∃ r, k = 1 + r := ⟨k - 1, by omega⟩
  have h := steps_check_busy ro ho p s hp
  rw [steps_add, steps_done ro ho r _ h.1]
  exact h.2

/-- Preemption before the first store of `count`: the callback might as well have run
before the call. -/
theorem preempted_before_store (g : Globals) (m : List Nat) (ro ho rc hc : Bool) (n : Nat)
    (hl : g.uart_queue.messages.length = 32) (h32 : g.uart_queue.count < 32)
    (ht : g.uart_queue.tail = (g.uart_queue.head + g.uart_queue.count) % 32)
    (hn : n ≤ if g.trace_dropped_count = 0 then 8 else 10) :
    preempted_output n g m ro ho rc hc = callback_then_output g m ro ho rc hc := by
  have hf := callback_frame g rc hc (show g.uart_queue.count < 256 by omega)
  unfold preempted_output callback_then_output
  rw [← steps_before_store g m ro ho rc hc n hl h32 ht hn, ← steps_add]
  refine (steps_end ro ho m _ (n + 24) (by rw [hf.2.2.1]; exact hl)
    (by rw [hf.1, ht]; omega) ?_).2
  unfold path_length
  split_ifs <;> omega

/-- Preemption after the call has ended. -/
theorem preempted_after_end (g : Globals) (m : List Nat) (ro ho rc hc : Bool) (n : Nat)
    (hl : g.uart_queue.messages.length = 32) (ht : g.uart_queue.tail < 32)
    (hn : path_length g ≤ n) :
    preempted_output n g m ro ho rc hc = output_then_callback g m ro ho rc hc := by
  have h := steps_end ro ho m g n hl ht hn
  unfold preempted_output output_then_callback
  rw [steps_done ro ho 24
    ((output_steps ro ho n (producer_entry m, g)).1,
      (trace_log_tx_complete_callback (output_steps ro ho n (producer_entry m, g)).2 rc hc).1)
    h.1, h.2]

/-- Preemption between the last store of `count` and the test of `dma_busy`. -/
theorem preempted_at_check_busy (g : Globals) (m : List Nat) (ro ho rc hc : Bool)
    (hl : g.uart_queue.messages.length = 32) (h32 : g.uart_queue.count < 32)
    (ht : g.uart_queue.tail < 32) :
    preempted_output (path_length g - 1) g m ro ho rc hc
      = finish (trace_log_tx_complete_callback (enq g m) rc hc).1 ro ho := by
  have h := steps_enqueue ro ho m g h32 hl ht
  unfold preempted_output
  rw [h.2]
  exact steps_from_check_busy ro ho _ _ 24 h.1 (by omega)

/-- Preemption while the message is stored after the drop notice (before its own store of
`count`): the same as a preemption right after the enqueue. -/
theorem preempted_second_store (g : Globals) (m : List Nat) (ro ho rc hc : Bool) (j : Nat)
    (hl : g.uart_queue.messages.length = 32) (h1 : 1 ≤ g.uart_queue.count)
    (h30 : g.uart_queue.count + 2 ≤ 32) (hd : g.trace_dropped_count ≠ 0)
    (ht : g.uart_queue.tail = (g.uart_queue.head + g.uart_queue.count) % 32)
    (hj : j ≤ 5) :
    preempted_output (12 + j) g m ro ho rc hc
      = finish (trace_log_tx_complete_callback (enq g m) rc hc).1 ro ho := by
  have hc0 : ({ g with trace_dropped_count := 0 } : Globals).uart_queue.count < 255 := by
    show g.uart_queue.count < 255; omega
  have hE1c : (push { g with trace_dropped_count := 0 }
      (drop_msg g.trace_dropped_count)).uart_queue.count = g.uart_queue.count + 1 :=
    push_count _ _ hc0
  have hE1t := push_tail_eq { g with trace_dropped_count := 0 }
    (drop_msg g.trace_dropped_count) hc0 ht
  have hE1l := push_tail_lt { g with trace_dropped_count := 0 }
    (drop_msg g.trace_dropped_count) hl
  generalize hE : push { g with trace_dropped_count := 0 }
    (drop_msg g.trace_dropped_count) = E1 at hE1c hE1t hE1l
  have h8 : E1.uart_queue.count < 256 := by omega
  have hf := callback_frame E1 rc hc h8
  have hn1 : E1.uart_queue.count ≠ 0 → E1.uart_queue.tail ≠ E1.uart_queue.head := by
    intro _; rw [hE1t]; omega
  have hn2 : 2 ≤ E1.uart_queue.count →
      E1.uart_queue.tail ≠ (E1.uart_queue.head + 1) % TRACE_LOG_UART_QUEUE_SIZE := by
    intro _; rw [hE1t]; simp only [TRACE_LOG_UART_QUEUE_SIZE]; omega
  obtain ⟨p2, hp2, hpc, hcur, hst⟩ : ∃ p2 : Producer,
      output_steps ro ho 12 (producer_entry m, g) = (p2, E1) ∧ p2.pc = Pc.copy ∧
      p2.cur = m ∧ p2.stack = [] := by
    refine ⟨{ producer_entry m with
        pc := Pc.copy, msg := g.uart_queue.tail, reg := g.uart_queue.count }, ?_, rfl, rfl, rfl⟩
    rw [steps_resume ro ho m g (by omega) (Nat.pos_of_ne_zero hd) (by rw [hl, ht]; omega), hE]
  have htl : (trace_log_tx_complete_callback E1 rc hc).1.uart_queue.tail
      < (trace_log_tx_complete_callback E1 rc hc).1.uart_queue.messages.length := by
    rw [hf.1, hf.2.2.1]; exact hE1l
  have hS : output_steps ro ho (12 + j) (producer_entry m, g)
      = (stage_producer j p2 E1, stage j E1 p2.cur) := by
    rw [steps_add, hp2]
    exact steps_stage ro ho p2 E1 j (by omega) hpc hE1l
  have hT := steps_stage ro ho p2 (trace_log_tx_complete_callback E1 rc hc).1 j (by omega)
    hpc htl
  have h7 := steps_store ro ho p2 (trace_log_tx_complete_callback E1 rc hc).1 hpc htl
  have hret : (enq_return (stage_producer 6 p2 (trace_log_tx_complete_callback E1 rc hc).1)
      TL_RESULT_OK).pc = Pc.check_busy := by
    simp [enq_return, stage_producer, hst]
  unfold preempted_output
  rw [hS]
  show (output_steps ro ho 24
    (stage_producer j p2 E1, (trace_log_tx_complete_callback (stage j E1 p2.cur) rc hc).1)).2
      = _
  rw [callback_stage E1 rc hc j p2.cur h8 hn1 hn2,
    stage_producer_frame j p2 E1 (trace_log_tx_complete_callback E1 rc hc).1 hj hf.1.symm,
    ← hT, ← steps_add, show j + 24 = 7 + (j + 17) by omega, steps_add, h7,
    steps_from_check_busy ro ho _ _ (j + 17) hret (by omega),
    enq_pos g m (by omega) hd, hE, hcur,
    callback_push E1 m rc hc (by omega) (by omega) hE1t]

/-- The program points at which the loaded `count` is about to be written back. -/
theorem store_points (g : Globals) (m : List Nat) (ro ho : Bool)
    (hl : g.uart_queue.messages.length = 32) (h32 : g.uart_queue.count < 32)
    (ht : g.uart_queue.tail < 32) :
    (g.trace_dropped_count = 0 →
      (output_steps ro ho 9 (producer_entry m, g)).1.pc = Pc.store_count) ∧
    (g.trace_dropped_count ≠ 0 →
      (output_steps ro ho 11 (producer_entry m, g)).1.pc = Pc.store_count ∧
      (output_steps ro ho 18 (producer_entry m, g)).1.pc = Pc.store_count) := by
  have htl : g.uart_queue.tail < g.uart_queue.messages.length := by omega
  refine ⟨fun hd => ?_, fun hd => ⟨?_, ?_⟩⟩
  · rw [show 9 = 3 + 6 from rfl, steps_add, steps_copy_zero ro ho m g h32 hd,
      steps_stage ro ho _ g 6 (by omega) rfl htl]
    rfl
  · rw [show 11 = 5 + 6 from rfl, steps_add,
      (steps_notice ro ho m g h32 (Nat.pos_of_ne_zero hd)).2.2]
    have h6 := steps_stage ro ho
      { producer_entry m with
        pc := Pc.copy, cur := drop_msg g.trace_dropped_count, stack := [m] }
      { g with trace_dropped_count := 0 } 6 (by omega) rfl htl
    rw [h6]
    rfl
  · rw [show 18 = 12 + 6 from rfl, steps_add,
      steps_resume ro ho m g h32 (Nat.pos_of_ne_zero hd) htl]
    have h6 := steps_stage ro ho
      { producer_entry m with
        pc := Pc.copy, msg := g.uart_queue.tail, reg := g.uart_queue.count }
      (push { g with trace_dropped_count := 0 } (drop_msg g.trace_dropped_count)) 6
      (by omega) rfl (push_tail_lt _ _ hl)
    rw [h6]
    rfl

theorem steps_count_drop (ro ho : Bool) (p : Producer) (s : Globals) (k : Nat)
    (hp : p.pc = Pc.count_drop) (hk : 1 ≤ k) :
    (output_steps ro ho k (p, s)).2
      = { s with trace_dropped_count := (s.trace_dropped_count + 1) % 4294967296 } := by
  obtain ⟨r, rfl⟩ : ∃ r, k = 1 + r := ⟨k - 1, by omega⟩
  have h1 : output_steps ro ho 1 (p, s)
      = ({ p with pc := Pc.done, result := TL_RESULT_BUFFER_FULL },
         { s with trace_dropped_count := (s.trace_dropped_count + 1) % 4294967296 }) := by
    simp [output_steps, output_step, hp]
  rw [steps_add, h1, steps_done ro ho r _ rfl]

/-- Preemption of a call that finds the queue full: before the test of `count` the
callback comes first; after it the drop is counted all the same. -/
theorem preempted_full (g : Globals) (m : List Nat) (ro ho rc hc : Bool) (n : Nat)
    (hl : g.uart_queue.messages.length = 32) (ht : g.uart_queue.tail < 32)
    (h32 : 32 ≤ g.uart_queue.count) (h8 : g.uart_queue.count < 256) :
    preempted_output n g m ro ho rc hc
      = (if n = 0 then callback_then_output g m ro ho rc hc
         else output_then_callback g m ro ho rc hc) := by
  have hf := callback_frame g rc hc h8
  split
  · rename_i h0
    subst h0
    show (output_steps ro ho 24 (producer_entry m, (trace_log_tx_complete_callback g rc hc).1)).2
      = (trace_log_uart_output (trace_log_tx_complete_callback g rc hc).1 (some m) ro ho).2.1
    refine (steps_end ro ho m _ 24 (by rw [hf.2.2.1]; exact hl) (by rw [hf.1]; exact ht) ?_).2
    unfold path_length
    split_ifs <;> omega
  · rename_i h0
    by_cases h1 : n = 1
    · subst h1
      have hfull : uart_queue_is_full g = true := by
        simp [uart_queue_is_full, TRACE_LOG_UART_QUEUE_SIZE]; omega
      obtain ⟨p1, hS, hpc⟩ : ∃ p1 : Producer,
          output_steps ro ho 1 (producer_entry m, g) = (p1, g) ∧ p1.pc = Pc.count_drop := by
        refine ⟨{ producer_entry m with pc := Pc.count_drop }, ?_, rfl⟩
        simp [output_steps, output_step, producer_entry, hfull]
      unfold preempted_output output_then_callback
      rw [hS, output_full g m ro ho h32]
      show (output_steps ro ho 24 (p1, (trace_log_tx_complete_callback g rc hc).1)).2 = _
      rw [steps_count_drop ro ho p1 _ 24 hpc (by omega), hf.2.1]
      exact (callback_set_dropped g rc hc ((g.trace_dropped_count + 1) % 4294967296) h8).symm
    · exact preempted_after_end g m ro ho rc hc n hl ht (by
        unfold path_length; rw [if_pos h32]; omega)

theorem pending_set_slot (s : Globals) (t : Nat) (v : tTraceLogUartMessage)
    (h : ∀ k, k < s.uart_queue.count →
      (s.uart_queue.head + k) % TRACE_LOG_UART_QUEUE_SIZE ≠ t) :
    pending (set_slot s t v) = pending s := by
  unfold pending
  refine List.map_congr_left (fun k hk => ?_)
  have hk2 : k < s.uart_queue.count := List.mem_range.mp hk
  show slot_at (set_slot s t v).uart_queue ((s.uart_queue.head + k) % TRACE_LOG_UART_QUEUE_SIZE)
    = _
  rw [slot_at_set_slot, if_neg (fun hh => h k hk2 hh.1.symm)]

/-- A slot under construction is not among the queued entries. -/
theorem pending_stage (j : Nat) (s : Globals) (x : List Nat)
    (ht : s.uart_queue.tail = (s.uart_queue.head + s.uart_queue.count) % 32)
    (hc : s.uart_queue.count < 32) :
    pending (stage j s x) = pending s := by
  have h : ∀ k, k < s.uart_queue.count →
      (s.uart_queue.head + k) % TRACE_LOG_UART_QUEUE_SIZE ≠ s.uart_queue.tail := by
    intro k hk; rw [ht]; simp only [TRACE_LOG_UART_QUEUE_SIZE]; omega
  unfold stage
  split
  · rfl
  · split
    · exact pending_set_slot s _ _ h
    · exact pending_set_slot s _ _ h

/-- The queued entries visible at any preemption point: the old entries, followed by an
initial part of the entries the call stores, each completely written. -/
theorem observed_pending (g : Globals) (m : List Nat) (ro ho : Bool) (n : Nat)
    (hs : ShapeOk g) (hb : g.uart_queue.dma_busy = true)
    (htl : g.uart_queue.tail < 32)
    (ht : g.uart_queue.tail = (g.uart_queue.head + g.uart_queue.count) % 32)
    (hr : 32 ≤ g.uart_queue.count ∨ Room g) :
    pending g <+: pending (output_steps ro ho n (producer_entry m, g)).2 ∧
    pending (output_steps ro ho n (producer_entry m, g)).2 <+: pending (enq g m) := by
  have hl : g.uart_queue.messages.length = 32 := hs.1
  have hgl : g.uart_queue.tail < g.uart_queue.messages.length := by omega
  by_cases h32 : 32 ≤ g.uart_queue.count
  · have hE : enq g m = g := by unfold enq; rw [enqueue_full g m h32]
    have hG : pending (output_steps ro ho n (producer_entry m, g)).2 = pending g := by
      by_cases h0 : n = 0
      · subst h0; rfl
      by_cases h1 : n = 1
      · subst h1
        have hfull : uart_queue_is_full g = true := by
          simp [uart_queue_is_full, TRACE_LOG_UART_QUEUE_SIZE]; omega
        simp [output_steps, output_step, producer_entry, hfull]
      · rw [(steps_end ro ho m g n hl htl (by unfold path_length; rw [if_pos h32]; omega)).2,
          output_full g m ro ho h32]
        rfl
    rw [hG, hE]
    exact ⟨List.prefix_refl _, List.prefix_refl _⟩
  · have hroom : Room g := hr.resolve_left h32
    have hc : g.uart_queue.count < 32 := by omega
    unfold Room at hroom
    have hEb : (enq g m).uart_queue.dma_busy = true := by
      unfold enq; rw [(enqueue_fields g m hc).2.1]; exact hb
    have hend : ∀ k, path_length g - 1 ≤ k →
        (output_steps ro ho k (producer_entry m, g)).2 = enq g m := by
      intro k hk
      by_cases hk2 : k = path_length g - 1
      · rw [hk2]; exact (steps_enqueue ro ho m g hc hl htl).2
      · have hp : 1 ≤ path_length g := by unfold path_length; split_ifs <;> omega
        rw [(steps_end ro ho m g k hl htl (by omega)).2, output_finish g m ro ho hc,
          finish_busy _ ro ho hEb]
    by_cases hd : g.trace_dropped_count = 0
    · rw [if_pos hd] at hroom
      have hE : enq g m = push g m := enq_zero g m hc hd
      have hpE : pending (enq g m) = pending g ++ [stored_slot m] := by
        rw [hE]; exact pending_push g m hs ht hc
      have hpl : path_length g = 11 := by unfold path_length; rw [if_neg h32, if_pos hd]
      by_cases hn : n < 10
      · have hG : pending (output_steps ro ho n (producer_entry m, g)).2 = pending g := by
          by_cases h0 : n = 0
          · subst h0; rfl
          by_cases h1 : n = 1
          · subst h1; rw [(steps_enter ro ho m g hc).1]
          by_cases h2 : n = 2
          · subst h2; rw [(steps_enter ro ho m g hc).2]
          obtain ⟨j, rfl⟩ : ∃ j, n = 3 + j := ⟨n - 3, by omega⟩
          rw [steps_add, steps_copy_zero ro ho m g hc hd,
            steps_stage ro ho _ g j (by omega) rfl hgl]
          exact pending_stage j g _ ht hc
        rw [hG, hpE]
        exact ⟨List.prefix_refl _, List.prefix_append _ _⟩
      · rw [hend n (by omega), hpE]
        exact ⟨List.prefix_append _ _, List.prefix_refl _⟩
    · rw [if_neg hd] at hroom
      have hd2 : 0 < g.trace_dropped_count := Nat.pos_of_ne_zero hd
      have hE : enq g m = push (push { g with trace_dropped_count := 0 }
          (drop_msg g.trace_dropped_count)) m := enq_pos g m hc hd
      have hc0 : ({ g with trace_dropped_count := 0 } : Globals).uart_queue.count < 255 := by
        show g.uart_queue.count < 255; omega
      have hp1 : pending (push { g with trace_dropped_count := 0 }
          (drop_msg g.trace_dropped_count))
          = pending g ++ [stored_slot (drop_msg g.trace_dropped_count)] :=
        pending_push { g with trace_dropped_count := 0 } _ hs ht hc
      have hE1c : (push { g with trace_dropped_count := 0 }
          (drop_msg g.trace_dropped_count)).uart_queue.count = g.uart_queue.count + 1 :=
        push_count _ _ hc0
      have hE1t := push_tail_eq { g with trace_dropped_count := 0 }
        (drop_msg g.trace_dropped_count) hc0 ht
      have hpE : pending (enq g m)
          = (pending g ++ [stored_slot (drop_msg g.trace_dropped_count)]) ++ [stored_slot m] := by
        have hp2 := pending_push (push { g with trace_dropped_count := 0 }
          (drop_msg g.trace_dropped_count)) m
          (push_shape { g with trace_dropped_count := 0 } _ hs) hE1t (by rw [hE1c]; omega)
        rw [hE, hp2, hp1]
      have hpl : path_length g = 20 := by unfold path_length; rw [if_neg h32, if_neg hd]
      by_cases hn : n < 12
      · have hG : pending (output_steps ro ho n (producer_entry m, g)).2 = pending g := by
          by_cases h0 : n = 0
          · subst h0; rfl
          by_cases h1 : n = 1
          · subst h1; rw [(steps_enter ro ho m g hc).1]
          by_cases h2 : n = 2
          · subst h2; rw [(steps_enter ro ho m g hc).2]
          by_cases h3 : n = 3
          · subst h3; rw [(steps_notice ro ho m g hc hd2).1]; rfl
          by_cases h4 : n = 4
          · subst h4; rw [(steps_notice ro ho m g hc hd2).2.1]; rfl
          obtain ⟨j, rfl⟩ : ∃ j, n = 5 + j := ⟨n - 5, by omega⟩
          rw [steps_add, (steps_notice ro ho m g hc hd2).2.2]
          have h6 := steps_stage ro ho
            { producer_entry m with
              pc := Pc.copy, cur := drop_msg g.trace_dropped_count, stack := [m] }
            { g with trace_dropped_count := 0 } j (by omega) rfl hgl
          rw [h6]
          exact pending_stage j { g with trace_dropped_count := 0 } _ ht hc
        rw [hG, hpE]
        exact ⟨List.prefix_refl _,
          by rw [List.append_assoc]; exact List.prefix_append _ _⟩
      · by_cases hn2 : n < 19
        · obtain ⟨j, rfl⟩ : ∃ j, n = 12 + j := ⟨n - 12, by omega⟩
          have hG : pending (output_steps ro ho (12 + j) (producer_entry m, g)).2
              = pending g ++ [stored_slot (drop_msg g.trace_dropped_count)] := by
            rw [steps_add, steps_resume ro ho m g hc hd2 hgl]
            have h6 := steps_stage ro ho
              { producer_entry m with
                pc := Pc.copy, msg := g.uart_queue.tail, reg := g.uart_queue.count }
              (push { g with trace_dropped_count := 0 } (drop_msg g.trace_dropped_count)) j
              (by omega) rfl (push_tail_lt _ _ hl)
            rw [h6, ← hp1]
            exact pending_stage j _ _ hE1t (by rw [hE1c]; omega)
          rw [hG, hpE]
          exact ⟨List.prefix_append _ _, List.prefix_append _ _⟩
        · rw [hend n (by omega), hpE]
          exact ⟨by rw [List.append_assoc]; exact List.prefix_append _ _, List.prefix_refl _⟩

theorem output_then_callback_eq (g : Globals) (m : List Nat) (ro ho rc hc : Bool)
    (h32 : g.uart_queue.count < 32) (hb : g.uart_queue.dma_busy = true) :
    output_then_callback g m ro ho rc hc
      = (trace_log_tx_complete_callback (enq g m) rc hc).1 := by
  unfold output_then_callback
  rw [output_finish g m ro ho h32, finish_busy _ ro ho (by
    unfold enq; rw [(enqueue_fields g m h32).2.1]; exact hb)]

theorem callback_then_output_eq (g : Globals) (m : List Nat) (ro ho rc hc : Bool)
    (h32 : g.uart_queue.count < 32) :
    callback_then_output g m ro ho rc hc
      = finish (enq (trace_log_tx_complete_callback g rc hc).1 m) ro ho := by
  have hf := callback_frame g rc hc (show g.uart_queue.count < 256 by omega)
  unfold callback_then_output
  rw [output_finish _ m ro ho (by omega)]

/-! ## C15: preemption by the completion callback -/

/-- C15 amended: take a state with a transmission in flight, consistent ring indices, and
either a full queue or room for everything the call stores (one slot, two when a drop
notice is due), and let `trace_log_tx_complete_callback` preempt
`trace_log_uart_output(m)` after any number `n` of its steps between accesses to the
shared queue. Unpreempted, the steps compute what the sequential function computes. At
every preemption point the queued entries visible to the handler (the `count` slots from
`head`) are the old entries followed by an initial part of the entries the call stores,
each completely written: the slot under construction is never among them. And at every
preemption point other than between the load and the store of `uart_queue.count++`, the
final queue state is the state of one of the two sequential orders. -/
theorem preemption_outside_count_update (g : Globals) (m : List Nat) (ro ho rc hc : Bool)
    (n : Nat) (hshape : ShapeOk g) (hidx : IndexInv g) (hcount : CountInv g)
    (hbusy : g.uart_queue.dma_busy = true)
    (hroom : 32 ≤ g.uart_queue.count ∨
      g.uart_queue.count + (if g.trace_dropped_count = 0 then 1 else 2) ≤ 32) :
    (output_steps ro ho 24 (producer_entry m, g)).2
      = (trace_log_uart_output g (some m) ro ho).2.1 ∧
    pending g <+: pending (output_steps ro ho n (producer_entry m, g)).2 ∧
    pending (output_steps ro ho n (producer_entry m, g)).2
      <+: pending (uart_queue_enqueue g m).2 ∧
    ((output_steps ro ho n (producer_entry m, g)).1.pc ≠ Pc.store_count →
      preempted_output n g m ro ho rc hc = output_then_callback g m ro ho rc hc ∨
      preempted_output n g m ro ho rc hc = callback_then_output g m ro ho rc hc) := by
  have hl : g.uart_queue.messages.length = 32 := hshape.1
  have htl : g.uart_queue.tail < 32 := hidx.2.1
  have ht : g.uart_queue.tail = (g.uart_queue.head + g.uart_queue.count) % 32 := hidx.2.2
  have h1 : 1 ≤ g.uart_queue.count := hcount.2 hbusy
  have h8 : g.uart_queue.count < 256 := by have := hcount.1; omega
  have hobs := observed_pending g m ro ho n hshape hbusy htl ht hroom
  refine ⟨(steps_end ro ho m g 24 hl htl (by unfold path_length; split_ifs <;> omega)).2,
    hobs.1, hobs.2, fun hpc => ?_⟩
  by_cases h32 : 32 ≤ g.uart_queue.count
  · rw [preempted_full g m ro ho rc hc n hl htl h32 h8]
    split
    · exact Or.inr rfl
    · exact Or.inl rfl
  · have hr : Room g := hroom.resolve_left h32
    have hlt : g.uart_queue.count < 32 := by omega
    have hB := callback_after_enqueue g m ro ho rc hc hshape h1 hr ht
    have hB : finish (trace_log_tx_complete_callback (enq g m) rc hc).1 ro ho
          = output_then_callback g m ro ho rc hc ∨
        finish (trace_log_tx_complete_callback (enq g m) rc hc).1 ro ho
          = callback_then_output g m ro ho rc hc := by
      rw [output_then_callback_eq g m ro ho rc hc hlt hbusy,
        callback_then_output_eq g m ro ho rc hc hlt]
      exact hB
    have hsp := store_points g m ro ho hl hlt htl
    by_cases hend : path_length g ≤ n
    · exact Or.inl (preempted_after_end g m ro ho rc hc n hl htl hend)
    by_cases hlast : n = path_length g - 1
    · rw [hlast, preempted_at_check_busy g m ro ho rc hc hl hlt htl]
      exact hB
    by_cases hd : g.trace_dropped_count = 0
    · have hpl : path_length g = 11 := by unfold path_length; rw [if_neg h32, if_pos hd]
      by_cases h9 : n = 9
      · subst h9; exact absurd (hsp.1 hd) hpc
      · exact Or.inr (preempted_before_store g m ro ho rc hc n hl hlt ht (by
          rw [if_pos hd]; omega))
    · have hpl : path_length g = 20 := by unfold path_length; rw [if_neg h32, if_neg hd]
      unfold Room at hr
      rw [if_neg hd] at hr
      by_cases h11 : n = 11
      · subst h11; exact absurd (hsp.2 hd).1 hpc
      by_cases h18 : n = 18
      · subst h18; exact absurd (hsp.2 hd).2 hpc
      by_cases h10 : n ≤ 10
      · exact Or.inr (preempted_before_store g m ro ho rc hc n hl hlt ht (by
          rw [if_neg hd]; exact h10))
      · obtain ⟨j, rfl⟩ : ∃ j, n = 12 + j := ⟨n - 12, by omega⟩
        rw [preempted_second_store g m ro ho rc hc j hl h1 hr hd ht (by omega)]
        exact hB

/-- Instance of C15 amended: with `"a"` in flight, the callback preempts the output of
`"b"` after six steps, between the write of `length` and the write of `in_use`; the final
state is that of a sequential order. -/
theorem preemption_outside_count_update_witness :
    one_in_flight.uart_queue.dma_busy = true ∧
    (output_steps true true 6 (producer_entry [98], one_in_flight)).1.pc = Pc.set_in_use ∧
    (preempted_output 6 one_in_flight [98] true true true true
        = output_then_callback one_in_flight [98] true true true true ∨
     preempted_output 6 one_in_flight [98] true true true true
        = callback_then_output one_in_flight [98] true true true true) :=
  ⟨by decide!, by decide!,
    (preemption_outside_count_update one_in_flight [98] true true true true 6
      (by decide!) ⟨by decide!, by decide!, by decide!⟩ ⟨by decide!, fun _ => by decide!⟩
      (by decide!) (Or.inr (by decide!))).2.2.2 (by decide!)⟩

/-- C15 as stated fails: with `"a"` in flight (count 1), let the callback preempt the
output of `"b"` between the load and the store of `uart_queue.count++` (line 220). The
callback retires `"a"` and decrements `count` to 0; the resumed call stores the value it
had loaded plus one, so the final state has head 1, tail 2 and count 2 for a single queued
entry, where both sequential orders end with count 1. -/
theorem preemption_loses_decrement :
    one_in_flight.uart_queue.count = 1 ∧ one_in_flight.uart_queue.dma_busy = true ∧
    (output_steps true true 9 (producer_entry [98], one_in_flight)).1.pc = Pc.store_count ∧
    (preempted_output 9 one_in_flight [98] true true true true).uart_queue.head = 1 ∧
    (preempted_output 9 one_in_flight [98] true true true true).uart_queue.tail = 2 ∧
    (preempted_output 9 one_in_flight [98] true true true true).uart_queue.count = 2 ∧
    (output_then_callback one_in_flight [98] true true true true).uart_queue.count = 1 ∧
    (callback_then_output one_in_flight [98] true true true true).uart_queue.count = 1 ∧
    preempted_output 9 one_in_flight [98] true true true true
      ≠ output_then_callback one_in_flight [98] true true true true ∧
    preempted_output 9 one_in_flight [98] true true true true
      ≠ callback_then_output one_in_flight [98] true true true true := by
  decide!

end TraceLog
